import Mathlib

/-!
# MiniappBuilder: the client-connection protocol, the archiver, the developer disks

A shallow embedding of `src/MiniappBuilder/ClientConnection.cpp`,
`src/AltSign/Archiver.cpp`, `src/MiniappBuilder/DeveloperDiskManager.cpp` and
of `HandleRequest` and `Disconnect` of `src/MiniappBuilder/ConnectionManager.cpp`.

* `pplx::task<T>` is a state transformer over `World` whose result is an `Outcome`:
  completed with a value, completed with an exception, or never completed.
  `.then` with a value parameter is `PTask.andThen`; `.then` with a task
  parameter is `PTask.thenTask`.
* `std::string` and `std::wstring` texts are `String`; `StringFromWideString`
  and `WideStringFromString` are the identity on them.  The text returned by
  `json.serialize()` is kept as its list of `wchar_t` code units, because
  `SendResponse` narrows every unit to one `unsigned char`.
* Bytes are naturals below 256, `int32_t` is an `Int` wrapped by `toInt32`.
* What the file only declares or links against (the JSON library, the
  `ServerErrorCode` values, the device collaborators, the transport) is either a
  field of `Env` or modelled from the specification, as marked.
* The file system is the list of its paths with their nodes, in the order in
  which directory iteration reports them; a path is the list of its components.
* minizip, the HTTP client and the rendering of an OS version are parameters
  (`Minizip`, `DiskEnv`).  The tasks of the developer-disk manager run one
  after the other and are state transformers over `DiskWorld` that end with a
  value or an exception.
* A connection object is the number that identifies it; the live set of the
  connection manager is an ascending list of these numbers.
-/

namespace MiniappBuilder

/-! ## Exceptions -/

/-- The exception classes `ErrorResponse` tells apart with `dynamic_cast`:
`ServerError` (a code and a user-info map), any other `Error` (a localized
description and a user-info map), and any other `std::exception` (`what()`). -/
inductive Exn where
  | serverError (code : Int) (userInfo : List (String × String))
  | error (localizedDescription : String) (userInfo : List (String × String))
  | other (what : String)
  deriving DecidableEq, Repr

/-! ## JSON values (`web::json::value`) -/

/-- A `web::json::value`. -/
inductive Json where
  | null
  | bool (b : Bool)
  | int (n : Int)
  | double (d : ℚ)
  | str (s : String)
  | arr (elems : List Json)
  | obj (fields : List (String × Json))
  deriving Repr, Inhabited

namespace Json

/-- Field lookup in the element list of an object. -/
def find? (key : String) : List (String × Json) → Option Json
  | [] => none
  | (k, v) :: rest => if k = key then some v else find? key rest

/-- The assignment `object[key] = value`: overwrite the element with this key,
or add one. -/
def setField (key : String) (value : Json) : List (String × Json) → List (String × Json)
  | [] => [(key, value)]
  | (k, v) :: rest =>
    if k = key then (key, value) :: rest else (k, v) :: setField key value rest

/-- The lookup `value[key]` on a non-const value: a null value turns into an
empty object, a missing key reads as null, and indexing anything that is not
an object throws `json_exception`. -/
def index (j : Json) (key : String) : Except Exn Json :=
  match j with
  | .obj fields => .ok ((find? key fields).getD .null)
  | .null => .ok .null
  | _ => .error (.other "not an object")

/-- The lookup `value.at(key)`: throws when the value is not an object or the
key is missing. -/
def atKey (j : Json) (key : String) : Except Exn Json :=
  match j with
  | .obj fields =>
    match find? key fields with
    | some v => .ok v
    | none => .error (.other "Key not found")
  | _ => .error (.other "not an object")

/-- The conversion `value.as_string()`. -/
def as_string : Json → Except Exn String
  | .str s => .ok s
  | _ => .error (.other "not a string")

/-- The conversion `value.as_array()`. -/
def as_array : Json → Except Exn (List Json)
  | .arr elems => .ok elems
  | _ => .error (.other "not an array")

/-- The test `value.has_array_field(key)`. -/
def has_array_field (j : Json) (key : String) : Bool :=
  match j with
  | .obj fields =>
    match find? key fields with
    | some (.arr _) => true
    | _ => false
  | _ => false

/-- The test `value.has_integer_field(key)`. -/
def has_integer_field (j : Json) (key : String) : Bool :=
  match j with
  | .obj fields =>
    match find? key fields with
    | some (.int _) => true
    | _ => false
  | _ => false

end Json

/-! ## Machine integers -/

/-- Wrap an integer to `int32_t`. -/
def toInt32 (n : Int) : Int := (n + 2147483648) % 4294967296 - 2147483648

/-- The conversion `value.as_integer()`: the number as a C `int`. -/
def Json.as_integer : Json → Except Exn Int
  | .int n => .ok (toInt32 n)
  | .double d => .ok (toInt32 (if 0 ≤ d then ⌊d⌋ else ⌈d⌉))
  | _ => .error (.other "not a number")

/-- The four bytes `memcpy` copies out of an `int32_t` on a little-endian host. -/
def int32Bytes (size : Int) : List Nat :=
  let u := (size % 4294967296).toNat
  [u % 256, u / 256 % 256, u / 65536 % 256, u / 16777216 % 256]

/-- The read `*((int32_t*)data.data())` of a four-byte buffer on a
little-endian host.  `ReceiveData(4)` always hands over four bytes; any other
length is outside the model and reads as 0. -/
def int32OfBytes : List Nat → Int
  | [b0, b1, b2, b3] => toInt32 (b0 + 256 * b1 + 65536 * b2 + 16777216 * b3)
  | _ => 0

/-! ## Collaborator data -/

/-- The `OperatingSystemVersion` of a device. -/
structure OperatingSystemVersion where
  majorVersion : Int
  minorVersion : Int
  patchVersion : Int
  deriving DecidableEq, Repr

/-- A `Device` of the device directory: identifier, display name, device type
(the enumerator's number) and operating-system version. -/
structure Device where
  identifier : String
  name : String
  type : Nat
  osVersion : OperatingSystemVersion
  deriving DecidableEq, Repr

/-- A `ProvisioningProfile` object, identified by the data it was built from. -/
structure ProvisioningProfile where
  data : List Nat
  deriving DecidableEq, Repr

/-- A `DebugConnection` handed out by `StartDebugConnection`. -/
structure DebugConnection where
  device : Device
  deriving DecidableEq, Repr

/-- The two overloads of `DebugConnection::EnableUnsignedCodeExecution`. -/
inductive ProcessTarget where
  | pid (processID : Int)
  | processName (name : String)
  deriving DecidableEq, Repr

/-- Lexicographic comparison of two character sequences by character value. -/
def charsLess : List Char → List Char → Bool
  | [], [] => false
  | [], _ :: _ => true
  | _ :: _, [] => false
  | a :: as, b :: bs =>
    if a.toNat < b.toNat then true
    else if b.toNat < a.toNat then false
    else charsLess as bs

/-- The order `std::less<std::string>` of a `std::set<std::string>`. -/
def stringLess (x y : String) : Bool := charsLess x.toList y.toList

/-- Insertion into a `std::set<std::string>`, kept as a strictly ascending list. -/
def stdSetInsert (x : String) : List String → List String
  | [] => [x]
  | y :: ys =>
    if stringLess x y then x :: y :: ys
    else if x = y then y :: ys
    else y :: stdSetInsert x ys

/-! ## Tasks, the world they run in, and its trace -/

/-- The state a `pplx::task` is left in: completed with a value, completed
with an exception (what `task.get()` rethrows), or never completed. -/
inductive Outcome (α : Type) where
  | ok (a : α)
  | raised (e : Exn)
  | pending
  deriving DecidableEq, Repr

/-- What the connection does, in the order it does it. -/
inductive Event where
  | receiveData (expectedSize : Int)
  | sendData (data : List Nat)
  | transportFailed (e : Exn)
  | sendResponse (json : Json)
  | handler (name : String)
  | fetchAnisetteData
  | installApp (filepath udid : String) (activeProfiles : Option (List String))
  | installProvisioningProfiles (profiles : List ProvisioningProfile) (udid : String)
      (activeProfiles : Option (List String))
  | removeProvisioningProfiles (bundleIdentifiers : List String) (udid : String)
  | removeApp (bundleIdentifier udid : String)
  | prepareDevice (device : Device)
  | startDebugConnection (device : Device)
  | enableUnsignedCodeExecution (connection : DebugConnection) (target : ProcessTarget)
  | debugDisconnect (connection : DebugConnection)
  | odslog (message : String)
  deriving Repr

/-- The state a connection runs in: the bytes the peer has written and the
connection has not read yet, the outcome of the coming transport operations
(`some e`: the operation raises `e`; `none` or no entry: it goes through), the
buffers the transport has accepted, the files on disk, and the trace. -/
structure World where
  incoming : List Nat
  faults : List (Option Exn)
  outgoing : List (List Nat)
  files : List (String × List Nat)
  log : List Event
  deriving Repr

/-- A `pplx::task<α>` together with the effects of running it. -/
abbrev PTask (α : Type) := World → Outcome α × World

namespace PTask

/-- A task that is already completed with a value. -/
def pure {α : Type} (a : α) : PTask α := fun w => (.ok a, w)

/-- A task that completes with an exception (a `throw` inside a task body). -/
def raise {α : Type} (e : Exn) : PTask α := fun w => (.raised e, w)

/-- A task whose body returns or throws what `r` says. -/
def ofExcept {α : Type} (r : Except Exn α) : PTask α :=
  match r with
  | .ok a => pure a
  | .error e => raise e

/-- The continuation `.then([](T value) ...)`: runs only when the antecedent
completed with a value; its exception is passed on. -/
def andThen {α β : Type} (t : PTask α) (f : α → PTask β) : PTask β := fun w =>
  match t w with
  | (.ok a, w1) => f a w1
  | (.raised e, w1) => (.raised e, w1)
  | (.pending, w1) => (.pending, w1)

/-- The continuation `.then([](pplx::task<T> task) ...)`: runs once the
antecedent has completed, with a value or with an exception. -/
def thenTask {α β : Type} (t : PTask α) (f : Except Exn α → PTask β) : PTask β := fun w =>
  match t w with
  | (.ok a, w1) => f (.ok a) w1
  | (.raised e, w1) => f (.error e) w1
  | (.pending, w1) => (.pending, w1)

/-- Append an event to the trace. -/
def trace (ev : Event) : PTask Unit := fun w => (.ok (), { w with log := w.log ++ [ev] })

end PTask

/-! ## What the file takes from outside -/

/-- The parts `ClientConnection.cpp` uses and does not define: the JSON
library's text codec and base64 decoder, the `ServerErrorCode` enumerators, the
`ProvisioningProfile` constructor, the device, anisette and debug
collaborators, and the two helpers for temporary file names.  A collaborator
task is given by how it completes; `InstallApp` also by the progress values it
reports before completing. -/
structure Env where
  serialize : Json → List Nat
  parse : List Nat → Except Exn Json
  from_base64 : String → Except Exn (List Nat)
  UnknownRequest : Int
  InvalidAnisetteData : Int
  DeviceNotFound : Int
  UnderlyingError : Int
  Unknown : Int
  newProvisioningProfile : List Nat → Except Exn ProvisioningProfile
  FetchAnisetteData : Option Json
  InstallApp : String → String → Option (List String) → List ℚ × Except Exn Unit
  InstallProvisioningProfiles :
    List ProvisioningProfile → String → Option (List String) → Except Exn Unit
  RemoveProvisioningProfiles : List String → String → Except Exn Unit
  RemoveApp : String → String → Except Exn Unit
  availableDevices : List Device
  PrepareDevice : Device → Except Exn Unit
  StartDebugConnection : Device → Except Exn DebugConnection
  EnableUnsignedCodeExecution : DebugConnection → ProcessTarget → Except Exn Unit
  temporary_directory : String
  make_uuid : String

/-! ## Transport -/

/-- Modelled from the spec: `SendData`, the pure virtual send of the
connection (`SendBytes(buffer)` of the transport abstraction, implemented by
the wired and wireless channels).  The transport either accepts the whole
buffer or raises. -/
def SendData (data : List Nat) : PTask Unit := fun w =>
  let w1 := { w with log := w.log ++ [Event.sendData data], faults := w.faults.tail }
  match w.faults.head? with
  | some (some e) => (.raised e, { w1 with log := w1.log ++ [Event.transportFailed e] })
  | _ => (.ok (), { w1 with outgoing := w1.outgoing ++ [data] })

/-- Modelled from the spec: `ReceiveData`, the pure virtual receive of the
connection (`ReceiveBytes(count)` of the transport abstraction).  It hands over
exactly `expectedSize` bytes of what the peer wrote, raises when the transport
fails, and stays pending while the peer has not written that many bytes (a
stalled receive blocks the continuation indefinitely). -/
def ReceiveData (expectedSize : Int) : PTask (List Nat) := fun w =>
  let w1 := { w with log := w.log ++ [Event.receiveData expectedSize], faults := w.faults.tail }
  match w.faults.head? with
  | some (some e) => (.raised e, { w1 with log := w1.log ++ [Event.transportFailed e] })
  | _ =>
    if expectedSize.toNat ≤ w.incoming.length then
      (.ok (w.incoming.take expectedSize.toNat),
        { w1 with incoming := w.incoming.drop expectedSize.toNat })
    else (.pending, w1)

/-! ## `ClientConnection` -/

/-- The method `ClientConnection::SendResponse`: serialize, narrow every code
unit to one byte, copy the `int32_t` size into four bytes, send the size
buffer and then the body; a failure of either send is logged and rethrown. -/
def SendResponse (env : Env) (json : Json) : PTask Unit :=
  (PTask.trace (Event.sendResponse json)).andThen fun _ =>
    let serializedJSON := env.serialize json
    let responseData := serializedJSON.map (· % 256)
    let size := toInt32 responseData.length
    let responseSizeData := int32Bytes size
    ((SendData responseSizeData).andThen fun _ => SendData responseData).thenTask fun task =>
      match task with
      | .ok _ => PTask.pure ()
      | .error e =>
        (PTask.trace (Event.odslog "Failed to send response.")).andThen fun _ => PTask.raise e

/-- The method `ClientConnection::ReceiveRequest`: receive four bytes, read
them as the `int32_t` body size, receive that many bytes, widen every byte to
one code unit and parse the text. -/
def ReceiveRequest (env : Env) : PTask Json :=
  let size : Int := 4
  ((ReceiveData size).andThen fun data =>
      let expectedBytes := int32OfBytes data
      ReceiveData expectedBytes).andThen fun data =>
    let jsonString := data
    PTask.ofExcept (env.parse jsonString)

/-- The element list of a response object after the two assignments every
response starts with. -/
def responseHeader (version : Int) (identifier : String) : List (String × Json) :=
  Json.setField "identifier" (.str identifier) (Json.setField "version" (.int version) [])

/-- A string-to-string map written into a fresh or started JSON object, one
assignment per pair. -/
def setUserInfo (pairs : List (String × String)) (userInfo : List (String × Json)) :
    List (String × Json) :=
  pairs.foldl (fun acc pair => Json.setField pair.1 (.str pair.2) acc) userInfo

/-- The method `ClientConnection::ErrorResponse`.  The nested `dynamic_cast`s
are the three cases of `Exn`. -/
def ErrorResponse (env : Env) (exception : Exn) : Json :=
  let response := responseHeader 2 "ErrorResponse"
  let errorObject : List (String × Json) := []
  let filled : List (String × Json) × List (String × Json) :=
    match exception with
    | .serverError code errorUserInfo =>
      let response := Json.setField "errorCode" (.int code) response
      let errorObject := Json.setField "errorCode" (.int code) errorObject
      if errorUserInfo.isEmpty then (response, errorObject)
      else
        let userInfo := setUserInfo errorUserInfo []
        (response, Json.setField "userInfo" (.obj userInfo) errorObject)
    | .error localizedDescription errorUserInfo =>
      let response := Json.setField "errorCode" (.int env.UnderlyingError) response
      let errorObject := Json.setField "errorCode" (.int env.UnderlyingError) errorObject
      let userInfo := Json.setField "NSLocalizedDescription" (.str localizedDescription) []
      let userInfo := setUserInfo errorUserInfo userInfo
      (response, Json.setField "userInfo" (.obj userInfo) errorObject)
    | .other what =>
      let response := Json.setField "errorCode" (.int env.Unknown) response
      let errorObject := Json.setField "errorCode" (.int env.Unknown) errorObject
      let userInfo : List (String × Json) :=
        if what = "vector<T> too long" then
          Json.setField "NSLocalizedRecoverySuggestion"
            (.str "Disable Windows real-time protection on your computer then try again.")
            (Json.setField "NSLocalizedFailureReason"
              (.str "Windows Defender Blocked Installation") [])
        else
          Json.setField "NSLocalizedFailureReason" (.str what)
            (Json.setField "NSLocalizedDescription" (.str what) [])
      (response, Json.setField "userInfo" (.obj userInfo) errorObject)
  .obj (Json.setField "serverError" (.obj filled.2) filled.1)

/-- The loop that fills a `std::set<std::string>` from a JSON array of strings. -/
def insertStrings : List Json → List String → Except Exn (List String)
  | [], set => .ok set
  | value :: rest, set =>
    match value.as_string with
    | .error e => .error e
    | .ok bundleIdentifier => insertStrings rest (stdSetInsert bundleIdentifier set)

/-- The block that reads the optional `activeProfiles` array of a request
(the same in `ProcessPrepareAppRequest` and `ProcessInstallProfilesRequest`). -/
def activeProfilesOf (request : Json) : Except Exn (Option (List String)) :=
  if request.has_array_field "activeProfiles" then
    match (request.index "activeProfiles").bind Json.as_array with
    | .error e => .error e
    | .ok array =>
      match insertStrings array [] with
      | .error e => .error e
      | .ok set => .ok (some set)
  else .ok none

/-- The path `fs::path(directory).append(name)` on the host, whose separator is
the backslash. -/
def pathAppend (directory name : String) : String :=
  if directory = "" then name
  else if directory.back = Char.ofNat 92 ∨ directory.back = '/' then directory ++ name
  else directory ++ String.singleton (Char.ofNat 92) ++ name

/-- The method `ClientConnection::ReceiveApp`: receive `contentSize` bytes and
write them to a fresh `.ipa` file in the temporary directory. -/
def ReceiveApp (env : Env) (request : Json) : PTask String :=
  match (request.index "contentSize").bind Json.as_integer with
  | .error e => PTask.raise e
  | .ok appSize =>
    (ReceiveData appSize).andThen fun data =>
      let filepath := pathAppend env.temporary_directory (env.make_uuid ++ ".ipa")
      fun w => (.ok filepath,
        { w with files := w.files.filter (fun f => f.1 ≠ filepath) ++ [(filepath, data)] })

/-- The progress response of an installation. -/
def progressResponse (progress : ℚ) : Json :=
  .obj (Json.setField "progress" (.double progress)
    (responseHeader 1 "InstallationProgressResponse"))

/-- The progress callback `InstallApp` hands to the device manager, with the
shared flag `*isSending` passed in and out.  The send it starts is run to its
completion, and its continuation with it, before the callback returns. -/
def progressCallback (env : Env) (isSending : Bool) (progress : ℚ) (w : World) :
    Bool × World :=
  if isSending then (isSending, w)
  else
    match SendResponse env (progressResponse progress) w with
    | (.ok _, w1) => (false, w1)
    | (.raised _, w1) =>
      (true, { w1 with log := w1.log ++ [Event.odslog "Error sending installation progress"] })
    | (.pending, w1) => (true, w1)

/-- The method `ClientConnection::InstallApp`.  The device manager reports its
progress values to the callback and then completes.  (The `try` around the
call guards a throw of the call itself; the collaborator fails through the
task it returns.) -/
def InstallApp (env : Env) (filepath udid : String) (activeProfiles : Option (List String)) :
    PTask Unit := fun w =>
  let isSending := false
  let w1 := { w with log := w.log ++ [Event.installApp filepath udid activeProfiles] }
  let run := env.InstallApp filepath udid activeProfiles
  let after := run.1.foldl (fun st progress => progressCallback env st.1 progress st.2)
    (isSending, w1)
  PTask.ofExcept run.2 after.2

/-- The method `ClientConnection::ProcessPrepareAppRequest`.  The heap cell
`*filepath` is empty until `ReceiveApp` has completed with a path. -/
def ProcessPrepareAppRequest (env : Env) (request : Json) : PTask Unit :=
  (PTask.trace (Event.handler "ProcessPrepareAppRequest")).andThen fun _ =>
    match (request.index "udid").bind Json.as_string with
    | .error e => PTask.raise e
    | .ok udid =>
      (ReceiveApp env request).thenTask fun received =>
        let filepath : String :=
          match received with
          | .ok path => path
          | .error _ => ""
        (((PTask.ofExcept received).andThen fun _ => ReceiveRequest env).andThen
            fun request =>
              (PTask.ofExcept (activeProfilesOf request)).andThen fun activeProfiles =>
                InstallApp env filepath udid activeProfiles).thenTask fun task =>
          let cleanup : PTask Unit := fun w =>
            if filepath.length > 0 then
              (.ok (), { w with files := w.files.filter (fun f => f.1 ≠ filepath) })
            else (.ok (), w)
          cleanup.andThen fun _ =>
            match task with
            | .ok _ => SendResponse env (progressResponse 1)
            | .error e => PTask.raise e

/-- The method `ClientConnection::ProcessAnisetteDataRequest`. -/
def ProcessAnisetteDataRequest (env : Env) (_request : Json) : PTask Unit :=
  (PTask.trace (Event.handler "ProcessAnisetteDataRequest")).andThen fun _ =>
    (PTask.trace Event.fetchAnisetteData).andThen fun _ =>
      match env.FetchAnisetteData with
      | none => PTask.raise (.serverError env.InvalidAnisetteData [])
      | some anisetteData =>
        SendResponse env (.obj (Json.setField "anisetteData" anisetteData
          (responseHeader 1 "AnisetteDataResponse")))

/-- The statement `std::make_shared<ProvisioningProfile>(data)`: the
constructor throws, or the pointer returned is not null. -/
def makeSharedProvisioningProfile (env : Env) (data : List Nat) :
    Except Exn (Option ProvisioningProfile) :=
  match env.newProvisioningProfile data with
  | .error e => .error e
  | .ok profile => .ok (some profile)

/-- The loop of `ProcessInstallProfilesRequest` over the `provisioningProfiles`
array: decode, construct, and push the profile when the pointer is not null. -/
def decodeProfiles (env : Env) :
    List Json → List ProvisioningProfile → Except Exn (List ProvisioningProfile)
  | [], provisioningProfiles => .ok provisioningProfiles
  | value :: rest, provisioningProfiles =>
    match value.as_string with
    | .error e => .error e
    | .ok encodedData =>
      match env.from_base64 encodedData with
      | .error e => .error e
      | .ok data =>
        match makeSharedProvisioningProfile env data with
        | .error e => .error e
        | .ok (some profile) => decodeProfiles env rest (provisioningProfiles ++ [profile])
        | .ok none => decodeProfiles env rest provisioningProfiles

/-- The method `ClientConnection::ProcessInstallProfilesRequest`. -/
def ProcessInstallProfilesRequest (env : Env) (request : Json) : PTask Unit :=
  (PTask.trace (Event.handler "ProcessInstallProfilesRequest")).andThen fun _ =>
    match (request.index "udid").bind Json.as_string with
    | .error e => PTask.raise e
    | .ok udid =>
      match (request.index "provisioningProfiles").bind Json.as_array with
      | .error e => PTask.raise e
      | .ok array =>
        match decodeProfiles env array [] with
        | .error e => PTask.raise e
        | .ok provisioningProfiles =>
          match activeProfilesOf request with
          | .error e => PTask.raise e
          | .ok activeProfiles =>
            ((PTask.trace
                (Event.installProvisioningProfiles provisioningProfiles udid activeProfiles)).andThen
              fun _ => PTask.ofExcept
                (env.InstallProvisioningProfiles provisioningProfiles udid activeProfiles)).thenTask
              fun task =>
                match task with
                | .ok _ =>
                  SendResponse env (.obj (responseHeader 1 "InstallProvisioningProfilesResponse"))
                | .error e => PTask.raise e

/-- The method `ClientConnection::ProcessRemoveProfilesRequest`. -/
def ProcessRemoveProfilesRequest (env : Env) (request : Json) : PTask Unit :=
  (PTask.trace (Event.handler "ProcessRemoveProfilesRequest")).andThen fun _ =>
    match (request.index "udid").bind Json.as_string with
    | .error e => PTask.raise e
    | .ok udid =>
      match (request.index "bundleIdentifiers").bind Json.as_array with
      | .error e => PTask.raise e
      | .ok array =>
        match insertStrings array [] with
        | .error e => PTask.raise e
        | .ok bundleIdentifiers =>
          ((PTask.trace (Event.removeProvisioningProfiles bundleIdentifiers udid)).andThen
            fun _ => PTask.ofExcept
              (env.RemoveProvisioningProfiles bundleIdentifiers udid)).thenTask
            fun task =>
              match task with
              | .ok _ =>
                SendResponse env (.obj (responseHeader 1 "RemoveProvisioningProfilesResponse"))
              | .error e => PTask.raise e

/-- The method `ClientConnection::ProcessRemoveAppRequest`. -/
def ProcessRemoveAppRequest (env : Env) (request : Json) : PTask Unit :=
  (PTask.trace (Event.handler "ProcessRemoveAppRequest")).andThen fun _ =>
    match (request.index "udid").bind Json.as_string with
    | .error e => PTask.raise e
    | .ok udid =>
      match (request.index "bundleIdentifier").bind Json.as_string with
      | .error e => PTask.raise e
      | .ok bundleIdentifier =>
        ((PTask.trace (Event.removeApp bundleIdentifier udid)).andThen
          fun _ => PTask.ofExcept (env.RemoveApp bundleIdentifier udid)).thenTask
          fun task =>
            match task with
            | .ok _ => SendResponse env (.obj (responseHeader 1 "RemoveAppResponse"))
            | .error e => PTask.raise e

/-- The call of `EnableUnsignedCodeExecution` on a started debug connection,
followed by `Disconnect` in a value continuation. -/
def enableThenDisconnect (env : Env) (connection : DebugConnection) (target : ProcessTarget) :
    PTask Unit :=
  ((PTask.trace (Event.enableUnsignedCodeExecution connection target)).andThen
    fun _ => PTask.ofExcept (env.EnableUnsignedCodeExecution connection target)).andThen
    fun _ => PTask.trace (Event.debugDisconnect connection)

/-- The method `ClientConnection::ProcessEnableUnsignedCodeExecutionRequest`. -/
def ProcessEnableUnsignedCodeExecutionRequest (env : Env) (request : Json) : PTask Unit :=
  (PTask.trace (Event.handler "ProcessEnableUnsignedCodeExecutionRequest")).andThen fun _ =>
    let body : PTask Unit :=
      match (request.atKey "udid").bind Json.as_string with
      | .error e => PTask.raise e
      | .ok udid =>
        match env.availableDevices.find? (fun d => decide (d.identifier = udid)) with
        | none => PTask.raise (.serverError env.DeviceNotFound [])
        | some device =>
          (((PTask.trace (Event.prepareDevice device)).andThen
              fun _ => PTask.ofExcept (env.PrepareDevice device)).andThen
            fun _ => (PTask.trace (Event.startDebugConnection device)).andThen
              fun _ => PTask.ofExcept (env.StartDebugConnection device)).andThen
            fun connection =>
              if request.has_integer_field "processID" then
                match (request.atKey "processID").bind Json.as_integer with
                | .error e => PTask.raise e
                | .ok pid => enableThenDisconnect env connection (.pid pid)
              else
                match (request.atKey "processName").bind Json.as_string with
                | .error e => PTask.raise e
                | .ok processName =>
                  enableThenDisconnect env connection (.processName processName)
    body.thenTask fun task =>
      match task with
      | .ok _ =>
        SendResponse env (.obj (responseHeader 1 "EnableUnsignedCodeExecutionResponse"))
      | .error e => PTask.raise e

/-- The first continuation of `ProcessAppRequest`: dispatch on the request's
`identifier`. -/
def dispatch (env : Env) (request : Json) : PTask Unit :=
  match (request.index "identifier").bind Json.as_string with
  | .error e => PTask.raise e
  | .ok identifier =>
    if identifier = "PrepareAppRequest" then ProcessPrepareAppRequest env request
    else if identifier = "AnisetteDataRequest" then ProcessAnisetteDataRequest env request
    else if identifier = "InstallProvisioningProfilesRequest" then
      ProcessInstallProfilesRequest env request
    else if identifier = "RemoveProvisioningProfilesRequest" then
      ProcessRemoveProfilesRequest env request
    else if identifier = "RemoveAppRequest" then ProcessRemoveAppRequest env request
    else if identifier = "EnableUnsignedCodeExecutionRequest" then
      ProcessEnableUnsignedCodeExecutionRequest env request
    else PTask.raise (.serverError env.UnknownRequest [])

/-- The second continuation of `ProcessAppRequest`: on an exception build the
error response, start sending it (a failure of that send is only logged) and
rethrow the exception. -/
def sendErrorAndRethrow (env : Env) (task : Except Exn Unit) : PTask Unit :=
  match task with
  | .ok _ => PTask.pure ()
  | .error e =>
    let errorResponse := ErrorResponse env e
    ((SendResponse env errorResponse).thenTask fun sent =>
        match sent with
        | .ok _ => PTask.pure ()
        | .error _ => PTask.trace (Event.odslog "[ALTLog] Failed to send error response")).andThen
      fun _ => PTask.raise e

/-- The method `ClientConnection::ProcessAppRequest`. -/
def ProcessAppRequest (env : Env) : PTask Unit :=
  ((ReceiveRequest env).andThen (dispatch env)).thenTask (sendErrorAndRethrow env)

/-! ## Reading a trace -/

/-- No coming transport operation raises. -/
def World.healthy (w : World) : Prop := ∀ f ∈ w.faults, f = none

instance (w : World) : Decidable w.healthy :=
  inferInstanceAs (Decidable (∀ f ∈ w.faults, f = none))

/-- The world with more events in its trace. -/
def World.logged (w : World) (events : List Event) : World :=
  { w with log := w.log ++ events }

/-- The calls of the device manager's `RemoveApp`: bundle identifier and
device identifier, in call order. -/
def removeAppCallsOf : List Event → List (String × String)
  | [] => []
  | .removeApp bundleIdentifier udid :: rest => (bundleIdentifier, udid) :: removeAppCallsOf rest
  | _ :: rest => removeAppCallsOf rest

/-- The buffers passed to `SendData`, in call order. -/
def sendsOf : List Event → List (List Nat)
  | [] => []
  | .sendData data :: rest => data :: sendsOf rest
  | _ :: rest => sendsOf rest

/-- The JSON values passed to `SendResponse`, in call order. -/
def responsesOf : List Event → List Json
  | [] => []
  | .sendResponse json :: rest => json :: responsesOf rest
  | _ :: rest => responsesOf rest

/-- The request handlers entered, in call order. -/
def handlersOf : List Event → List String
  | [] => []
  | .handler name :: rest => name :: handlersOf rest
  | _ :: rest => handlersOf rest

/-- The calls of the device manager's `InstallApp`: file path, device
identifier and active profiles, in call order. -/
def installCallsOf : List Event → List (String × String × Option (List String))
  | [] => []
  | .installApp filepath udid activeProfiles :: rest =>
    (filepath, udid, activeProfiles) :: installCallsOf rest
  | _ :: rest => installCallsOf rest

/-- The calls of the device manager's `InstallProvisioningProfiles`, in call
order. -/
def installProfilesCallsOf :
    List Event → List (List ProvisioningProfile × String × Option (List String))
  | [] => []
  | .installProvisioningProfiles profiles udid activeProfiles :: rest =>
    (profiles, udid, activeProfiles) :: installProfilesCallsOf rest
  | _ :: rest => installProfilesCallsOf rest

/-- Events of the transport and the log only: no response started, no handler
entered, no collaborator called. -/
def Event.quiet : Event → Bool
  | .receiveData _ => true
  | .sendData _ => true
  | .transportFailed _ => true
  | .odslog _ => true
  | _ => false

/-- Whether a `SendResponse` is started somewhere after a transport failure. -/
def responseAfterFailure : List Event → Bool
  | [] => false
  | .transportFailed _ :: rest => !(responsesOf rest).isEmpty || responseAfterFailure rest
  | _ :: rest => responseAfterFailure rest

/-- The little-endian encoding of a size in four bytes. -/
def littleEndian32 (n : Nat) : List Nat :=
  [n % 256, n / 256 % 256, n / 65536 % 256, n / 16777216 % 256]

/-! ## A concrete instance of the parameters

Compact JSON text, standard base64 and fixed collaborators, so that the
protocol can be run on concrete bytes. -/

namespace Sample

/-- The code units of a text. -/
def units (s : String) : List Nat := s.toList.map Char.toNat

/-- Decimal digits of a natural number, most significant first. -/
def natUnits (n : Nat) : List Nat := units (Nat.repr n)

/-- A string's characters with quote, backslash, newline and tab escaped. -/
def escapeUnits : List Char → List Nat
  | [] => []
  | c :: rest =>
    if c = '"' then 92 :: 34 :: escapeUnits rest
    else if c.toNat = 92 then 92 :: 92 :: escapeUnits rest
    else if c.toNat = 10 then 92 :: 110 :: escapeUnits rest
    else if c.toNat = 9 then 92 :: 116 :: escapeUnits rest
    else c.toNat :: escapeUnits rest

/-- A quoted string. -/
def quoteUnits (s : String) : List Nat := 34 :: escapeUnits s.toList ++ [34]

/-- Up to `fuel` decimal digits of a fraction `num / den` below one. -/
def fractionUnits : Nat → Nat → Nat → List Nat
  | 0, _, _ => []
  | fuel + 1, num, den =>
    if num = 0 then []
    else (48 + num * 10 / den) :: fractionUnits fuel (num * 10 % den) den

/-- A rational as decimal text with at least one fractional digit. -/
def rationalUnits (d : ℚ) : List Nat :=
  let sign : List Nat := if d < 0 then [45] else []
  let whole := d.num.natAbs / d.den
  let frac := fractionUnits 17 (d.num.natAbs % d.den) d.den
  sign ++ natUnits whole ++ [46] ++ (if frac = [] then [48] else frac)

mutual
/-- Compact JSON text of a value. -/
def serialize : Json → List Nat
  | .null => units "null"
  | .bool true => units "true"
  | .bool false => units "false"
  | .int n => (if n < 0 then [45] else []) ++ natUnits n.natAbs
  | .double d => rationalUnits d
  | .str s => quoteUnits s
  | .arr elems => 91 :: serializeElems elems ++ [93]
  | .obj fields => 123 :: serializeFields fields ++ [125]
/-- Comma-separated elements of an array. -/
def serializeElems : List Json → List Nat
  | [] => []
  | [x] => serialize x
  | x :: y :: rest => serialize x ++ 44 :: serializeElems (y :: rest)
/-- Comma-separated members of an object. -/
def serializeFields : List (String × Json) → List Nat
  | [] => []
  | [(k, v)] => quoteUnits k ++ 58 :: serialize v
  | (k, v) :: f :: rest => quoteUnits k ++ 58 :: serialize v ++ 44 :: serializeFields (f :: rest)
end

/-- Drop leading white space. -/
def skipWs : List Nat → List Nat
  | [] => []
  | c :: rest => if c = 32 ∨ c = 9 ∨ c = 10 ∨ c = 13 then skipWs rest else c :: rest

/-- The characters of a string up to its closing quote, and the rest. -/
def parseStringBody : List Nat → List Char → Option (String × List Nat)
  | [], _ => none
  | [c], acc => if c = 34 then some (String.mk acc.reverse, []) else none
  | c :: d :: rest, acc =>
    if c = 34 then some (String.mk acc.reverse, d :: rest)
    else if c = 92 then
      let ch : Char :=
        if d = 110 then Char.ofNat 10 else if d = 116 then Char.ofNat 9 else Char.ofNat d
      parseStringBody rest (ch :: acc)
    else parseStringBody (d :: rest) (Char.ofNat c :: acc)

/-- Leading decimal digits: their value, how many there are, and the rest. -/
def parseDigits : List Nat → Nat → Nat → Nat × Nat × List Nat
  | [], value, count => (value, count, [])
  | c :: rest, value, count =>
    if 48 ≤ c ∧ c ≤ 57 then parseDigits rest (value * 10 + (c - 48)) (count + 1)
    else (value, count, c :: rest)

/-- An unsigned number: an integer, or a decimal with a fraction. -/
def parseNumber (negative : Bool) (text : List Nat) : Option (Json × List Nat) :=
  match parseDigits text 0 0 with
  | (_, 0, _) => none
  | (whole, _, 46 :: rest) =>
    match parseDigits rest 0 0 with
    | (_, 0, _) => none
    | (frac, digits, rest2) =>
      let d : ℚ := (whole : ℚ) + (frac : ℚ) / (10 : ℚ) ^ digits
      some (.double (if negative then -d else d), rest2)
  | (whole, _, rest) => some (.int (if negative then -(whole : Int) else (whole : Int)), rest)

/-- Strip an expected literal from the front of a text. -/
def expect : List Nat → List Nat → Option (List Nat)
  | [], text => some text
  | _ :: _, [] => none
  | e :: es, c :: rest => if e = c then expect es rest else none

mutual
/-- One JSON value at the front of a text, by recursive descent bounded by
`fuel` levels of nesting and sequence. -/
def parseValue : Nat → List Nat → Option (Json × List Nat)
  | 0, _ => none
  | fuel + 1, text =>
    match skipWs text with
    | [] => none
    | c :: rest =>
      if c = 34 then (parseStringBody rest []).map fun r => (Json.str r.1, r.2)
      else if c = 91 then
        match skipWs rest with
        | 93 :: rest2 => some (.arr [], rest2)
        | _ => (parseElems fuel rest).map fun r => (Json.arr r.1, r.2)
      else if c = 123 then
        match skipWs rest with
        | 125 :: rest2 => some (.obj [], rest2)
        | _ => (parseFields fuel rest).map fun r => (Json.obj r.1, r.2)
      else if c = 45 then parseNumber true rest
      else if c = 110 then (expect (units "ull") rest).map fun r => (Json.null, r)
      else if c = 116 then (expect (units "rue") rest).map fun r => (Json.bool true, r)
      else if c = 102 then (expect (units "alse") rest).map fun r => (Json.bool false, r)
      else parseNumber false (c :: rest)
/-- The elements of an array up to and including its closing bracket. -/
def parseElems : Nat → List Nat → Option (List Json × List Nat)
  | 0, _ => none
  | fuel + 1, text =>
    match parseValue fuel text with
    | none => none
    | some (v, rest) =>
      match skipWs rest with
      | 93 :: rest2 => some ([v], rest2)
      | 44 :: rest2 => (parseElems fuel rest2).map fun r => (v :: r.1, r.2)
      | _ => none
/-- The members of an object up to and including its closing brace. -/
def parseFields : Nat → List Nat → Option (List (String × Json) × List Nat)
  | 0, _ => none
  | fuel + 1, text =>
    match skipWs text with
    | 34 :: rest =>
      match parseStringBody rest [] with
      | none => none
      | some (key, rest1) =>
        match skipWs rest1 with
        | 58 :: rest2 =>
          match parseValue fuel rest2 with
          | none => none
          | some (v, rest3) =>
            match skipWs rest3 with
            | 125 :: rest4 => some ([(key, v)], rest4)
            | 44 :: rest4 => (parseFields fuel rest4).map fun r => ((key, v) :: r.1, r.2)
            | _ => none
        | _ => none
    | _ => none
end

/-- Parse a whole text as one JSON value; anything else is a `json_exception`. -/
def parse (text : List Nat) : Except Exn Json :=
  match parseValue (text.length + 1) text with
  | some (v, rest) =>
    if skipWs rest = [] then .ok v else .error (.other "Syntax error: malformed token")
  | none => .error (.other "Syntax error: malformed token")

/-- The value of a base64 digit. -/
def base64Value (c : Nat) : Option Nat :=
  if 65 ≤ c ∧ c ≤ 90 then some (c - 65)
  else if 97 ≤ c ∧ c ≤ 122 then some (c - 71)
  else if 48 ≤ c ∧ c ≤ 57 then some (c + 4)
  else if c = 43 then some 62
  else if c = 47 then some 63
  else none

/-- Decode base64 text four digits at a time; `=` pads the last group. -/
def decodeQuads : List Nat → Option (List Nat)
  | [] => some []
  | [a, b, 61, 61] =>
    match base64Value a, base64Value b with
    | some x, some y => some [(x * 4 + y / 16) % 256]
    | _, _ => none
  | [a, b, c, 61] =>
    match base64Value a, base64Value b, base64Value c with
    | some x, some y, some z => some [(x * 4 + y / 16) % 256, (y * 16 + z / 4) % 256]
    | _, _, _ => none
  | a :: b :: c :: d :: rest =>
    match base64Value a, base64Value b, base64Value c, base64Value d with
    | some x, some y, some z, some t =>
      (decodeQuads rest).map fun tail =>
        (x * 4 + y / 16) % 256 :: (y * 16 + z / 4) % 256 :: (z * 64 + t) % 256 :: tail
    | _, _, _, _ => none
  | _ => none

/-- Standard base64 decoding; malformed text throws. -/
def from_base64 (s : String) : Except Exn (List Nat) :=
  match decodeQuads (units s) with
  | some data => .ok data
  | none => .error (.other "invalid base64 input")

/-- A device in the directory of the sample collaborators. -/
def device : Device :=
  { identifier := "ABCD", name := "Phone", type := 0,
    osVersion := { majorVersion := 15, minorVersion := 4, patchVersion := 1 } }

/-- The progress value 0.25. -/
def quarter : ℚ := ⟨1, 4, by norm_num, by norm_num⟩

/-- The progress value 0.5. -/
def half : ℚ := ⟨1, 2, by norm_num, by norm_num⟩

/-- Sample parameters: the compact codec, error codes 11, 13, 3, -1 and 0, a
profile constructor that accepts only data starting with the byte 48 (a DER
sequence), a device manager that knows one device and one removable app, and
an install that reports two progress values. -/
def env : Env where
  serialize := serialize
  parse := parse
  from_base64 := from_base64
  UnknownRequest := 11
  InvalidAnisetteData := 13
  DeviceNotFound := 3
  UnderlyingError := -1
  Unknown := 0
  newProvisioningProfile := fun data =>
    if data.head? = some 48 then .ok ⟨data⟩
    else .error (.error "Invalid provisioning profile" [])
  FetchAnisetteData := some (.obj [("machineID", .str "M")])
  InstallApp := fun _ _ _ => ([quarter, half], .ok ())
  InstallProvisioningProfiles := fun _ _ _ => .ok ()
  RemoveProvisioningProfiles := fun _ _ => .ok ()
  RemoveApp := fun bundleIdentifier _ =>
    if bundleIdentifier = "com.example.app" then .ok ()
    else .error (.serverError 3 [("NSLocalizedDescription", "not installed")])
  availableDevices := [device]
  PrepareDevice := fun _ => .ok ()
  StartDebugConnection := fun d => .ok ⟨d⟩
  EnableUnsignedCodeExecution := fun _ _ => .ok ()
  temporary_directory := "C:/Temp"
  make_uuid := "0000"

/-- The frame of a text: its size as four little-endian bytes, then its bytes. -/
def frame (text : String) : List Nat := int32Bytes (units text).length ++ units text

/-- A world in which the peer has written `bytes` and nothing has happened yet. -/
def world (bytes : List Nat) (faults : List (Option Exn)) : World :=
  { incoming := bytes, faults := faults, outgoing := [], files := [], log := [] }

end Sample

/-! ## Debug connections in a trace -/

/-- The devices `StartDebugConnection` was called for, in call order. -/
def debugStartsOf : List Event → List Device
  | [] => []
  | .startDebugConnection device :: rest => device :: debugStartsOf rest
  | _ :: rest => debugStartsOf rest

/-- The debug connections `Disconnect` was called on, in call order. -/
def debugDisconnectsOf : List Event → List DebugConnection
  | [] => []
  | .debugDisconnect connection :: rest => connection :: debugDisconnectsOf rest
  | _ :: rest => debugDisconnectsOf rest

/-- The calls of `EnableUnsignedCodeExecution`, in call order. -/
def enableCallsOf : List Event → List (DebugConnection × ProcessTarget)
  | [] => []
  | .enableUnsignedCodeExecution connection target :: rest =>
    (connection, target) :: enableCallsOf rest
  | _ :: rest => enableCallsOf rest

namespace Sample

/-- The sample parameters with an unsigned-code-execution enabler that fails. -/
def envEnablerFails : Env :=
  { env with
    EnableUnsignedCodeExecution := fun _ _ => .error (.error "Could not attach to process" []) }

end Sample

/-! ## One install with its sends in flight

The sequential `progressCallback` above runs every send to completion before
the next callback.  Here a send that has been started stays in flight until
the transport completes it, and the device manager may call the progress
callback, or complete the install, in between. -/

/-- Who starts a `SendResponse` during a `PrepareApp` request: the progress
callback of `InstallApp` (with the progress value), the last continuation of
`ProcessPrepareAppRequest` after a successful install (the response with
progress 1.0), the catch block of `ProcessAppRequest` after a failed install
(the error response for the exception of the install), or that catch block
after the send of the response with progress 1.0 has thrown (the error
response for the exception of that send). -/
inductive SendKind where
  | progress (value : ℚ)
  | terminal
  | errorResponse (e : Exn)
  | sendFailureResponse
  deriving DecidableEq, Repr

/-- The response a send carries; `sendFailure` is the exception with which the
send of the response with progress 1.0 ended. -/
def SendKind.response (env : Env) (sendFailure : Exn) : SendKind → Json
  | .progress value => progressResponse value
  | .terminal => progressResponse 1
  | .errorResponse e => ErrorResponse env e
  | .sendFailureResponse => ErrorResponse env sendFailure

/-- Whether a send was started by the progress callback. -/
def SendKind.isProgress : SendKind → Bool
  | .progress _ => true
  | _ => false

/-- Whether a send is the send of the response with progress 1.0. -/
def SendKind.isTerminal : SendKind → Bool
  | .terminal => true
  | _ => false

/-- A `SendResponse` that has been started, with the number of earlier sends
that were still in flight at that moment. -/
structure StartedSend where
  kind : SendKind
  pendingAtStart : Nat
  deriving DecidableEq, Repr

/-- What happens next during one install: the device manager calls the
progress callback, the oldest send in flight completes (with a value or with
an exception), or the device manager's `InstallApp` task completes. -/
inductive InstallEvent where
  | progress (value : ℚ)
  | sendCompletes (ok : Bool)
  | installCompletes (result : Except Exn Unit)

/-- The state of one install: the shared flag `*isSending`, whether the
install task has completed, the sends in flight (oldest first), every send
started so far, and the progress values whose callback returned without
sending. -/
structure InstallState where
  isSending : Bool
  finished : Bool
  inFlight : List SendKind
  started : List StartedSend
  dropped : List ℚ
  deriving DecidableEq, Repr

/-- The state `InstallApp` starts from: `std::make_shared<bool>()` is false. -/
def InstallState.initial : InstallState :=
  { isSending := false, finished := false, inFlight := [], started := [], dropped := [] }

/-- One step of an install.
* `progress`: the body of the callback.  It returns at once when `*isSending`
  is set; otherwise it sets the flag and starts the send.  (The device manager
  reports progress only while its task runs.)
* `sendCompletes`: the continuation of the oldest send in flight.  For a send
  of the callback it clears the flag when `task.get()` returns and only logs
  when it throws.  The send of the response with progress 1.0 is the task that
  `ProcessPrepareAppRequest` returns: when it throws, the catch block of
  `ProcessAppRequest` starts the send of the error response for that
  exception.  The sends of error responses have a continuation that only logs.
* `installCompletes`: the last continuation of `ProcessPrepareAppRequest`
  starts the send of the response with progress 1.0 when `task.get()` returns;
  when it throws, the catch block of `ProcessAppRequest` starts the send of
  the error response. -/
def installStep (s : InstallState) : InstallEvent → InstallState
  | .progress value =>
    if s.finished then s
    else if s.isSending then { s with dropped := s.dropped ++ [value] }
    else
      { s with
        isSending := true
        inFlight := s.inFlight ++ [SendKind.progress value]
        started := s.started ++ [⟨SendKind.progress value, s.inFlight.length⟩] }
  | .sendCompletes ok =>
    match s.inFlight with
    | [] => s
    | kind :: rest =>
      if kind.isProgress && ok then { s with inFlight := rest, isSending := false }
      else if kind.isTerminal && !ok then
        { s with
          inFlight := rest ++ [SendKind.sendFailureResponse]
          started := s.started ++ [⟨SendKind.sendFailureResponse, rest.length⟩] }
      else { s with inFlight := rest }
  | .installCompletes result =>
    if s.finished then s
    else
      match result with
      | .ok _ =>
        { s with
          finished := true
          inFlight := s.inFlight ++ [SendKind.terminal]
          started := s.started ++ [⟨SendKind.terminal, s.inFlight.length⟩] }
      | .error e =>
        { s with
          finished := true
          inFlight := s.inFlight ++ [SendKind.errorResponse e]
          started := s.started ++ [⟨SendKind.errorResponse e, s.inFlight.length⟩] }

/-- An install driven by a sequence of events. -/
def installRun (s : InstallState) (events : List InstallEvent) : InstallState :=
  events.foldl installStep s

/-! ## The file system (`std::filesystem`, `fopen`)

An `fs::path` is the list of its components; a trailing separator is a final
empty component.  The file system is a list of nodes by path, in the order in
which the directory iterators report them.  A node is found under the name it
was created with: the operating system resolves the components `.` and `..`
of a path (`resolvePath`), and what else a Windows volume does to names (it
ignores the case of letters and trailing dots, refuses some characters and
names, and limits the length of a path) is not part of the model; the
statements about extraction are restricted to names it takes as written
(`hostName`, `caseDistinct`). -/

/-- An `fs::path` by its components. -/
abbrev FsPath := List String

/-- Whether no component of a path is empty, `.` or `..`. -/
def plainPath (p : FsPath) : Bool :=
  p.all fun component => component != "" && component != "." && component != ".."

/-- Resolve the components that follow `resolved`: `.` names the directory
itself, `..` its parent, and the parent of a drive is the drive. -/
def resolveInto : FsPath → List String → FsPath
  | resolved, [] => resolved
  | resolved, component :: rest =>
    if component = "." then resolveInto resolved rest
    else if component = ".." then
      match resolved with
      | [root] =>
        if root.toList.getLast? = some ':' then resolveInto [root] rest
        else resolveInto [] rest
      | _ => resolveInto resolved.dropLast rest
    else resolveInto (resolved ++ [component]) rest

/-- The path at which the operating system looks for the text of a path: the
file functions of Windows resolve `.` and `..` in the text before anything is
looked up (a relative path is not followed above its start). -/
def resolvePath (p : FsPath) : FsPath := resolveInto [] p

/-- A node of the file system: a directory, or a regular file with its bytes
and permission bits. -/
inductive FsNode where
  | directory
  | file (data : List Nat) (permissions : Nat)
  deriving DecidableEq, Repr

/-- The file system: every existing path with its node. -/
abbrev FileSystem := List (FsPath × FsNode)

/-- The error codes of `ArchiveError`. -/
inductive ArchiveErrorCode where
  | NoSuchFile
  | CorruptFile
  | Unknown
  | UnknownWrite
  deriving DecidableEq, Repr

/-- The error codes of `DeveloperDiskError`. -/
inductive DeveloperDiskErrorCode where
  | UnsupportedOperatingSystem
  | UnknownDownloadURL
  | DownloadedDiskNotFound
  deriving DecidableEq, Repr

/-- The exceptions of the archiver and of the developer-disk manager:
`ArchiveError`, `SignError(MissingAppBundle)`, `DeveloperDiskError`,
`std::filesystem::filesystem_error`, `json_exception`, and the exception of a
failed HTTP request.  The last one, `undefined`, is no exception: it ends a
run that has reached an expression whose behaviour the language leaves
undefined (the text names the expression), and nothing is known of the
program from there on. -/
inductive IoExn where
  | archive (code : ArchiveErrorCode)
  | missingAppBundle
  | developerDisk (code : DeveloperDiskErrorCode)
  | filesystem (what : String)
  | json (what : String)
  | http (what : String)
  | undefined (what : String)
  deriving DecidableEq, Repr

deriving instance DecidableEq for Except

namespace FileSystem

/-- The node at a path. -/
def lookup (fs : FileSystem) (p : FsPath) : Option FsNode :=
  match fs with
  | [] => none
  | (q, node) :: rest => if q = p then some node else lookup rest p

/-- Put a node at a path: in place when the path exists, else at the end. -/
def set (p : FsPath) (node : FsNode) : FileSystem → FileSystem
  | [] => [(p, node)]
  | (q, old) :: rest => if q = p then (p, node) :: rest else (q, old) :: set p node rest

/-- The test `fs::exists(p)`. -/
def pathExists (fs : FileSystem) (p : FsPath) : Bool := (lookup fs p).isSome

/-- The test `fs::is_directory(p)`. -/
def is_directory (fs : FileSystem) (p : FsPath) : Bool :=
  match lookup fs p with
  | some .directory => true
  | _ => false

/-- Whether `q` lies strictly below `p`. -/
def below (p q : FsPath) : Bool := p.length < q.length && q.take p.length == p

/-- The entries `fs::directory_iterator(dir)` reports, in its order. -/
def directoryEntries (fs : FileSystem) (dir : FsPath) : List (FsPath × FsNode) :=
  fs.filter fun entry => entry.1.length = dir.length + 1 && entry.1.take dir.length == dir

/-- The entries `fs::recursive_directory_iterator(dir)` reports: every entry
of the directory, each directory followed by what is below it.  `fuel` bounds
the depth. -/
def recursiveEntries : Nat → FileSystem → FsPath → List (FsPath × FsNode)
  | 0, _, _ => []
  | fuel + 1, fs, dir =>
    (directoryEntries fs dir).flatMap fun entry =>
      match entry.2 with
      | .directory => entry :: recursiveEntries fuel fs entry.1
      | .file _ _ => [entry]

/-- The call `fs::create_directory(p)`: nothing to do for an existing
directory; a file in the way or a missing parent directory throws. -/
def create_directory (fs : FileSystem) (p : FsPath) : Except IoExn FileSystem :=
  match lookup fs p with
  | some .directory => .ok fs
  | some (.file _ _) => .error (.filesystem "create_directory")
  | none =>
    if p.length ≤ 1 ∨ is_directory fs p.dropLast then .ok (set p .directory fs)
    else .error (.filesystem "create_directory")

/-- The chain of `fs::create_directories`: the text of the path is taken one
component further at a time, and the directory this text names is created
when nothing is there; a file in the way throws. -/
def createChain (fs : FileSystem) (base : FsPath) : List String → Except IoExn FileSystem
  | [] => .ok fs
  | component :: rest =>
    match lookup fs (resolvePath (base ++ [component])) with
    | some (.file _ _) => .error (.filesystem "create_directories")
    | some .directory => createChain fs (base ++ [component]) rest
    | none =>
      createChain (set (resolvePath (base ++ [component])) .directory fs)
        (base ++ [component]) rest

/-- The call `fs::create_directories(p)`. -/
def create_directories (fs : FileSystem) (p : FsPath) : Except IoExn FileSystem :=
  createChain fs [] p

/-- The call `fs::remove(p)`: removes a file or an empty directory; a missing
path is not an error; a directory that is not empty throws. -/
def remove (fs : FileSystem) (p : FsPath) : Except IoExn FileSystem :=
  match lookup fs p with
  | none => .ok fs
  | some (.file _ _) => .ok (fs.filter fun entry => entry.1 ≠ p)
  | some .directory =>
    if (directoryEntries fs p).isEmpty then .ok (fs.filter fun entry => entry.1 ≠ p)
    else .error (.filesystem "remove")

/-- The call `fs::rename(source, target)` when the operating system carries
it out: the node, with everything below it, moves to the target, replacing
what was there; a missing source throws. -/
def rename (fs : FileSystem) (source target : FsPath) : Except IoExn FileSystem :=
  match lookup fs source with
  | none => .error (.filesystem "rename")
  | some _ =>
    if source = target then .ok fs
    else
      let kept := fs.filter fun entry => entry.1 ≠ target && !below target entry.1
      .ok (kept.map fun entry =>
        if entry.1 = source then (target, entry.2)
        else if below source entry.1 then (target ++ entry.1.drop source.length, entry.2)
        else entry)

/-- The bit `_S_IWRITE` of a file mode. -/
def writeBit : Nat := 0o200

/-- Whether a read-only file is at a path: `_chmod` makes a file read-only
when the mode it is given lacks `_S_IWRITE`. -/
def isReadOnly (fs : FileSystem) (p : FsPath) : Bool :=
  match lookup fs p with
  | some (.file _ permissions) => permissions &&& writeBit == 0
  | _ => false

/-- The calls `fopen(path, "wb")`, the writes and `fclose`: the file holds
`data` afterwards and keeps the permissions it had (a new file gets
`permissions`).  A directory at the path, a read-only file at the path, or a
parent that is not a directory, makes `fopen` return null. -/
def writeFile (fs : FileSystem) (p : FsPath) (data : List Nat) (permissions : Nat) :
    Option FileSystem :=
  match lookup fs p with
  | some .directory => none
  | some (.file _ old) =>
    if old &&& writeBit = 0 then none else some (set p (.file data old) fs)
  | none =>
    if p.length ≤ 1 ∨ is_directory fs p.dropLast then some (set p (.file data permissions) fs)
    else none

/-- The call `_chmod(path, permissions)`; its result is not looked at. -/
def chmod (fs : FileSystem) (p : FsPath) (permissions : Nat) : FileSystem :=
  match lookup fs p with
  | some (.file data _) => set p (.file data permissions) fs
  | _ => fs

end FileSystem

/-! ## Archives as minizip reads and writes them -/

/-- An entry of a zip archive: its name, the platform-attribute field
`external_fa`, its uncompressed bytes, and whether its data cannot be opened
(`unzOpenCurrentFile` fails).  Reading an entry that was opened is taken to
succeed. -/
structure UnzEntry where
  name : String
  external_fa : Nat
  data : List Nat
  corrupt : Bool
  deriving DecidableEq, Repr

/-- An open archive: the entry count of the global info (`none` when
`unzGetGlobalInfo` fails) and the entries in stored order. -/
structure UnzFile where
  number_entry : Option Nat
  entries : List UnzEntry
  deriving DecidableEq, Repr

/-- The minizip library: how the bytes of a file read as an archive (`unzOpen`
returns null for anything that is not one), the bytes `zipClose` leaves for a
list of written entries, and the entry names for which `zipOpenNewFileInZip`
or `zipWriteInFileInZip` reports an error. -/
structure Minizip where
  unzOpen : List Nat → Option UnzFile
  zipClose : List UnzEntry → List Nat
  zipOpenNewFileInZipFails : String → Bool
  zipWriteInFileInZipFails : String → Bool

/-! ## Texts and paths -/

/-- The character `ALTDirectoryDeliminator` of the Windows build. -/
def ALTDirectoryDeliminator : Char := Char.ofNat 92

/-- Whether a character separates path components on the host. -/
def isSeparator (c : Char) : Bool := c = '/' || c = ALTDirectoryDeliminator

/-- Split a text at the separators; the last piece is what follows the last
separator. -/
def splitComponents : List Char → List Char → List String
  | [], current => [String.mk current.reverse]
  | c :: rest, current =>
    if isSeparator c then String.mk current.reverse :: splitComponents rest []
    else splitComponents rest (c :: current)

/-- Drop the empty pieces, except a last one (a trailing separator). -/
def dropEmptyComponents : List String → List String
  | [] => []
  | [last] => [last]
  | piece :: rest => if piece = "" then dropEmptyComponents rest else piece :: dropEmptyComponents rest

/-- The path `fs::path(text)`. -/
def toFsPath (text : String) : FsPath :=
  if text = "" then [] else dropEmptyComponents (splitComponents text.toList [])

/-- A path without its trailing separator. -/
def stripTrailing (p : FsPath) : FsPath :=
  if p.getLast? = some "" then p.dropLast else p

/-- The text `path.string()` of a path written with the host separator. -/
def FsPath.string (p : FsPath) : String :=
  String.intercalate (String.singleton ALTDirectoryDeliminator) p

/-- The function `std::tolower` on one character, in the "C" locale. -/
def toLowerChar (c : Char) : Char :=
  if 65 ≤ c.toNat ∧ c.toNat ≤ 90 then Char.ofNat (c.toNat + 32) else c

/-- A text with `std::tolower` applied to every character. -/
def toLower (s : String) : String := String.mk (s.toList.map toLowerChar)

/-- The helper `startsWith` of `Archiver.cpp`. -/
def startsWith (str pre : String) : Bool :=
  str.length ≥ pre.length && str.toList.take pre.length == pre.toList

/-- The extension `path.extension()` of a file name: from its last dot on,
empty when there is none or when the only dot comes first. -/
def extensionChars : List Char → List Char → List Char
  | [], _ => []
  | c :: rest, seen =>
    let later := extensionChars rest (c :: seen)
    if later ≠ [] then later
    else if c = '.' ∧ seen ≠ [] then c :: rest
    else []

/-- The text `path.extension().string()` for the last component of a path. -/
def extension (name : String) : String :=
  if name = "." ∨ name = ".." then "" else String.mk (extensionChars name.toList [])

/-- The stem `path.stem()` of a file name: the name without its extension. -/
def stem (name : String) : String :=
  String.mk (name.toList.take (name.length - (extension name).length))

namespace Json

/-- The test `value.has_object_field(key)`. -/
def has_object_field (j : Json) (key : String) : Bool :=
  match j with
  | .obj fields =>
    match find? key fields with
    | some (.obj _) => true
    | _ => false
  | _ => false

/-- The test `value.has_string_field(key)`. -/
def has_string_field (j : Json) (key : String) : Bool :=
  match j with
  | .obj fields =>
    match find? key fields with
    | some (.str _) => true
    | _ => false
  | _ => false

end Json

/-- A `json_exception` among the exceptions of this component. -/
def jsonResult {α : Type} (r : Except Exn α) : Except IoExn α :=
  match r with
  | .ok a => .ok a
  | .error (.other what) => .error (.json what)
  | .error (.error what _) => .error (.json what)
  | .error (.serverError _ _) => .error (.json "")

/-! ## `Archiver.cpp` -/

/-- The statement `std::replace(begin, end, from, to)` on a text. -/
def replaceChar (s : String) (source target : Char) : String :=
  String.mk (s.toList.map fun c => if c = source then target else c)

/-- The scan of `replace_all`: at each position, an occurrence of `find` is
replaced and skipped. -/
def replaceAllChars (find replacement : List Char) : Nat → List Char → List Char
  | 0, text => text
  | _ + 1, [] => []
  | fuel + 1, c :: rest =>
    if find ≠ [] ∧ find.isPrefixOf (c :: rest) then
      replacement ++ replaceAllChars find replacement fuel ((c :: rest).drop find.length)
    else c :: replaceAllChars find replacement fuel rest

/-- Modelled from the spec: `replace_all`, declared `extern` in `Archiver.cpp`
and defined elsewhere: every occurrence of `find` in `str` is replaced by
`replace` ("replace any colon character in the name with a literal
`__colon__` token"). -/
def replace_all (str find replace : String) : String :=
  String.mk (replaceAllChars find.toList replace.toList str.length str.toList)

/-- The name of an entry as `UnzipArchive` translates it: forward slashes
become the host separator, then every colon becomes `__colon__`. -/
def translateName (filename : String) : String :=
  replace_all (replaceChar filename '/' ALTDirectoryDeliminator) ":" "__colon__"

/-- The root name of a path (a drive such as `C:`), if it has one. -/
def rootName (p : FsPath) : FsPath :=
  match p with
  | first :: _ => if first.toList.getLast? = some ':' then [first] else []
  | [] => []

/-- The path `fs::path(base).append(name)`: a name that starts with a
separator replaces everything of the base but its root name. -/
def fsAppend (base : FsPath) (name : String) : FsPath :=
  match name.toList with
  | [] => stripTrailing base ++ [""]
  | c :: _ =>
    if isSeparator c then rootName base ++ toFsPath name
    else stripTrailing base ++ toFsPath name

/-- The size `ALTReadBufferSize` of the read buffer. -/
def ALTReadBufferSize : Nat := 8192

/-- The do-while loop of `UnzipArchive`: `unzReadCurrentFile` hands over up to
one buffer of the bytes that remain, `fwrite` appends them, and the loop ends
with the first empty read. -/
def readCurrentFile : Nat → List Nat → List Nat → List Nat
  | 0, _, written => written
  | fuel + 1, remaining, written =>
    let result := min ALTReadBufferSize remaining.length
    if result > 0 then
      readCurrentFile fuel (remaining.drop result) (written ++ remaining.take result)
    else written

/-- The permissions `UnzipArchive` passes to `_chmod`:
`(info.external_fa >> 16) & 0x01FF`. -/
def restoredPermissions (external_fa : Nat) : Nat := (external_fa >>> 16) &&& 0x01FF

/-- The permissions `fopen` gives a file it creates. -/
def defaultPermissions : Nat := 0o666

/-- The variable `filepath` of the loop of `UnzipArchive`: the output
directory with the translated name of the entry appended. -/
def entryFilepath (outputDirectory : String) (entry : UnzEntry) : FsPath :=
  fsAppend (toFsPath outputDirectory) (translateName entry.name)

/-- The test of the loop for a directory entry: the translated name ends with
the separator. -/
def entryIsDirectory (entry : UnzEntry) : Bool :=
  (translateName entry.name).toList.getLast? = some ALTDirectoryDeliminator

/-- The variable `parentDirectory` of the loop: for a directory entry
`filepath.parent_path().parent_path()`, for a file `filepath.parent_path()`. -/
def entryParentDirectory (outputDirectory : String) (entry : UnzEntry) : FsPath :=
  if entryIsDirectory entry then (entryFilepath outputDirectory entry).dropLast.dropLast
  else (entryFilepath outputDirectory entry).dropLast

/-- The statement `if (!fs::exists(parentDirectory))
fs::create_directories(parentDirectory);`. -/
def ensureDirectory (fs : FileSystem) (parentDirectory : FsPath) : Except IoExn FileSystem :=
  if fs.pathExists (resolvePath parentDirectory) then .ok fs
  else fs.create_directories parentDirectory

/-- The body of the loop of `UnzipArchive` for an entry that is not skipped:
translate the name, make sure the parent directory exists, then create the
directory, or write the file and set its permissions.  `fopen` and `_chmod`
get the text of `filepath`, which the operating system resolves. -/
def extractEntry (outputDirectory : String) (entry : UnzEntry) (fs : FileSystem) :
    Except IoExn Unit × FileSystem :=
  match ensureDirectory fs (entryParentDirectory outputDirectory entry) with
  | .error e => (.error e, fs)
  | .ok fs1 =>
    if entryIsDirectory entry then
      match fs1.create_directories (stripTrailing (entryFilepath outputDirectory entry)) with
      | .error e => (.error e, fs1)
      | .ok fs2 => (.ok (), fs2)
    else if entry.corrupt then (.error (.archive .Unknown), fs1)
    else
      match fs1.writeFile (resolvePath (entryFilepath outputDirectory entry))
        (readCurrentFile (entry.data.length + 1) entry.data []) defaultPermissions with
      | none => (.error (.archive .UnknownWrite), fs1)
      | some fs2 =>
        (.ok (), fs2.chmod (resolvePath (entryFilepath outputDirectory entry))
          (restoredPermissions entry.external_fa))

/-- The size `ALTMaxFilenameLength` of the buffer `cFilename`. -/
def ALTMaxFilenameLength : Nat := 512

/-- The text `std::string filename(cFilename)` for an entry with the given
name.  `unzGetCurrentFileInfo` copies at most `ALTMaxFilenameLength` bytes of
the name into `cFilename` and ends them with a NUL only when the name is
shorter than the buffer; the text is what comes before the first NUL.  With
no NUL in the buffer the read runs past its end: `none`. -/
def cFilename (name : String) : Option String :=
  if (name.toList.take ALTMaxFilenameLength).contains (Char.ofNat 0) then
    some (String.mk (name.toList.takeWhile fun c => c != Char.ofNat 0))
  else if name.length < ALTMaxFilenameLength then some name
  else none

/-- The loop of `UnzipArchive` with `remaining` entries to go according to
the global info.  Past the last stored entry `unzGetCurrentFileInfo` and
`unzGoToNextFile` fail.  The name of an entry is read from `cFilename`; the
behaviour is undefined when `cFilename` holds no NUL, and when the name is
empty and the loop reads `filename[filename.size() - 1]`. -/
def unzipEntries (outputDirectory : String) :
    Nat → List UnzEntry → FileSystem → Except IoExn Unit × FileSystem
  | 0, _, fs => (.ok (), fs)
  | _ + 1, [], fs => (.error (.archive .Unknown), fs)
  | remaining + 1, entry :: rest, fs =>
    match cFilename entry.name with
    | none => (.error (.undefined "cFilename"), fs)
    | some filename =>
      if startsWith filename "__MACOSX" then
        if remaining > 0 ∧ rest = [] then (.error (.archive .Unknown), fs)
        else unzipEntries outputDirectory remaining rest fs
      else if filename = "" then (.error (.undefined "filename[filename.size() - 1]"), fs)
      else
        match extractEntry outputDirectory { entry with name := filename } fs with
        | (.error e, fs1) => (.error e, fs1)
        | (.ok _, fs1) =>
          if remaining > 0 ∧ rest = [] then (.error (.archive .Unknown), fs1)
          else unzipEntries outputDirectory remaining rest fs1

/-- The output directory with the separator the functions append to it
(reading the last character of an empty text is not modelled). -/
def withTrailingSeparator (outputDirectory : String) : String :=
  if outputDirectory.toList.getLast? = some ALTDirectoryDeliminator then outputDirectory
  else outputDirectory ++ String.singleton ALTDirectoryDeliminator

/-- The function `UnzipArchive`.  `unzOpen` gets the text of the path of the
archive, which the operating system resolves. -/
def UnzipArchive (zip : Minizip) (archivePath outputDirectory : String) (fs : FileSystem) :
    Except IoExn Unit × FileSystem :=
  let outputDirectory := withTrailingSeparator outputDirectory
  let zipFile : Option UnzFile :=
    match fs.lookup (resolvePath (stripTrailing (toFsPath archivePath))) with
    | some (.file data _) => zip.unzOpen data
    | _ => none
  match zipFile with
  | none => (.error (.archive .NoSuchFile), fs)
  | some zipFile =>
    match zipFile.number_entry with
    | none => (.error (.archive .CorruptFile), fs)
    | some number_entry => unzipEntries outputDirectory number_entry zipFile.entries fs

/-- The value of a cast to `short`. -/
def toInt16 (n : Int) : Int := (n + 32768) % 65536 - 32768

/-- The field `external_fa` that `WriteFileToZipFile` computes for a file with
the given permissions: `short permissions`, `long shiftedPermissions =
0100000 + permissions`, then `(unsigned int)((uLong)shiftedPermissions << 16)`
with 32-bit `long`. -/
def externalAttributes (permissions : Nat) : Nat :=
  (((0o100000 + toInt16 permissions) % 2 ^ 32).toNat * 2 ^ 16) % 2 ^ 32

/-- An archive that minizip is writing: the entries already closed and the
entry that is open, if any. -/
structure ZipWriter where
  closed : List UnzEntry
  current : Option UnzEntry
  deriving DecidableEq, Repr

namespace ZipWriter

/-- The call `zipCloseFileInZip`. -/
def zipCloseFileInZip (z : ZipWriter) : ZipWriter :=
  { closed := z.closed ++ z.current.toList, current := none }

/-- The call `zipOpenNewFileInZip`: it closes an entry that is still open and
opens a new one; `none` for a result other than `ZIP_OK`. -/
def zipOpenNewFileInZip (zip : Minizip) (z : ZipWriter) (filename : String)
    (external_fa : Nat) : Option ZipWriter :=
  if zip.zipOpenNewFileInZipFails filename then none
  else some { closed := z.closed ++ z.current.toList,
              current := some ⟨filename, external_fa, [], false⟩ }

/-- The call `zipWriteInFileInZip`: the bytes go to the open entry; without
an open entry the result is `ZIP_PARAMERROR`. -/
def zipWriteInFileInZip (zip : Minizip) (z : ZipWriter) (bytes : List Nat) :
    Option ZipWriter :=
  match z.current with
  | none => none
  | some entry =>
    if zip.zipWriteInFileInZipFails entry.name then none
    else some { z with current := some { entry with data := entry.data ++ bytes } }

/-- The entries of the archive after `zipClose`. -/
def entries (z : ZipWriter) : List UnzEntry := z.closed ++ z.current.toList

end ZipWriter

/-- The function `WriteFileToZipFile`.  `filepath` is an existing entry of the
walk and `relativePath` its path below the archive root. -/
def WriteFileToZipFile (zip : Minizip) (fs : FileSystem) (z : ZipWriter)
    (filepath relativePath : FsPath) : Except IoExn Unit × ZipWriter :=
  let isDirectory := fs.is_directory filepath
  let filename := FsPath.string relativePath
  let prepared : Option (String × Nat × List Nat) :=
    if isDirectory then
      let filename :=
        if filename.toList.head? = some ALTDirectoryDeliminator then String.mk (filename.toList.drop 1)
        else filename
      let filename :=
        if filename.toList.getLast? ≠ some ALTDirectoryDeliminator then
          filename ++ String.singleton ALTDirectoryDeliminator
        else filename
      some (filename, 0, [])
    else
      let node : List Nat × Nat :=
        match fs.lookup filepath with
        | some (.file data permissions) => (data, permissions)
        | _ => ([], 0)
      let fileSize := node.1.length % 2 ^ 32
      if fileSize ≤ 0 then none
      else some (filename, externalAttributes node.2, node.1.take fileSize)
  match prepared with
  | none =>
    -- zipWriteInFileInZip(*zipFile, NULL, 0); return;
    match z.zipWriteInFileInZip zip [] with
    | some z1 => (.ok (), z1)
    | none => (.ok (), z)
  | some (filename, external_fa, bytes) =>
    let filename := replaceChar filename ALTDirectoryDeliminator '/'
    match z.zipOpenNewFileInZip zip filename external_fa with
    | none => (.error (.archive .UnknownWrite), z)
    | some z1 =>
      match z1.zipWriteInFileInZip zip bytes with
      | none => (.error (.archive .UnknownWrite), z1.zipCloseFileInZip)
      | some z2 => (.ok (), z2)

/-- The loop of `ZipAppBundle` over the entries of the recursive walk. -/
def writeEntries (zip : Minizip) (fs : FileSystem) (payloadAbsDirectory : FsPath) :
    List (FsPath × FsNode) → ZipWriter → Except IoExn Unit × ZipWriter
  | [], z => (.ok (), z)
  | entry :: rest, z =>
    match WriteFileToZipFile zip fs z entry.1 (entry.1.drop payloadAbsDirectory.length) with
    | (.error e, z1) => (.error e, z1)
    | (.ok _, z1) => writeEntries zip fs payloadAbsDirectory rest z1

/-- The function `ZipAppBundle` for an absolute bundle path: the archive is
written next to the bundle, under the stem of its name with `.ipa`.  An
archive that is not closed because of an exception is left as `zipOpen`
created it. -/
def ZipAppBundle (zip : Minizip) (appBundleFilePath : String) (fs : FileSystem) :
    Except IoExn String × FileSystem :=
  let appBundlePath := toFsPath appBundleFilePath
  let appName := stem (appBundlePath.getLastD "")
  let ipaName := appName ++ ".ipa"
  let ipaPath := appBundlePath.dropLast ++ [ipaName]
  let removed : Except IoExn FileSystem :=
    if fs.pathExists ipaPath then fs.remove ipaPath else .ok fs
  match removed with
  | .error e => (.error e, fs)
  | .ok fs1 =>
    match fs1.writeFile ipaPath [] defaultPermissions with
    | none => (.error (.archive .UnknownWrite), fs1)
    | some fs2 =>
      let payloadAbsDirectory := ipaPath.dropLast.dropLast
      let bundle := stripTrailing (toFsPath appBundleFilePath)
      if !fs2.is_directory bundle then (.error (.filesystem "recursive_directory_iterator"), fs2)
      else
        match writeEntries zip fs2 payloadAbsDirectory
            (FileSystem.recursiveEntries (fs2.length + 1) fs2 bundle) ⟨[], none⟩ with
        | (.error e, _) => (.error e, fs2)
        | (.ok _, z) =>
          match fs2.writeFile ipaPath (zip.zipClose z.entries) defaultPermissions with
          | none => (.error (.archive .UnknownWrite), fs2)
          | some fs3 => (.ok (FsPath.string ipaPath), fs3)

namespace Sample

/-- The bytes of a list of entries in a small container format: for each
entry the length of its name, the name, `external_fa`, the corruption mark,
the length of its data, and the data. -/
def encodeEntries : List UnzEntry → List Nat
  | [] => []
  | entry :: rest =>
    entry.name.length :: entry.name.toList.map Char.toNat ++
      entry.external_fa :: (if entry.corrupt then 1 else 0) :: entry.data.length :: entry.data ++
      encodeEntries rest

/-- Read `count` entries back from the container format. -/
def decodeEntries : Nat → List Nat → Option (List UnzEntry)
  | 0, [] => some []
  | 0, _ :: _ => none
  | _ + 1, [] => none
  | count + 1, nameLength :: rest =>
    match rest.drop nameLength with
    | external_fa :: corrupt :: dataLength :: body =>
      if body.length < dataLength ∨ rest.length < nameLength then none
      else
        (decodeEntries count (body.drop dataLength)).map fun entries =>
          ⟨String.mk ((rest.take nameLength).map Char.ofNat), external_fa,
            body.take dataLength, corrupt = 1⟩ :: entries
    | _ => none

/-- A minizip over the container format: an archive is `PK`, the entry count,
and the entries; no entry name makes a write fail. -/
def minizip : Minizip where
  unzOpen := fun bytes =>
    match bytes with
    | 80 :: 75 :: count :: rest =>
      (decodeEntries count rest).map fun entries => ⟨some count, entries⟩
    | _ => none
  zipClose := fun entries => 80 :: 75 :: entries.length :: encodeEntries entries
  zipOpenNewFileInZipFails := fun _ => false
  zipWriteInFileInZipFails := fun _ => false

/-- A bundle directory `C:\work\Payload\Foo.app` with an executable, an empty
file, a subdirectory with one file, and an empty directory. -/
def bundleFs : FileSystem :=
  [ (["C:"], .directory),
    (["C:", "work"], .directory),
    (["C:", "work", "Payload"], .directory),
    (["C:", "work", "Payload", "Foo.app"], .directory),
    (["C:", "work", "Payload", "Foo.app", "Foo"], .file [1, 2, 3] 0o755),
    (["C:", "work", "Payload", "Foo.app", "PkgInfo"], .file [] 0o644),
    (["C:", "work", "Payload", "Foo.app", "en.lproj"], .directory),
    (["C:", "work", "Payload", "Foo.app", "en.lproj", "a.strings"], .file [7] 0o644),
    (["C:", "work", "Payload", "Foo.app", "Frameworks"], .directory),
    (["C:", "out"], .directory) ]

end Sample

/-! ## `DeveloperDiskManager.cpp` -/

/-- The collaborators of the developer-disk manager: the device-type table,
the rendering of an OS version, the directories and identifiers of the host,
the HTTP responses (the body, or what the failed request reports), the JSON
parser, and minizip. -/
structure DiskEnv where
  ALTOperatingSystemNameForDeviceType : Nat → Option String
  stringValue : OperatingSystemVersion → String
  developerDisksDirectoryPath : String
  temporary_directory : String
  make_uuid : Nat → String
  manifest : Except String (List Nat)
  request : String → Except String (List Nat)
  parse : List Nat → Except Exn Json
  zip : Minizip

/-- What the manager does that can be observed from outside: the request for
the manifest, the request for a file with the path that receives it, and a
rename with whether it was carried out. -/
inductive DiskEvent where
  | fetchManifest
  | download (url : String) (destination : FsPath)
  | rename (source target : FsPath) (carriedOut : Bool)
  deriving DecidableEq, Repr

/-- The state around the manager: the file system, the registry values, the
number of identifiers handed out, for each coming `fs::rename` whether the
operating system refuses it, and the trace. -/
structure DiskWorld where
  fs : FileSystem
  registry : List (String × Bool)
  uuids : Nat
  renameFaults : List Bool
  log : List DiskEvent
  deriving DecidableEq, Repr

/-- A task of the manager: it ends with a value or an exception. -/
abbrev DiskTask (α : Type) := DiskWorld → Except IoExn α × DiskWorld

namespace DiskTask

/-- A task that is already completed with a value. -/
def pure {α : Type} (a : α) : DiskTask α := fun w => (.ok a, w)

/-- A task that throws. -/
def raise {α : Type} (e : IoExn) : DiskTask α := fun w => (.error e, w)

/-- A value-based continuation: skipped when the antecedent threw. -/
def andThen {α β : Type} (t : DiskTask α) (f : α → DiskTask β) : DiskTask β := fun w =>
  match t w with
  | (.ok a, w1) => f a w1
  | (.error e, w1) => (.error e, w1)

/-- A task-based continuation: it runs whatever the antecedent did. -/
def thenTask {α β : Type} (t : DiskTask α) (f : Except IoExn α → DiskTask β) : DiskTask β :=
  fun w =>
    match t w with
    | (r, w1) => f r w1

/-- A call into `std::filesystem` that changes the file system or throws. -/
def fsStep (op : FileSystem → Except IoExn FileSystem) : DiskTask Unit := fun w =>
  match op w.fs with
  | .ok fs1 => (.ok (), { w with fs := fs1 })
  | .error e => (.error e, w)

end DiskTask

/-- The function `DeveloperDiskCompatibilityID`.  The copy of the version
with the patch set to zero is not what the identifier is built from. -/
def DeveloperDiskCompatibilityID (env : DiskEnv) (device : Device) : Option String :=
  match env.ALTOperatingSystemNameForDeviceType device.type with
  | none => none
  | some osName =>
    let _osVersion : OperatingSystemVersion := { device.osVersion with patchVersion := 0 }
    some ("ALTDeveloperDiskCompatible_" ++ osName ++ "_" ++ env.stringValue device.osVersion)

/-- Modelled from the spec: `boolValueForRegistryKey` of `MiniappBuilderCore`,
the read of the persisted flag store; a key that was never set reads as
false. -/
def boolValueForRegistryKey (registry : List (String × Bool)) (key : String) : Bool :=
  match registry with
  | [] => false
  | (k, value) :: rest => if k = key then value else boolValueForRegistryKey rest key

/-- Modelled from the spec: `setBoolValueForRegistryKey` of
`MiniappBuilderCore`, the write to the persisted flag store. -/
def setBoolValueForRegistryKey (value : Bool) (key : String) :
    List (String × Bool) → List (String × Bool)
  | [] => [(key, value)]
  | (k, old) :: rest =>
    if k = key then (key, value) :: rest else (k, old) :: setBoolValueForRegistryKey value key rest

/-- The function `IsDeveloperDiskCompatible`. -/
def IsDeveloperDiskCompatible (env : DiskEnv) (w : DiskWorld) (device : Device) : Bool :=
  match DeveloperDiskCompatibilityID env device with
  | none => false
  | some id => boolValueForRegistryKey w.registry id

/-- The function `SetDeveloperDiskCompatible`. -/
def SetDeveloperDiskCompatible (env : DiskEnv) (compatible : Bool) (device : Device)
    (w : DiskWorld) : DiskWorld :=
  match DeveloperDiskCompatibilityID env device with
  | none => w
  | some id => { w with registry := setBoolValueForRegistryKey compatible id w.registry }

/-- The function `FetchDeveloperDiskURLs`: an empty body reads as an empty
object, anything else is parsed. -/
def FetchDeveloperDiskURLs (env : DiskEnv) : DiskTask Json := fun w =>
  let w1 := { w with log := w.log ++ [DiskEvent.fetchManifest] }
  match env.manifest with
  | .error what => (.error (.http what), w1)
  | .ok decompressedData =>
    if decompressedData.length = 0 then (.ok (.obj []), w1)
    else (jsonResult (env.parse decompressedData), w1)

/-- The function `DownloadFile`: the output file is opened (created or
emptied) before the request is made, and receives the body of the response. -/
def DownloadFile (env : DiskEnv) (downloadURL : String) (destinationPath : FsPath) :
    DiskTask Nat := fun w =>
  match w.fs.writeFile destinationPath [] defaultPermissions with
  | none => (.error (.filesystem "open_ostream"), w)
  | some fs1 =>
    let w1 := { w with fs := fs1, log := w.log ++ [DiskEvent.download downloadURL destinationPath] }
    match env.request downloadURL with
    | .error what => (.error (.http what), w1)
    | .ok body =>
      ((.ok body.length),
        { w1 with fs := (fs1.writeFile destinationPath body defaultPermissions).getD fs1 })

/-- The call `fs::rename(source, target)`, which the operating system may
refuse. -/
def renameStep (source target : FsPath) : DiskTask Unit := fun w =>
  let w1 := { w with renameFaults := w.renameFaults.tail }
  if w.renameFaults.head? = some true then
    (.error (.filesystem "rename"),
      { w1 with log := w1.log ++ [DiskEvent.rename source target false] })
  else
    match w.fs.rename source target with
    | .error e => (.error e, { w1 with log := w1.log ++ [DiskEvent.rename source target false] })
    | .ok fs1 =>
      (.ok (), { w1 with fs := fs1, log := w1.log ++ [DiskEvent.rename source target true] })

/-- The statement `if (fs::exists(p)) fs::remove(p);`. -/
def removeIfExists (p : FsPath) : DiskTask Unit :=
  DiskTask.fsStep fun fs => if fs.pathExists p then fs.remove p else .ok fs

/-- The loop of `DownloadDiskArchive` over the extracted entries: every entry
with the extension `.dmg` is assigned to `diskPath` and every entry with the
extension `.signature` to `signaturePath`; the loop has no `break`. -/
def locateDisk : List (FsPath × FsNode) → FsPath × FsPath → FsPath × FsPath
  | [], found => found
  | entry :: rest, (diskPath, signaturePath) =>
    let extension := toLower (extension (entry.1.getLastD ""))
    if extension = ".dmg" then locateDisk rest (entry.1, signaturePath)
    else if extension = ".signature" then locateDisk rest (diskPath, entry.1)
    else locateDisk rest (diskPath, signaturePath)

/-- The second continuation of `DownloadDiskArchive`: extract, pick the two
files, and move them to two fresh temporary paths. -/
def extractDisk (env : DiskEnv) (archivePath temporaryPath : FsPath) :
    DiskTask (String × String) := fun w =>
  match UnzipArchive env.zip (FsPath.string archivePath) (FsPath.string temporaryPath) w.fs with
  | (.error e, fs1) => (.error e, { w with fs := fs1 })
  | (.ok _, fs1) =>
    if !fs1.is_directory temporaryPath then
      (.error (.filesystem "recursive_directory_iterator"), { w with fs := fs1 })
    else
      let found := locateDisk (FileSystem.recursiveEntries (fs1.length + 1) fs1 temporaryPath) ([], [])
      let diskPath := found.1
      let signaturePath := found.2
      if diskPath = [] ∨ signaturePath = [] then
        (.error (.developerDisk .DownloadedDiskNotFound), { w with fs := fs1 })
      else
        let destinationDiskPath := fsAppend (toFsPath env.temporary_directory) (env.make_uuid w.uuids)
        let destinationSignaturePath :=
          fsAppend (toFsPath env.temporary_directory) (env.make_uuid (w.uuids + 1))
        let w1 := { w with fs := fs1, uuids := w.uuids + 2 }
        match DiskTask.andThen (renameStep diskPath destinationDiskPath)
            (fun _ => renameStep signaturePath destinationSignaturePath) w1 with
        | (.error e, w2) =>
          match w2.fs.remove destinationDiskPath with
          | .error e1 => (.error e1, w2)
          | .ok fs2 =>
            match fs2.remove destinationSignaturePath with
            | .error e2 => (.error e2, { w2 with fs := fs2 })
            | .ok fs3 => (.error e, { w2 with fs := fs3 })
        | (.ok _, w2) =>
          (.ok (FsPath.string destinationDiskPath, FsPath.string destinationSignaturePath), w2)

/-- The function `DownloadDiskArchive`. -/
def DownloadDiskArchive (env : DiskEnv) (archiveURL : String) : DiskTask (String × String) :=
  fun w =>
    let temporaryPath := fsAppend (toFsPath env.temporary_directory) (env.make_uuid w.uuids)
    let archivePath := fsAppend temporaryPath "archive.zip"
    DiskTask.thenTask
      (DiskTask.andThen
        (DiskTask.andThen (DiskTask.fsStep fun fs => fs.create_directory temporaryPath)
          fun _ => DownloadFile env archiveURL archivePath)
        fun _ => extractDisk env archivePath temporaryPath)
      (fun task w1 =>
        -- try { fs::remove(temporaryPath); } catch (std::exception& e) { /* Ignore */ }
        let fs1 :=
          match w1.fs.remove temporaryPath with
          | .ok fs1 => fs1
          | .error _ => w1.fs
        (task, { w1 with fs := fs1 }))
      { w with uuids := w.uuids + 1 }

/-- The function `DownloadDisk`. -/
def DownloadDisk (env : DiskEnv) (diskURL signatureURL : String) : DiskTask (String × String) :=
  fun w =>
    let temporaryPath := fsAppend (toFsPath env.temporary_directory) (env.make_uuid w.uuids)
    let diskPath := fsAppend temporaryPath "DeveloperDiskImage.dmg"
    let signaturePath := fsAppend temporaryPath "DeveloperDiskImage.dmg.signature"
    DiskTask.thenTask
      (DiskTask.andThen
        (DiskTask.andThen
          (DiskTask.andThen (DiskTask.fsStep fun fs => fs.create_directory temporaryPath)
            fun _ => DownloadFile env diskURL diskPath)
          fun _ => DownloadFile env signatureURL (toFsPath (FsPath.string signaturePath)))
        fun _ => DiskTask.pure (FsPath.string diskPath, FsPath.string signaturePath))
      (fun task w1 =>
        match task with
        | .ok paths => (.ok paths, w1)
        | .error e =>
          -- Only remove directory if error was thrown.
          let fs1 :=
            match w1.fs.remove temporaryPath with
            | .ok fs1 => fs1
            | .error _ => w1.fs
          (.error e, { w1 with fs := fs1 }))
      { w with uuids := w.uuids + 1 }

/-- The first continuation of the cache miss in `DownloadDeveloperDisk`: read
the URLs for the OS name and version out of the manifest, throw when they are
not there, and return the task of the download that applies. -/
def selectDownload (env : DiskEnv) (osName versionString : String) (json : Json) :
    Except IoExn (DiskTask (String × String)) :=
  match jsonResult (json.index "disks") with
  | .error e => .error e
  | .ok allDisks =>
    if !allDisks.has_object_field osName then .error (.developerDisk .UnknownDownloadURL)
    else
      match jsonResult (allDisks.index osName) with
      | .error e => .error e
      | .ok disks =>
        if !disks.has_object_field versionString then
          .error (.developerDisk .UnknownDownloadURL)
        else
          match jsonResult (disks.index versionString) with
          | .error e => .error e
          | .ok diskURLs =>
            if !diskURLs.has_string_field "archive" &&
                !(diskURLs.has_string_field "disk" && diskURLs.has_string_field "signature") then
              .error (.developerDisk .UnknownDownloadURL)
            else if diskURLs.has_string_field "archive" then
              match jsonResult (diskURLs.index "archive" >>= Json.as_string) with
              | .error e => .error e
              | .ok archiveURL => .ok (DownloadDiskArchive env archiveURL)
            else
              match jsonResult (diskURLs.index "disk" >>= Json.as_string),
                jsonResult (diskURLs.index "signature" >>= Json.as_string) with
              | .ok diskURL, .ok signatureURL => .ok (DownloadDisk env diskURL signatureURL)
              | .error e, _ => .error e
              | _, .error e => .error e

/-- The second continuation of the cache miss in `DownloadDeveloperDisk`: the
promotion of the downloaded pair into the cache directory. -/
def promote (developerDiskPath developerDiskSignaturePath : FsPath) (paths : String × String) :
    DiskTask (String × String) := fun w =>
  let attempt : DiskTask Unit :=
    DiskTask.andThen (removeIfExists developerDiskPath) fun _ =>
    DiskTask.andThen (removeIfExists developerDiskSignaturePath) fun _ =>
    DiskTask.andThen (renameStep (toFsPath paths.1) developerDiskPath) fun _ =>
    renameStep (toFsPath paths.2) developerDiskSignaturePath
  match attempt w with
  | (.error e, w1) =>
    -- catch: fs::remove(fs::path(paths.first)); fs::remove(fs::path(paths.second)); throw;
    match w1.fs.remove (toFsPath paths.1) with
    | .error e1 => (.error e1, w1)
    | .ok fs1 =>
      match fs1.remove (toFsPath paths.2) with
      | .error e2 => (.error e2, { w1 with fs := fs1 })
      | .ok fs2 => (.error e, { w1 with fs := fs2 })
  | (.ok _, w1) =>
    (.ok (FsPath.string developerDiskPath, FsPath.string developerDiskSignaturePath), w1)

/-- The directory `<root>/<osName>` of the cache. -/
def developerDiskOSPath (env : DiskEnv) (osName : String) : FsPath :=
  fsAppend (toFsPath env.developerDisksDirectoryPath) osName

/-- The directory `<root>/<osName>/<osVersion>` of the cache, for the version
with the patch set to zero. -/
def developerDiskDirectoryPath (env : DiskEnv) (osName : String)
    (osVersion : OperatingSystemVersion) : FsPath :=
  fsAppend (developerDiskOSPath env osName)
    (env.stringValue { osVersion with patchVersion := 0 })

/-- The function `DownloadDeveloperDisk`. -/
def DownloadDeveloperDisk (env : DiskEnv) (device : Device) : DiskTask (String × String) :=
  fun w =>
    match env.ALTOperatingSystemNameForDeviceType device.type with
    | none => (.error (.developerDisk .UnsupportedOperatingSystem), w)
    | some osName =>
      let osVersion : OperatingSystemVersion := { device.osVersion with patchVersion := 0 }
      let directoryPath := developerDiskDirectoryPath env osName device.osVersion
      let developerDiskPath := fsAppend directoryPath "DeveloperDiskImage.dmg"
      let developerDiskSignaturePath := fsAppend directoryPath "DeveloperDiskImage.dmg.signature"
      DiskTask.andThen
        (DiskTask.andThen
          (DiskTask.fsStep fun fs => fs.create_directory (developerDiskOSPath env osName))
          fun _ => DiskTask.fsStep fun fs => fs.create_directory directoryPath)
        (fun _ w1 =>
          let isCachedDiskCompatible := IsDeveloperDiskCompatible env w1 device
          if isCachedDiskCompatible && w1.fs.pathExists developerDiskPath &&
              w1.fs.pathExists developerDiskSignaturePath then
            (.ok (FsPath.string developerDiskPath, FsPath.string developerDiskSignaturePath), w1)
          else
            DiskTask.andThen
              (DiskTask.andThen (FetchDeveloperDiskURLs env) fun json w2 =>
                match selectDownload env osName (env.stringValue osVersion) json with
                | .error e => (.error e, w2)
                | .ok download => download w2)
              (promote developerDiskPath developerDiskSignaturePath) w1)
        w

namespace Sample

/-- The decimal text of a version component. -/
def decimal (n : Int) : String :=
  String.mk (((if n < 0 then [45] else []) ++ natUnits n.natAbs).map Char.ofNat)

/-- A rendering of an OS version: `major.minor`, followed by `.patch` when the
patch is not zero. -/
def stringValue (v : OperatingSystemVersion) : String :=
  decimal v.majorVersion ++ "." ++ decimal v.minorVersion ++
    (if v.patchVersion ≠ 0 then "." ++ decimal v.patchVersion else "")

/-- A manifest that lists direct URLs for iOS 15.4 and an archive URL for
iOS 14.0. -/
def manifestJson : Json :=
  .obj [("disks", .obj [("iOS", .obj [
    ("15.4", .obj [("disk", .str "https://cdn/15.4/disk.dmg"),
                   ("signature", .str "https://cdn/15.4/disk.dmg.signature")]),
    ("14.0", .obj [("archive", .str "https://cdn/14.0/archive.zip")])])])]

/-- Sample collaborators of the developer-disk manager: device type 0 is iOS,
the manifest is `manifestJson`, and the server knows the two direct URLs. -/
def diskEnv : DiskEnv where
  ALTOperatingSystemNameForDeviceType := fun type => if type = 0 then some "iOS" else none
  stringValue := stringValue
  developerDisksDirectoryPath := "C:\\DeveloperDisks"
  temporary_directory := "C:\\Temp"
  make_uuid := fun n => "uuid" ++ decimal n
  manifest := .ok (serialize manifestJson)
  request := fun url =>
    if url = "https://cdn/15.4/disk.dmg" then .ok [1, 2, 3]
    else if url = "https://cdn/15.4/disk.dmg.signature" then .ok [4, 5]
    else .error "404"
  parse := parse
  zip := minizip

/-- The device of the samples after an update to 15.4.2. -/
def updatedDevice : Device :=
  { device with osVersion := { majorVersion := 15, minorVersion := 4, patchVersion := 2 } }

/-- A file system with a cached pair for iOS 15.4. -/
def cacheFs : FileSystem :=
  [ (["C:"], .directory),
    (["C:", "Temp"], .directory),
    (["C:", "DeveloperDisks"], .directory),
    (["C:", "DeveloperDisks", "iOS"], .directory),
    (["C:", "DeveloperDisks", "iOS", "15.4"], .directory),
    (["C:", "DeveloperDisks", "iOS", "15.4", "DeveloperDiskImage.dmg"], .file [7, 7, 7] 0o666),
    (["C:", "DeveloperDisks", "iOS", "15.4", "DeveloperDiskImage.dmg.signature"],
      .file [8, 8] 0o666) ]

/-- A world with the cached pair, the given registry values, and the given
refusals of the coming renames. -/
def diskWorld (registry : List (String × Bool)) (renameFaults : List Bool) : DiskWorld :=
  { fs := cacheFs, registry := registry, uuids := 0, renameFaults := renameFaults, log := [] }

end Sample

/-- The value `j[key]` of an object or of null: the member with this key, or
null when there is none. -/
def Json.field (j : Json) (key : String) : Json :=
  match j with
  | .obj fields => (Json.find? key fields).getD .null
  | _ => .null

/-- A task that never throws `DeveloperDiskError(UnknownDownloadURL)`. -/
def DiskTask.neverUnknownDownloadURL {α : Type} (t : DiskTask α) : Prop :=
  ∀ w, (t w).1 ≠ .error (.developerDisk .UnknownDownloadURL)

/-- The path of the cached disk image of an OS name and version. -/
def developerDiskPath (env : DiskEnv) (osName : String) (osVersion : OperatingSystemVersion) :
    FsPath :=
  fsAppend (developerDiskDirectoryPath env osName osVersion) "DeveloperDiskImage.dmg"

/-- The path of the cached signature of an OS name and version. -/
def developerDiskSignaturePath (env : DiskEnv) (osName : String)
    (osVersion : OperatingSystemVersion) : FsPath :=
  fsAppend (developerDiskDirectoryPath env osName osVersion) "DeveloperDiskImage.dmg.signature"

/-- The manifest lacks a download for an OS name and version string: its
`disks` value has no object for the OS name, or that object has no object for
the version string, or the version object has neither a string `archive` nor
both strings `disk` and `signature`. -/
def lacksDownloadURL (allDisks : Json) (osName versionString : String) : Prop :=
  allDisks.has_object_field osName = false ∨
  (allDisks.field osName).has_object_field versionString = false ∨
  (((allDisks.field osName).field versionString).has_string_field "archive" = false ∧
    (((allDisks.field osName).field versionString).has_string_field "disk" = false ∨
     ((allDisks.field osName).field versionString).has_string_field "signature" = false))

namespace Sample

end Sample

/-! ## What an extraction is expected to create -/

/-- The path at which an entry is extracted: its `filepath`, without the
trailing separator for a directory entry. -/
def entryTarget (outputDirectory : String) (entry : UnzEntry) : FsPath :=
  if entryIsDirectory entry then stripTrailing (entryFilepath outputDirectory entry)
  else entryFilepath outputDirectory entry

/-- Whether `q` is `p` or lies above it. -/
def FsPath.within (q p : FsPath) : Bool := p.take q.length == q

/-- Whether a regular file is at a path. -/
def FileSystem.isFile (fs : FileSystem) (p : FsPath) : Bool :=
  match fs.lookup p with
  | some (.file _ _) => true
  | _ => false

/-- Whether the name of an entry is read from `cFilename` as it is stored: it
is shorter than the buffer and holds no NUL. -/
def readableName (name : String) : Bool :=
  name.length < ALTMaxFilenameLength && !name.toList.contains (Char.ofNat 0)

/-- The characters Windows refuses in a file name. -/
def reservedNameChars : List Char :=
  ['<', '>', ':', Char.ofNat 34, '/', Char.ofNat 92, '|', '?', '*']

/-- The names Windows keeps for devices, in lower case. -/
def deviceNames : List String :=
  ["con", "prn", "aux", "nul", "conin$", "conout$",
   "com1", "com2", "com3", "com4", "com5", "com6", "com7", "com8", "com9",
   "lpt1", "lpt2", "lpt3", "lpt4", "lpt5", "lpt6", "lpt7", "lpt8", "lpt9"]

/-- Whether Windows takes a file name as it is written: the name is not empty,
`.` or `..`, is made of printable ASCII characters without the reserved ones
and without `~` (which short names use), does not end with a dot or a space,
and what comes before its first dot or space is not the name of a device. -/
def hostName (name : String) : Bool :=
  name != "" && name != "." && name != ".." &&
  name.toList.all (fun c =>
    32 ≤ c.toNat && c.toNat < 127 && c != '~' && !reservedNameChars.contains c) &&
  name.toList.getLast? != some '.' && name.toList.getLast? != some ' ' &&
  !deviceNames.contains
    (toLower (String.mk (name.toList.takeWhile fun c => c != '.' && c != ' ')))

/-- The components that the translated name of an entry adds to the output
directory. -/
def entryComponents (entry : UnzEntry) : FsPath :=
  stripTrailing (toFsPath (translateName entry.name))

/-- A bound on the length of the text of a path: its components with a
separator each. -/
def pathTextLength (p : FsPath) : Nat := (p.map String.length).sum + p.length

/-- The length of a path from which on Windows refuses to create a directory
(it refuses to open a file from 260 on). -/
def hostPathLimit : Nat := 248

/-- Whether Windows takes the path of an entry as it is written: the name does
not begin with a separator (`append` would replace the output directory) and
holds no backslash (only `/` separates the components of a name in an
archive), its components are names Windows takes as written, and the path is
shorter than the limit. -/
def hostTakesEntry (outputDirectory : String) (entry : UnzEntry) : Bool :=
  (match (translateName entry.name).toList.head? with
   | some c => !isSeparator c
   | none => false) &&
  !entry.name.toList.contains (Char.ofNat 92) &&
  (entryComponents entry).all hostName &&
  pathTextLength (entryTarget outputDirectory entry) < hostPathLimit

/-- Whether the file system lets an entry be extracted: the entry can be read,
its path is not empty, no regular file is where one of its ancestor
directories has to be, and what is at its path is not of the other kind; the
name is not empty, no component of the path is empty, `.` or `..`, no
read-only file is at the path, and Windows takes the path as it is written. -/
def admissibleEntry (outputDirectory : String) (fs : FileSystem) (entry : UnzEntry) : Bool :=
  !entry.corrupt && entryTarget outputDirectory entry != [] &&
  (List.range (entryTarget outputDirectory entry).length).all
    (fun k => k == 0 || !fs.isFile ((entryTarget outputDirectory entry).take k)) &&
  (if entryIsDirectory entry then !fs.isFile (entryTarget outputDirectory entry)
   else !fs.is_directory (entryTarget outputDirectory entry)) &&
  entry.name != "" &&
  plainPath (entryTarget outputDirectory entry) &&
  !fs.isReadOnly (entryTarget outputDirectory entry) &&
  hostTakesEntry outputDirectory entry

namespace Sample

/-- An archive whose only entry has a name that leads out of the output
directory. -/
def escapingEntry : List UnzEntry :=
  [ ⟨"../escaped.txt", externalAttributes 0o644, [1, 2], false⟩ ]

/-- A file system with that archive and an empty output directory. -/
def escapingFs : FileSystem :=
  [ (["C:"], .directory),
    (["C:", "in"], .directory),
    (["C:", "in", "up.zip"], .file (minizip.zipClose escapingEntry) 0o666),
    (["C:", "out"], .directory) ]

/-- An archive with one file entry at the top of the output directory. -/
def plainEntry : List UnzEntry :=
  [ ⟨"a.txt", externalAttributes 0o644, [1, 2], false⟩ ]

/-- A file system with that archive and an output directory that holds a
read-only file under the name of the entry. -/
def readOnlyFs : FileSystem :=
  [ (["C:"], .directory),
    (["C:", "in"], .directory),
    (["C:", "in", "a.zip"], .file (minizip.zipClose plainEntry) 0o666),
    (["C:", "out"], .directory),
    (["C:", "out", "a.txt"], .file [9] 0o444) ]

/-- An archive whose only entry has a name of 512 bytes. -/
def longNameEntry : List UnzEntry :=
  [ ⟨String.mk (List.replicate 512 'a'), externalAttributes 0o644, [1, 2], false⟩ ]

/-- A file system with that archive. -/
def longNameFs : FileSystem :=
  [ (["C:"], .directory),
    (["C:", "in"], .directory),
    (["C:", "in", "long.zip"], .file (minizip.zipClose longNameEntry) 0o666) ]

end Sample

/-! ## Texts inside texts -/

/-- Whether the characters `part` occur in `text` as a contiguous run. -/
def occursInChars (part : List Char) : List Char → Bool
  | [] => part.isEmpty
  | c :: rest => part.isPrefixOf (c :: rest) || occursInChars part rest

/-- Whether the text `part` occurs in `text`. -/
def occursIn (part text : String) : Bool := occursInChars part.toList text.toList

/-- The extension of an entry of a directory walk as `DownloadDiskArchive`
compares it: the extension of its file name, lowered. -/
def entryExtension (entry : FsPath × FsNode) : String :=
  toLower (extension (entry.1.getLastD ""))

namespace Sample

/-- The entries of a disk archive with two disk images and two signatures. -/
def diskArchiveEntries : List UnzEntry :=
  [ ⟨"first.dmg", externalAttributes 0o644, [1], false⟩,
    ⟨"first.signature", externalAttributes 0o644, [2], false⟩,
    ⟨"second.DMG", externalAttributes 0o644, [3], false⟩,
    ⟨"second.signature", externalAttributes 0o644, [4], false⟩ ]

/-- The sample collaborators with a server that delivers the given entries as
the archive of iOS 14.0. -/
def archiveEnv (entries : List UnzEntry) : DiskEnv :=
  { diskEnv with
    request := fun url =>
      if url = "https://cdn/14.0/archive.zip" then .ok (minizip.zipClose entries)
      else .error "404" }

end Sample

/-- The path `temporary_directory()` with the `n`-th identifier of
`make_uuid()` appended. -/
def temporaryPathOf (env : DiskEnv) (n : Nat) : FsPath :=
  fsAppend (toFsPath env.temporary_directory) (env.make_uuid n)

namespace Sample

/-- The sample world once the disk archive is downloaded into the temporary
directory of `DownloadDiskArchive`. -/
def downloadedWorld : DiskWorld :=
  (DiskTask.andThen
    (DiskTask.fsStep fun fs => fs.create_directory
      (temporaryPathOf (archiveEnv diskArchiveEntries) 0))
    (fun _ => DownloadFile (archiveEnv diskArchiveEntries) "https://cdn/14.0/archive.zip"
      (fsAppend (temporaryPathOf (archiveEnv diskArchiveEntries) 0) "archive.zip"))
    { diskWorld [] [] with uuids := 1 }).2

/-- The file system of the sample world once the archive is extracted. -/
def extractedFs : FileSystem :=
  (UnzipArchive minizip "C:\\Temp\\uuid0\\archive.zip" "C:\\Temp\\uuid0" downloadedWorld.fs).2

end Sample

/-! ## `ConnectionManager.cpp` -/

/-- What `HandleRequest` does that can be observed: the call
`connection->Disconnect()` on a connection, a line written with `stdoutlog` or
`stderrlog` (without the description of the exception), and the delay. -/
inductive ManagerEvent where
  | disconnect (connection : Nat)
  | stdoutlog (message : String)
  | stderrlog (message : String)
  | sleep_for (seconds : Nat)
  deriving DecidableEq, Repr

/-- The part of a `ConnectionManager` that `HandleRequest` works on: the set
`_connections` of live connections, a `std::set` of shared pointers kept as an
ascending list of the numbers of the connection objects, and the trace. -/
structure ConnectionManager where
  _connections : List Nat
  log : List ManagerEvent
  deriving DecidableEq, Repr

/-- The call `set.insert(x)` on a `std::set`. -/
def setInsert (x : Nat) : List Nat → List Nat
  | [] => [x]
  | y :: ys =>
    if x < y then x :: y :: ys
    else if x = y then y :: ys
    else y :: setInsert x ys

/-- The call `set.erase(x)` on a `std::set`. -/
def setErase (x : Nat) (set : List Nat) : List Nat := set.filter fun y => y ≠ x

namespace ConnectionManager

/-- The method `ConnectionManager::Disconnect`: `connection->Disconnect()`,
then `_connections.erase(connection)`.  The body of
`ClientConnection::Disconnect` is empty and the overrides of the transports
are not part of these files: the call is recorded and returns. -/
def Disconnect (m : ConnectionManager) (connection : Nat) : ConnectionManager :=
  let m1 := { m with log := m.log ++ [ManagerEvent.disconnect connection] }
  { m1 with _connections := setErase connection m1._connections }

/-- The method `ConnectionManager::HandleRequest` for a connection that runs
in the world `w`: the connection joins the live set, and the continuation of
`ProcessAppRequest`, which takes the task, logs how it ended, waits a second
and disconnects.  The continuation does not run while the task has not
completed. -/
def HandleRequest (env : Env) (m : ConnectionManager) (clientConnection : Nat) (w : World) :
    World × ConnectionManager :=
  let m1 := { m with _connections := setInsert clientConnection m._connections }
  match ProcessAppRequest env w with
  | (.pending, w1) => (w1, m1)
  | (.ok _, w1) =>
    (w1, Disconnect
      { m1 with log := m1.log ++
        [ManagerEvent.stdoutlog "Finished handling request!", ManagerEvent.sleep_for 1] }
      clientConnection)
  | (.raised _, w1) =>
    (w1, Disconnect
      { m1 with log := m1.log ++
        [ManagerEvent.stderrlog "Failed to handle request: ", ManagerEvent.sleep_for 1] }
      clientConnection)

end ConnectionManager

namespace Sample

end Sample

end MiniappBuilder

namespace MiniappBuilder

/-! ## Machine integers and the transport -/

theorem int32Bytes_toInt32 (n : Nat) (h : n < 2147483648) :
    int32Bytes (toInt32 n) = littleEndian32 n := by
  have e : toInt32 (n : Int) = (n : Int) := by unfold toInt32; omega
  have t : ((n : Int) % 4294967296).toNat = n := by omega
  simp only [int32Bytes, littleEndian32, e, t]

theorem int32OfBytes_littleEndian32 (n : Nat) (h : n < 2147483648) :
    int32OfBytes (littleEndian32 n) = n := by
  simp only [int32OfBytes, littleEndian32, toInt32]
  omega

theorem healthy_tail {w : World} (h : w.healthy) : ∀ f ∈ w.faults.tail, f = none :=
  fun f hf => h f (List.mem_of_mem_tail hf)

theorem SendData_healthy (data : List Nat) (w : World) (h : w.healthy) :
    SendData data w =
      (.ok (), { w with
        log := w.log ++ [Event.sendData data]
        faults := w.faults.tail
        outgoing := w.outgoing ++ [data] }) := by
  unfold SendData
  cases hf : w.faults with
  | nil => simp
  | cons f fs =>
    have hn : f = none := h f (by simp [hf])
    subst hn
    simp

theorem ReceiveData_healthy (n : Int) (w : World) (h : w.healthy)
    (hn : n.toNat ≤ w.incoming.length) :
    ReceiveData n w =
      (.ok (w.incoming.take n.toNat), { w with
        log := w.log ++ [Event.receiveData n]
        faults := w.faults.tail
        incoming := w.incoming.drop n.toNat }) := by
  unfold ReceiveData
  cases hf : w.faults with
  | nil => simp [hn]
  | cons f fs =>
    have hf0 : f = none := h f (by simp [hf])
    subst hf0
    simp [hn]

theorem sendsOf_append (xs ys : List Event) : sendsOf (xs ++ ys) = sendsOf xs ++ sendsOf ys := by
  induction xs with
  | nil => rfl
  | cons x xs ih => cases x <;> first | exact ih | exact congrArg (List.cons _) ih

theorem responsesOf_append (xs ys : List Event) :
    responsesOf (xs ++ ys) = responsesOf xs ++ responsesOf ys := by
  induction xs with
  | nil => rfl
  | cons x xs ih => cases x <;> first | exact ih | exact congrArg (List.cons _) ih

theorem handlersOf_append (xs ys : List Event) :
    handlersOf (xs ++ ys) = handlersOf xs ++ handlersOf ys := by
  induction xs with
  | nil => rfl
  | cons x xs ih => cases x <;> first | exact ih | exact congrArg (List.cons _) ih

/-- On a healthy transport `SendResponse` completes, and this is the world it
leaves. -/
theorem SendResponse_healthy (env : Env) (json : Json) (w : World) (h : w.healthy) :
    SendResponse env json w =
      (.ok (), { w with
        log := w.log ++ [Event.sendResponse json,
          Event.sendData (int32Bytes (toInt32 ((env.serialize json).map (· % 256)).length)),
          Event.sendData ((env.serialize json).map (· % 256))]
        faults := w.faults.tail.tail
        outgoing := w.outgoing ++
          [int32Bytes (toInt32 ((env.serialize json).map (· % 256)).length),
            (env.serialize json).map (· % 256)] }) := by
  have h1 : World.healthy { w with log := w.log ++ [Event.sendResponse json] } := h
  have h2 : ∀ (l : List Event) (o : List (List Nat)),
      World.healthy { w with log := l, faults := w.faults.tail, outgoing := o } :=
    fun _ _ => healthy_tail h
  simp only [SendResponse, PTask.andThen, PTask.thenTask, PTask.trace, PTask.pure]
  rw [SendData_healthy _ _ h1]
  simp only []
  rw [SendData_healthy _ _ (h2 _ _)]
  simp

theorem map_mod_of_ascii (text : List Nat) (h : ∀ u ∈ text, u < 128) :
    text.map (· % 256) = text := by
  induction text with
  | nil => rfl
  | cons u us ih =>
    have hu : u < 128 := h u (by simp)
    have hus : ∀ v ∈ us, v < 128 := fun v hv => h v (by simp [hv])
    simp only [List.map_cons, ih hus]
    congr 1
    omega

/-- On a healthy transport whose peer has written a frame (the size bytes of
a text, then the text), `ReceiveRequest` completes with what the parser makes
of the text and leaves what follows the frame unread. -/
theorem ReceiveRequest_frame (env : Env) (text extra : List Nat) (w : World)
    (hlen : text.length < 2147483648) (h : w.healthy)
    (hin : w.incoming = littleEndian32 text.length ++ text ++ extra) :
    ReceiveRequest env w =
      (match env.parse text with
        | .ok json => Outcome.ok json
        | .error e => Outcome.raised e,
       { w with
        log := w.log ++ [Event.receiveData 4, Event.receiveData text.length]
        faults := w.faults.tail.tail
        incoming := extra }) := by
  have h2 : ∀ (l : List Event) (i : List Nat),
      World.healthy { w with log := l, faults := w.faults.tail, incoming := i } :=
    fun _ _ => healthy_tail h
  have h4 : (4 : Int).toNat ≤ w.incoming.length := by
    simp [hin, littleEndian32]
  simp only [ReceiveRequest, PTask.andThen]
  rw [ReceiveData_healthy _ _ h h4]
  have htake : List.take (4 : Int).toNat w.incoming = littleEndian32 text.length := by
    simp [hin, littleEndian32]
  have hdrop : List.drop (4 : Int).toNat w.incoming = text ++ extra := by
    simp [hin, littleEndian32]
  simp only [htake, hdrop, int32OfBytes_littleEndian32 _ hlen]
  rw [ReceiveData_healthy _ _ (h2 _ _) (by simp)]
  cases hp : env.parse text <;> simp [PTask.ofExcept, PTask.pure, PTask.raise, hp]

/-- C2: when the first send does not raise, `SendResponse` calls `SendData`
exactly twice: first with the four bytes of the little-endian size `N` of the
serialization (`N < 2^31`), then with its `N` bytes; on a healthy transport it
completes and both buffers are accepted in that order. -/
theorem SendResponse_two_sends (env : Env) (json : Json) (w : World)
    (hN : (env.serialize json).length < 2147483648)
    (hfirst : ∀ e, w.faults.head? ≠ some (some e)) :
    sendsOf (SendResponse env json w).2.log =
        sendsOf w.log ++ [littleEndian32 (env.serialize json).length,
          (env.serialize json).map (· % 256)]
      ∧ (littleEndian32 (env.serialize json).length).length = 4
      ∧ ((env.serialize json).map (· % 256)).length = (env.serialize json).length
      ∧ (w.healthy →
          (SendResponse env json w).1 = .ok () ∧
          (SendResponse env json w).2.outgoing =
            w.outgoing ++ [littleEndian32 (env.serialize json).length,
              (env.serialize json).map (· % 256)]) := by
  have hb : int32Bytes (toInt32 ((env.serialize json).map (· % 256)).length) =
      littleEndian32 (env.serialize json).length := by
    rw [List.length_map]
    exact int32Bytes_toInt32 _ hN
  refine ⟨?_, by simp [littleEndian32], by simp, ?_⟩
  · obtain ⟨inc, faults, out, files, log⟩ := w
    match faults, hfirst with
    | [], _ =>
      simp [SendResponse, SendData, PTask.andThen, PTask.thenTask, PTask.trace, PTask.pure,
        sendsOf_append, sendsOf, int32Bytes_toInt32 _ hN]
    | some e :: _, hf => exact absurd rfl (hf e)
    | none :: [], _ =>
      simp [SendResponse, SendData, PTask.andThen, PTask.thenTask, PTask.trace, PTask.pure,
        sendsOf_append, sendsOf, int32Bytes_toInt32 _ hN]
    | none :: none :: _, _ =>
      simp [SendResponse, SendData, PTask.andThen, PTask.thenTask, PTask.trace, PTask.pure,
        sendsOf_append, sendsOf, int32Bytes_toInt32 _ hN]
    | none :: some e :: _, _ =>
      simp [SendResponse, SendData, PTask.andThen, PTask.thenTask, PTask.trace, PTask.pure,
        PTask.raise, sendsOf_append, sendsOf, int32Bytes_toInt32 _ hN]
  · intro h
    rw [SendResponse_healthy env json w h, hb]
    exact ⟨rfl, rfl⟩

/-- C1: framing round trip.  For a JSON value whose serialized text is ASCII,
shorter than 2^31 and read back by the library's parser as the value itself,
`ReceiveRequest` on the bytes `SendResponse` has written (size bytes, then
body) completes with that value, and has consumed exactly those bytes. -/
theorem framing_round_trip (env : Env) (json : Json) (ws wr : World)
    (hascii : ∀ u ∈ env.serialize json, u < 128)
    (hlen : (env.serialize json).length < 2147483648)
    (hcodec : env.parse (env.serialize json) = .ok json)
    (hs : ws.healthy) (hr : wr.healthy)
    (hfeed : wr.incoming =
      ((SendResponse env json ws).2.outgoing.drop ws.outgoing.length).flatten) :
    (SendResponse env json ws).1 = .ok () ∧
      (ReceiveRequest env wr).1 = .ok json ∧
      (ReceiveRequest env wr).2.incoming = [] := by
  have hb : int32Bytes (toInt32 ((env.serialize json).map (· % 256)).length) =
      littleEndian32 (env.serialize json).length := by
    rw [List.length_map]
    exact int32Bytes_toInt32 _ hlen
  rw [SendResponse_healthy env json ws hs, hb, map_mod_of_ascii _ hascii] at hfeed
  have hin : wr.incoming =
      littleEndian32 (env.serialize json).length ++ env.serialize json ++ [] := by
    simpa using hfeed
  rw [SendResponse_healthy env json ws hs, ReceiveRequest_frame env _ [] wr hlen hr hin, hcodec]
  exact ⟨rfl, rfl, rfl⟩

/-- C2 at the response of a removed app: 46 bytes of text, sent after the four
bytes 46, 0, 0, 0. -/
theorem SendResponse_two_sends_example :
    (Sample.env.serialize (.obj (responseHeader 1 "RemoveAppResponse"))).length < 2147483648 ∧
      (Sample.world [] []).healthy ∧
      sendsOf (SendResponse Sample.env (.obj (responseHeader 1 "RemoveAppResponse"))
        (Sample.world [] [])).2.log =
        [[46, 0, 0, 0], Sample.units "\x7b\"version\":1,\"identifier\":\"RemoveAppResponse\"\x7d"] ∧
      (SendResponse Sample.env (.obj (responseHeader 1 "RemoveAppResponse"))
        (Sample.world [] [])).2.outgoing =
        [[46, 0, 0, 0], Sample.units "\x7b\"version\":1,\"identifier\":\"RemoveAppResponse\"\x7d"] := by
  have hw : (Sample.world [] []).healthy := by simp [World.healthy, Sample.world]
  have h := SendResponse_two_sends Sample.env (.obj (responseHeader 1 "RemoveAppResponse"))
    (Sample.world [] []) (by decide) (by intro e; simp [Sample.world])
  exact ⟨by decide, hw, h.1.trans (by decide), (h.2.2.2 hw).2.trans (by decide)⟩

/-- C1 at the response of a removed app. -/
theorem framing_round_trip_example :
    (ReceiveRequest Sample.env
      (Sample.world (Sample.frame "\x7b\"version\":1,\"identifier\":\"RemoveAppResponse\"\x7d") [])).1 =
      .ok (.obj (responseHeader 1 "RemoveAppResponse")) :=
  (framing_round_trip Sample.env (.obj (responseHeader 1 "RemoveAppResponse"))
    (Sample.world [] [])
    (Sample.world (Sample.frame "\x7b\"version\":1,\"identifier\":\"RemoveAppResponse\"\x7d") [])
    (by decide) (by decide) (by rfl)
    (by simp [World.healthy, Sample.world]) (by simp [World.healthy, Sample.world])
    (by decide)).2.1

/-! ## What a send leaves in the trace -/

theorem installCallsOf_append (xs ys : List Event) :
    installCallsOf (xs ++ ys) = installCallsOf xs ++ installCallsOf ys := by
  induction xs with
  | nil => rfl
  | cons x xs ih => cases x <;> first | exact ih | exact congrArg (List.cons _) ih

theorem installProfilesCallsOf_append (xs ys : List Event) :
    installProfilesCallsOf (xs ++ ys) =
      installProfilesCallsOf xs ++ installProfilesCallsOf ys := by
  induction xs with
  | nil => rfl
  | cons x xs ih => cases x <;> first | exact ih | exact congrArg (List.cons _) ih

theorem responsesOf_quiet (xs : List Event) (h : ∀ ev ∈ xs, ev.quiet = true) :
    responsesOf xs = [] := by
  induction xs with
  | nil => rfl
  | cons x xs ih =>
    have hx := h x (List.mem_cons_self _ _)
    have hxs := ih (fun ev hev => h ev (List.mem_cons_of_mem _ hev))
    cases x <;> first | exact hxs | exact absurd hx Bool.false_ne_true

theorem handlersOf_quiet (xs : List Event) (h : ∀ ev ∈ xs, ev.quiet = true) :
    handlersOf xs = [] := by
  induction xs with
  | nil => rfl
  | cons x xs ih =>
    have hx := h x (List.mem_cons_self _ _)
    have hxs := ih (fun ev hev => h ev (List.mem_cons_of_mem _ hev))
    cases x <;> first | exact hxs | exact absurd hx Bool.false_ne_true

theorem installCallsOf_quiet (xs : List Event) (h : ∀ ev ∈ xs, ev.quiet = true) :
    installCallsOf xs = [] := by
  induction xs with
  | nil => rfl
  | cons x xs ih =>
    have hx := h x (List.mem_cons_self _ _)
    have hxs := ih (fun ev hev => h ev (List.mem_cons_of_mem _ hev))
    cases x <;> first | exact hxs | exact absurd hx Bool.false_ne_true

theorem installProfilesCallsOf_quiet (xs : List Event) (h : ∀ ev ∈ xs, ev.quiet = true) :
    installProfilesCallsOf xs = [] := by
  induction xs with
  | nil => rfl
  | cons x xs ih =>
    have hx := h x (List.mem_cons_self _ _)
    have hxs := ih (fun ev hev => h ev (List.mem_cons_of_mem _ hev))
    cases x <;> first | exact hxs | exact absurd hx Bool.false_ne_true

/-- Whatever the transport does, `SendResponse` completes, with a value or by
rethrowing the exception of a send; it touches only the transport and the
trace, where it leaves the response it was given followed by quiet events. -/
theorem SendResponse_trace (env : Env) (json : Json) (w : World) :
    ∃ tail, (SendResponse env json w).2.log = w.log ++ Event.sendResponse json :: tail ∧
      (∀ ev ∈ tail, ev.quiet = true) ∧
      (SendResponse env json w).2.files = w.files ∧
      (SendResponse env json w).2.incoming = w.incoming ∧
      ((SendResponse env json w).1 = .ok () ∨
        ∃ e, (SendResponse env json w).1 = .raised e ∧ Event.transportFailed e ∈ tail) := by
  obtain ⟨inc, faults, out, files, log⟩ := w
  let size := int32Bytes (toInt32 ((env.serialize json).map (· % 256)).length)
  let body := (env.serialize json).map (· % 256)
  match faults with
  | [] =>
    refine ⟨[Event.sendData size, Event.sendData body], ?_, by simp [Event.quiet], ?_⟩ <;>
      simp [SendResponse, SendData, PTask.andThen, PTask.thenTask, PTask.trace, PTask.pure,
        size, body]
  | some e :: _ =>
    refine ⟨[Event.sendData size, Event.transportFailed e,
      Event.odslog "Failed to send response."], ?_, by simp [Event.quiet], ?_⟩ <;>
      simp [SendResponse, SendData, PTask.andThen, PTask.thenTask, PTask.trace, PTask.pure,
        PTask.raise, size]
  | none :: [] =>
    refine ⟨[Event.sendData size, Event.sendData body], ?_, by simp [Event.quiet], ?_⟩ <;>
      simp [SendResponse, SendData, PTask.andThen, PTask.thenTask, PTask.trace, PTask.pure,
        size, body]
  | none :: none :: _ =>
    refine ⟨[Event.sendData size, Event.sendData body], ?_, by simp [Event.quiet], ?_⟩ <;>
      simp [SendResponse, SendData, PTask.andThen, PTask.thenTask, PTask.trace, PTask.pure,
        size, body]
  | none :: some e :: _ =>
    refine ⟨[Event.sendData size, Event.sendData body, Event.transportFailed e,
      Event.odslog "Failed to send response."], ?_, by simp [Event.quiet], ?_⟩ <;>
      simp [SendResponse, SendData, PTask.andThen, PTask.thenTask, PTask.trace, PTask.pure,
        PTask.raise, size, body]

/-! ## The error response -/

theorem find?_setField_same (k : String) (v : Json) (fields : List (String × Json)) :
    Json.find? k (Json.setField k v fields) = some v := by
  induction fields with
  | nil => simp [Json.setField, Json.find?]
  | cons p rest ih =>
    obtain ⟨k1, v1⟩ := p
    by_cases h : k1 = k
    · simp [Json.setField, Json.find?, h]
    · simp [Json.setField, Json.find?, h, ih]

theorem find?_setField_other (k k1 : String) (v : Json) (fields : List (String × Json))
    (h : k1 ≠ k) : Json.find? k1 (Json.setField k v fields) = Json.find? k1 fields := by
  induction fields with
  | nil => simp [Json.setField, Json.find?, Ne.symm h]
  | cons p rest ih =>
    obtain ⟨k2, v2⟩ := p
    by_cases h2 : k2 = k
    · subst h2
      simp [Json.setField, Json.find?, Ne.symm h]
    · by_cases h3 : k2 = k1
      · subst h3
        simp [Json.setField, Json.find?, h2]
      · simp [Json.setField, Json.find?, h2, h3, ih]

theorem setField_fresh (k : String) (v : Json) (fields : List (String × Json))
    (h : ∀ p ∈ fields, p.1 ≠ k) : Json.setField k v fields = fields ++ [(k, v)] := by
  induction fields with
  | nil => rfl
  | cons p rest ih =>
    obtain ⟨k1, v1⟩ := p
    have h1 : k1 ≠ k := h (k1, v1) (by simp)
    have hr : ∀ q ∈ rest, q.1 ≠ k := fun q hq => h q (by simp [hq])
    simp [Json.setField, h1, ih hr]

/-- A map with distinct keys is written into an object, whose keys are not
among them, pair by pair in the map's order. -/
theorem setUserInfo_distinct (pairs : List (String × String)) :
    ∀ acc : List (String × Json), (pairs.map Prod.fst).Nodup →
      (∀ p ∈ acc, p.1 ∉ pairs.map Prod.fst) →
      setUserInfo pairs acc = acc ++ pairs.map (fun p => (p.1, Json.str p.2)) := by
  induction pairs with
  | nil => intro acc _ _; simp [setUserInfo]
  | cons p rest ih =>
    intro acc hnodup hdisj
    obtain ⟨k, v⟩ := p
    have hk : k ∉ rest.map Prod.fst := (List.nodup_cons.mp hnodup).1
    have hrest : (rest.map Prod.fst).Nodup := (List.nodup_cons.mp hnodup).2
    have hfresh : ∀ q ∈ acc, q.1 ≠ k := fun q hq hqk => hdisj q hq (by simp [hqk])
    have hstep : setUserInfo ((k, v) :: rest) acc =
        setUserInfo rest (Json.setField k (.str v) acc) := rfl
    rw [hstep, setField_fresh k _ acc hfresh, ih _ hrest]
    · simp
    · intro q hq
      rcases List.mem_append.mp hq with hq | hq
      · exact fun hmem => hdisj q hq (List.mem_cons_of_mem _ hmem)
      · have hqk : q.1 = k := by simp at hq; simp [hq]
        simpa [hqk] using hk

/-- An entry holding a string still holds a string after a map has been
written over the object. -/
theorem find?_setUserInfo_str (k : String) (pairs : List (String × String)) :
    ∀ (acc : List (String × Json)) (s0 : String), Json.find? k acc = some (.str s0) →
      ∃ s, Json.find? k (setUserInfo pairs acc) = some (.str s) := by
  induction pairs with
  | nil => intro acc s0 h; exact ⟨s0, h⟩
  | cons p rest ih =>
    intro acc s0 h
    obtain ⟨k1, v1⟩ := p
    have hstep : setUserInfo ((k1, v1) :: rest) acc =
        setUserInfo rest (Json.setField k1 (.str v1) acc) := rfl
    rw [hstep]
    by_cases hk : k = k1
    · subst hk
      exact ih _ v1 (find?_setField_same _ _ _)
    · exact ih _ s0 (by rw [find?_setField_other _ _ _ _ hk]; exact h)

theorem ErrorResponse_serverError_empty (env : Env) (code : Int) :
    ErrorResponse env (.serverError code []) =
      .obj [("version", .int 2), ("identifier", .str "ErrorResponse"), ("errorCode", .int code),
        ("serverError", .obj [("errorCode", .int code)])] := by
  simp [ErrorResponse, responseHeader, Json.setField]

theorem ErrorResponse_serverError_userInfo (env : Env) (code : Int)
    (userInfo : List (String × String)) (h : userInfo ≠ []) :
    ErrorResponse env (.serverError code userInfo) =
      .obj [("version", .int 2), ("identifier", .str "ErrorResponse"), ("errorCode", .int code),
        ("serverError", .obj [("errorCode", .int code),
          ("userInfo", .obj (setUserInfo userInfo []))])] := by
  cases userInfo with
  | nil => exact absurd rfl h
  | cons p rest => simp [ErrorResponse, responseHeader, Json.setField]

theorem ErrorResponse_error (env : Env) (localizedDescription : String)
    (userInfo : List (String × String)) :
    ErrorResponse env (.error localizedDescription userInfo) =
      .obj [("version", .int 2), ("identifier", .str "ErrorResponse"),
        ("errorCode", .int env.UnderlyingError),
        ("serverError", .obj [("errorCode", .int env.UnderlyingError),
          ("userInfo", .obj (setUserInfo userInfo
            [("NSLocalizedDescription", .str localizedDescription)]))])] := by
  simp [ErrorResponse, responseHeader, Json.setField]

theorem ErrorResponse_other (env : Env) (what : String) :
    ErrorResponse env (.other what) =
      .obj [("version", .int 2), ("identifier", .str "ErrorResponse"),
        ("errorCode", .int env.Unknown),
        ("serverError", .obj [("errorCode", .int env.Unknown),
          ("userInfo", .obj
            (if what = "vector<T> too long" then
              [("NSLocalizedFailureReason", .str "Windows Defender Blocked Installation"),
                ("NSLocalizedRecoverySuggestion",
                  .str "Disable Windows real-time protection on your computer then try again.")]
            else
              [("NSLocalizedDescription", .str what),
                ("NSLocalizedFailureReason", .str what)]))])] := by
  simp [ErrorResponse, responseHeader, Json.setField]

/-- C4: for every exception the error response is an object with
`version` 2, `identifier` "ErrorResponse", a top-level `errorCode`, and under
`serverError` a nested object whose `errorCode` is the top-level one. -/
theorem ErrorResponse_shape (env : Env) (exception : Exn) :
    ∃ fields errorObject code,
      ErrorResponse env exception = .obj fields ∧
      Json.find? "version" fields = some (.int 2) ∧
      Json.find? "identifier" fields = some (.str "ErrorResponse") ∧
      Json.find? "errorCode" fields = some (.int code) ∧
      Json.find? "serverError" fields = some (.obj errorObject) ∧
      Json.find? "errorCode" errorObject = some (.int code) := by
  cases exception with
  | serverError code userInfo =>
    by_cases h : userInfo = []
    · subst h
      exact ⟨_, [("errorCode", .int code)], code, ErrorResponse_serverError_empty env code,
        by simp [Json.find?]⟩
    · exact ⟨_, [("errorCode", .int code), ("userInfo", .obj (setUserInfo userInfo []))], code,
        ErrorResponse_serverError_userInfo env code userInfo h, by simp [Json.find?]⟩
  | error localizedDescription userInfo =>
    exact ⟨_, [("errorCode", .int env.UnderlyingError),
        ("userInfo", .obj (setUserInfo userInfo
          [("NSLocalizedDescription", .str localizedDescription)]))],
      env.UnderlyingError, ErrorResponse_error env localizedDescription userInfo,
      by simp [Json.find?]⟩
  | other what =>
    exact ⟨_, [("errorCode", .int env.Unknown),
        ("userInfo", .obj
          (if what = "vector<T> too long" then
            [("NSLocalizedFailureReason", .str "Windows Defender Blocked Installation"),
              ("NSLocalizedRecoverySuggestion",
                .str "Disable Windows real-time protection on your computer then try again.")]
          else
            [("NSLocalizedDescription", .str what),
              ("NSLocalizedFailureReason", .str what)]))],
      env.Unknown, ErrorResponse_other env what, by simp [Json.find?]⟩

/-- C5: the error code follows the class of the failure.  A `ServerError`
gives its own code at both levels, and its user-info map (distinct keys, as in
a `std::map`) is surfaced entry by entry under `userInfo`, the field being
left out when the map is empty; any other `Error` gives `UnderlyingError` and
a `userInfo` with an `NSLocalizedDescription` string; every other exception
gives `Unknown`. -/
theorem ErrorResponse_code_by_class (env : Env) :
    (∀ code userInfo, (userInfo.map Prod.fst).Nodup →
      ∃ errorObject,
        ErrorResponse env (.serverError code userInfo) =
          .obj [("version", .int 2), ("identifier", .str "ErrorResponse"),
            ("errorCode", .int code), ("serverError", .obj errorObject)] ∧
        Json.find? "errorCode" errorObject = some (.int code) ∧
        (userInfo = [] → Json.find? "userInfo" errorObject = none) ∧
        (userInfo ≠ [] → Json.find? "userInfo" errorObject =
          some (.obj (userInfo.map fun p => (p.1, Json.str p.2))))) ∧
    (∀ localizedDescription userInfo,
      ∃ entries description,
        ErrorResponse env (.error localizedDescription userInfo) =
          .obj [("version", .int 2), ("identifier", .str "ErrorResponse"),
            ("errorCode", .int env.UnderlyingError),
            ("serverError", .obj [("errorCode", .int env.UnderlyingError),
              ("userInfo", .obj entries)])] ∧
        Json.find? "NSLocalizedDescription" entries = some (.str description) ∧
        (userInfo = [] → description = localizedDescription)) ∧
    (∀ what,
      ∃ entries,
        ErrorResponse env (.other what) =
          .obj [("version", .int 2), ("identifier", .str "ErrorResponse"),
            ("errorCode", .int env.Unknown),
            ("serverError", .obj [("errorCode", .int env.Unknown),
              ("userInfo", .obj entries)])]) := by
  refine ⟨?_, ?_, ?_⟩
  · intro code userInfo hnodup
    by_cases h : userInfo = []
    · subst h
      exact ⟨_, ErrorResponse_serverError_empty env code, by simp [Json.find?]⟩
    · refine ⟨_, ErrorResponse_serverError_userInfo env code userInfo h, ?_, ?_, ?_⟩
      · simp [Json.find?]
      · exact fun h0 => absurd h0 h
      · intro _
        have hmap := setUserInfo_distinct userInfo [] hnodup (by simp)
        simp [Json.find?, hmap]
  · intro localizedDescription userInfo
    obtain ⟨s, hs⟩ := find?_setUserInfo_str "NSLocalizedDescription" userInfo
      [("NSLocalizedDescription", .str localizedDescription)] localizedDescription
      (by simp [Json.find?])
    refine ⟨_, s, ErrorResponse_error env localizedDescription userInfo, hs, ?_⟩
    intro h
    subst h
    simpa [setUserInfo, Json.find?] using hs.symm
  · intro what
    exact ⟨_, ErrorResponse_other env what⟩

/-- C5 at a server error with a one-entry map. -/
theorem ErrorResponse_code_by_class_example :
    ∃ errorObject,
      ErrorResponse Sample.env (.serverError 3 [("NSLocalizedDescription", "not installed")]) =
        .obj [("version", .int 2), ("identifier", .str "ErrorResponse"), ("errorCode", .int 3),
          ("serverError", .obj errorObject)] ∧
      Json.find? "userInfo" errorObject =
        some (.obj [("NSLocalizedDescription", .str "not installed")]) := by
  obtain ⟨errorObject, h, _, _, hinfo⟩ :=
    (ErrorResponse_code_by_class Sample.env).1 3 [("NSLocalizedDescription", "not installed")]
      (by decide)
  exact ⟨errorObject, h, hinfo (by decide)⟩

/-! ## `ProcessAppRequest` -/

theorem ReceiveData_trace (n : Int) (w : World) :
    ∃ tail, (ReceiveData n w).2.log = w.log ++ tail ∧ (∀ ev ∈ tail, ev.quiet = true) := by
  obtain ⟨inc, faults, out, files, log⟩ := w
  match faults with
  | [] =>
    by_cases h : n.toNat ≤ inc.length
    · exact ⟨[Event.receiveData n], by simp [ReceiveData, h], by simp [Event.quiet]⟩
    · exact ⟨[Event.receiveData n], by simp [ReceiveData, h], by simp [Event.quiet]⟩
  | none :: _ =>
    by_cases h : n.toNat ≤ inc.length
    · exact ⟨[Event.receiveData n], by simp [ReceiveData, h], by simp [Event.quiet]⟩
    · exact ⟨[Event.receiveData n], by simp [ReceiveData, h], by simp [Event.quiet]⟩
  | some e :: _ =>
    exact ⟨[Event.receiveData n, Event.transportFailed e], by simp [ReceiveData],
      by simp [Event.quiet]⟩

theorem ReceiveRequest_trace (env : Env) (w : World) :
    ∃ tail, (ReceiveRequest env w).2.log = w.log ++ tail ∧ (∀ ev ∈ tail, ev.quiet = true) := by
  obtain ⟨t1, h1, q1⟩ := ReceiveData_trace 4 w
  simp only [ReceiveRequest, PTask.andThen]
  rcases hr : ReceiveData 4 w with ⟨o, w1⟩
  rw [hr] at h1
  cases o with
  | raised e => exact ⟨t1, h1, q1⟩
  | pending => exact ⟨t1, h1, q1⟩
  | ok data =>
    obtain ⟨t2, h2, q2⟩ := ReceiveData_trace (int32OfBytes data) w1
    simp only []
    rcases hr2 : ReceiveData (int32OfBytes data) w1 with ⟨o2, w2⟩
    rw [hr2] at h2
    have hlog : w2.log = w.log ++ (t1 ++ t2) := by
      simp only [] at h1 h2
      rw [h2, h1, List.append_assoc]
    have hq : ∀ ev ∈ t1 ++ t2, ev.quiet = true := fun ev hev =>
      (List.mem_append.mp hev).elim (q1 ev) (q2 ev)
    cases o2 with
    | raised e => exact ⟨t1 ++ t2, hlog, hq⟩
    | pending => exact ⟨t1 ++ t2, hlog, hq⟩
    | ok body =>
      cases hp : env.parse body with
      | ok json => exact ⟨t1 ++ t2, by simpa [PTask.ofExcept, PTask.pure, hp] using hlog, hq⟩
      | error e => exact ⟨t1 ++ t2, by simpa [PTask.ofExcept, PTask.raise, hp] using hlog, hq⟩

/-- The second continuation on an exception: the error response built from
it is started, whatever becomes of that send only quiet events follow, and
the exception is rethrown. -/
theorem sendErrorAndRethrow_error (env : Env) (e : Exn) (w : World) :
    (sendErrorAndRethrow env (.error e) w).1 = .raised e ∧
      ∃ tail, (sendErrorAndRethrow env (.error e) w).2.log =
          w.log ++ Event.sendResponse (ErrorResponse env e) :: tail ∧
        (∀ ev ∈ tail, ev.quiet = true) := by
  obtain ⟨tail, hlog, hq, _, _, hout⟩ := SendResponse_trace env (ErrorResponse env e) w
  simp only [sendErrorAndRethrow, PTask.thenTask, PTask.andThen]
  rcases hs : SendResponse env (ErrorResponse env e) w with ⟨o, w2⟩
  rw [hs] at hlog hout
  cases o with
  | ok u => exact ⟨rfl, tail, hlog, hq⟩
  | raised e2 =>
    refine ⟨rfl, tail ++ [Event.odslog "[ALTLog] Failed to send error response"], ?_, ?_⟩
    · simp only [] at hlog
      simp [PTask.trace, PTask.raise, hlog]
    · intro ev hev
      rcases List.mem_append.mp hev with h | h
      · exact hq ev h
      · simp at h
        simp [h, Event.quiet]
  | pending =>
    rcases hout with h | ⟨e3, h, _⟩ <;> simp at h

theorem ProcessAppRequest_of_request (env : Env) (w w1 : World) (request : Json)
    (hrecv : ReceiveRequest env w = (.ok request, w1)) :
    ProcessAppRequest env w = (dispatch env request).thenTask (sendErrorAndRethrow env) w1 := by
  simp only [ProcessAppRequest, PTask.andThen, PTask.thenTask, hrecv]

/-- A stage that completes with an exception: `ProcessAppRequest` starts the
error response built from it, after which only quiet events follow, and
completes with the same exception. -/
theorem ProcessAppRequest_of_raised (env : Env) (w w1 w2 : World) (request : Json) (e : Exn)
    (hrecv : ReceiveRequest env w = (.ok request, w1))
    (hdispatch : dispatch env request w1 = (.raised e, w2)) :
    (ProcessAppRequest env w).1 = .raised e ∧
      ∃ tail, (ProcessAppRequest env w).2.log =
          w2.log ++ Event.sendResponse (ErrorResponse env e) :: tail ∧
        (∀ ev ∈ tail, ev.quiet = true) := by
  rw [ProcessAppRequest_of_request env w w1 request hrecv]
  simp only [PTask.thenTask, hdispatch]
  exact sendErrorAndRethrow_error env e w2

/-- C3: a request whose identifier is none of the six known ones enters no
handler; `ProcessAppRequest` completes with `ServerError(UnknownRequest)` and
the one response it starts is the error response whose `errorCode`, at both
levels, is the `UnknownRequest` code. -/
theorem unknown_request (env : Env) (w w1 : World) (request : Json) (identifier : String)
    (hrecv : ReceiveRequest env w = (.ok request, w1))
    (hid : (request.index "identifier").bind Json.as_string = .ok identifier)
    (hunknown : identifier ∉ ["PrepareAppRequest", "AnisetteDataRequest",
      "InstallProvisioningProfilesRequest", "RemoveProvisioningProfilesRequest",
      "RemoveAppRequest", "EnableUnsignedCodeExecutionRequest"]) :
    (ProcessAppRequest env w).1 = .raised (.serverError env.UnknownRequest []) ∧
      handlersOf (ProcessAppRequest env w).2.log = handlersOf w.log ∧
      responsesOf (ProcessAppRequest env w).2.log =
        responsesOf w.log ++ [ErrorResponse env (.serverError env.UnknownRequest [])] ∧
      ErrorResponse env (.serverError env.UnknownRequest []) =
        .obj [("version", .int 2), ("identifier", .str "ErrorResponse"),
          ("errorCode", .int env.UnknownRequest),
          ("serverError", .obj [("errorCode", .int env.UnknownRequest)])] := by
  simp only [List.mem_cons, List.mem_singleton, List.not_mem_nil, or_false, not_or] at hunknown
  obtain ⟨h1, h2, h3, h4, h5, h6⟩ := hunknown
  have hdispatch : dispatch env request w1 =
      (.raised (.serverError env.UnknownRequest []), w1) := by
    simp only [dispatch, hid, h1, h2, h3, h4, h5, h6, if_false, PTask.raise]
  obtain ⟨hout, tail, hlog, hq⟩ :=
    ProcessAppRequest_of_raised env w w1 w1 request _ hrecv hdispatch
  obtain ⟨t0, h0, q0⟩ := ReceiveRequest_trace env w
  rw [hrecv] at h0
  simp only [] at h0
  refine ⟨hout, ?_, ?_, ErrorResponse_serverError_empty env _⟩
  · rw [hlog, h0]
    simp [handlersOf_append, handlersOf, handlersOf_quiet _ hq, handlersOf_quiet _ q0]
  · rw [hlog, h0]
    simp [responsesOf_append, responsesOf, responsesOf_quiet _ hq, responsesOf_quiet _ q0]

/-- C3 at a framed request with the identifier `PingRequest`. -/
theorem unknown_request_example :
    (ProcessAppRequest Sample.env
        (Sample.world (Sample.frame "\x7b\"identifier\":\"PingRequest\"\x7d") [])).1 =
      .raised (.serverError 11 []) ∧
    handlersOf (ProcessAppRequest Sample.env
        (Sample.world (Sample.frame "\x7b\"identifier\":\"PingRequest\"\x7d") [])).2.log = [] ∧
    responsesOf (ProcessAppRequest Sample.env
        (Sample.world (Sample.frame "\x7b\"identifier\":\"PingRequest\"\x7d") [])).2.log =
      [.obj [("version", .int 2), ("identifier", .str "ErrorResponse"), ("errorCode", .int 11),
        ("serverError", .obj [("errorCode", .int 11)])]] := by
  have h := unknown_request Sample.env
    (Sample.world (Sample.frame "\x7b\"identifier\":\"PingRequest\"\x7d") [])
    { incoming := [], faults := [], outgoing := [], files := [],
      log := [Event.receiveData 4, Event.receiveData 28] }
    (.obj [("identifier", .str "PingRequest")]) "PingRequest" (by rfl) (by rfl) (by decide)
  exact ⟨h.1, h.2.1, h.2.2.1.trans (by rw [h.2.2.2]; rfl)⟩

/-! ## `RemoveApp` -/

/-- What `ProcessRemoveAppRequest` does, by the request's fields and the
outcome of the device manager's `RemoveApp`. -/
theorem ProcessRemoveAppRequest_eq (env : Env) (request : Json) (w : World) :
    ProcessRemoveAppRequest env request w =
      match (request.index "udid").bind Json.as_string with
      | .error e => (.raised e, w.logged [Event.handler "ProcessRemoveAppRequest"])
      | .ok udid =>
        match (request.index "bundleIdentifier").bind Json.as_string with
        | .error e => (.raised e, w.logged [Event.handler "ProcessRemoveAppRequest"])
        | .ok bundleIdentifier =>
          match env.RemoveApp bundleIdentifier udid with
          | .ok _ =>
            SendResponse env (.obj (responseHeader 1 "RemoveAppResponse"))
              (w.logged [Event.handler "ProcessRemoveAppRequest",
                Event.removeApp bundleIdentifier udid])
          | .error e =>
            (.raised e, w.logged [Event.handler "ProcessRemoveAppRequest",
              Event.removeApp bundleIdentifier udid]) := by
  simp only [ProcessRemoveAppRequest, PTask.andThen, PTask.thenTask, PTask.trace]
  cases (request.index "udid").bind Json.as_string with
  | error e => simp [PTask.raise, World.logged]
  | ok udid =>
    cases (request.index "bundleIdentifier").bind Json.as_string with
    | error e => simp [PTask.raise, World.logged]
    | ok bundleIdentifier =>
      cases h : env.RemoveApp bundleIdentifier udid with
      | error e =>
        simp [PTask.raise, PTask.ofExcept, PTask.andThen, PTask.thenTask, PTask.trace,
          World.logged, h]
      | ok u =>
        simp [PTask.pure, PTask.ofExcept, PTask.andThen, PTask.thenTask, PTask.trace,
          World.logged, h]

theorem dispatch_RemoveAppRequest (env : Env) (request : Json)
    (hid : (request.index "identifier").bind Json.as_string = .ok "RemoveAppRequest") :
    dispatch env request = ProcessRemoveAppRequest env request := by
  simp [dispatch, hid]

theorem removeAppCallsOf_append (xs ys : List Event) :
    removeAppCallsOf (xs ++ ys) = removeAppCallsOf xs ++ removeAppCallsOf ys := by
  induction xs with
  | nil => rfl
  | cons x xs ih => cases x <;> first | exact ih | exact congrArg (List.cons _) ih

theorem removeAppCallsOf_quiet (xs : List Event) (h : ∀ ev ∈ xs, ev.quiet = true) :
    removeAppCallsOf xs = [] := by
  induction xs with
  | nil => rfl
  | cons x xs ih =>
    have hx := h x (List.mem_cons_self _ _)
    have hxs := ih (fun ev hev => h ev (List.mem_cons_of_mem _ hev))
    cases x <;> first | exact hxs | exact absurd hx Bool.false_ne_true

theorem ReceiveData_outgoing (n : Int) (w : World) :
    (ReceiveData n w).2.outgoing = w.outgoing ∧
      ((ReceiveData n w).2.faults = w.faults.tail) := by
  obtain ⟨inc, faults, out, files, log⟩ := w
  match faults with
  | [] => by_cases h : n.toNat ≤ inc.length <;> simp [ReceiveData, h]
  | none :: _ => by_cases h : n.toNat ≤ inc.length <;> simp [ReceiveData, h]
  | some e :: _ => simp [ReceiveData]

theorem ReceiveRequest_outgoing (env : Env) (w : World) :
    (ReceiveRequest env w).2.outgoing = w.outgoing := by
  simp only [ReceiveRequest, PTask.andThen]
  have h1 := (ReceiveData_outgoing 4 w).1
  rcases hr : ReceiveData 4 w with ⟨o, w1⟩
  rw [hr] at h1
  cases o with
  | raised e => exact h1
  | pending => exact h1
  | ok data =>
    simp only []
    have h2 := (ReceiveData_outgoing (int32OfBytes data) w1).1
    rcases hr2 : ReceiveData (int32OfBytes data) w1 with ⟨o2, w2⟩
    rw [hr2] at h2
    cases o2 with
    | raised e => exact h2.trans h1
    | pending => exact h2.trans h1
    | ok body =>
      cases hp : env.parse body with
      | ok json => simpa [PTask.ofExcept, PTask.pure, hp] using h2.trans h1
      | error e => simpa [PTask.ofExcept, PTask.raise, hp] using h2.trans h1

/-- On a healthy transport the second continuation, given an exception, sends
the error response built from it as one frame and rethrows. -/
theorem sendErrorAndRethrow_healthy (env : Env) (e : Exn) (w : World) (h : w.healthy) :
    sendErrorAndRethrow env (.error e) w =
      (.raised e, { w with
        log := w.log ++ [Event.sendResponse (ErrorResponse env e),
          Event.sendData
            (int32Bytes (toInt32 ((env.serialize (ErrorResponse env e)).map (· % 256)).length)),
          Event.sendData ((env.serialize (ErrorResponse env e)).map (· % 256))]
        faults := w.faults.tail.tail
        outgoing := w.outgoing ++
          [int32Bytes (toInt32 ((env.serialize (ErrorResponse env e)).map (· % 256)).length),
            (env.serialize (ErrorResponse env e)).map (· % 256)] }) := by
  simp only [sendErrorAndRethrow, PTask.thenTask, PTask.andThen,
    SendResponse_healthy env _ w h, PTask.pure, PTask.raise]

/-- C6: a `RemoveAppRequest` with string `udid` and `bundleIdentifier` whose
`RemoveApp` succeeds is answered, on a healthy transport, by one frame: the
four size bytes and the serialization of the object with exactly `version` 1
and `identifier` "RemoveAppResponse"; the request completes. -/
theorem remove_app_success (env : Env) (w w1 : World) (request : Json)
    (udid bundleIdentifier : String)
    (hrecv : ReceiveRequest env w = (.ok request, w1))
    (hid : (request.index "identifier").bind Json.as_string = .ok "RemoveAppRequest")
    (hudid : (request.index "udid").bind Json.as_string = .ok udid)
    (hbundle : (request.index "bundleIdentifier").bind Json.as_string = .ok bundleIdentifier)
    (hremove : env.RemoveApp bundleIdentifier udid = .ok ())
    (hhealthy : w1.healthy)
    (hN : (env.serialize
      (.obj [("version", .int 1), ("identifier", .str "RemoveAppResponse")])).length
        < 2147483648) :
    (ProcessAppRequest env w).1 = .ok () ∧
      removeAppCallsOf (ProcessAppRequest env w).2.log =
        removeAppCallsOf w.log ++ [(bundleIdentifier, udid)] ∧
      responsesOf (ProcessAppRequest env w).2.log = responsesOf w.log ++
        [.obj [("version", .int 1), ("identifier", .str "RemoveAppResponse")]] ∧
      (ProcessAppRequest env w).2.outgoing = w.outgoing ++
        [littleEndian32 (env.serialize
            (.obj [("version", .int 1), ("identifier", .str "RemoveAppResponse")])).length,
          (env.serialize
            (.obj [("version", .int 1), ("identifier", .str "RemoveAppResponse")])).map
              (· % 256)] := by
  have hhdr : responseHeader 1 "RemoveAppResponse" =
      [("version", .int 1), ("identifier", .str "RemoveAppResponse")] := by
    simp [responseHeader, Json.setField]
  have hb : int32Bytes (toInt32 ((env.serialize
      (.obj [("version", .int 1), ("identifier", .str "RemoveAppResponse")])).map
        (· % 256)).length) = littleEndian32 (env.serialize
      (.obj [("version", .int 1), ("identifier", .str "RemoveAppResponse")])).length := by
    rw [List.length_map]
    exact int32Bytes_toInt32 _ hN
  obtain ⟨t0, h0, q0⟩ := ReceiveRequest_trace env w
  have hout := ReceiveRequest_outgoing env w
  rw [hrecv] at h0 hout
  simp only [] at h0 hout
  have hw2 : World.healthy (w1.logged [Event.handler "ProcessRemoveAppRequest",
      Event.removeApp bundleIdentifier udid]) := hhealthy
  rw [ProcessAppRequest_of_request env w w1 request hrecv]
  simp only [PTask.thenTask, dispatch_RemoveAppRequest env request hid,
    ProcessRemoveAppRequest_eq, hudid, hbundle, hremove, hhdr,
    SendResponse_healthy env _ _ hw2, sendErrorAndRethrow, PTask.pure, hb]
  refine ⟨trivial, ?_, ?_, ?_⟩
  · simp [World.logged, h0, removeAppCallsOf_append, removeAppCallsOf,
      removeAppCallsOf_quiet _ q0]
  · simp [World.logged, h0, responsesOf_append, responsesOf, responsesOf_quiet _ q0]
  · simp [World.logged, hout]

/-- C6 at the request of the specification: the body sent back is the text
of the object with `version` 1 and `identifier` "RemoveAppResponse", after
the size bytes 46, 0, 0, 0. -/
theorem remove_app_success_example :
    (ProcessAppRequest Sample.env (Sample.world (Sample.frame
      "\x7b\"identifier\":\"RemoveAppRequest\",\"udid\":\"ABCD\",\"bundleIdentifier\":\"com.example.app\"\x7d")
      [])).2.outgoing =
      [[46, 0, 0, 0],
        Sample.units "\x7b\"version\":1,\"identifier\":\"RemoveAppResponse\"\x7d"] :=
  (remove_app_success Sample.env
    (Sample.world (Sample.frame
      "\x7b\"identifier\":\"RemoveAppRequest\",\"udid\":\"ABCD\",\"bundleIdentifier\":\"com.example.app\"\x7d")
      [])
    { incoming := [], faults := [], outgoing := [], files := [],
      log := [Event.receiveData 4, Event.receiveData 84] }
    (.obj [("identifier", .str "RemoveAppRequest"), ("udid", .str "ABCD"),
      ("bundleIdentifier", .str "com.example.app")])
    "ABCD" "com.example.app" (by rfl) (by rfl) (by rfl) (by rfl) (by rfl)
    (by simp [World.healthy]) (by decide)).2.2.2.trans (by decide)

/-- A stage that completes with an exception after logging `events`, on a
healthy transport: exactly the error response is started and sent. -/
theorem ProcessAppRequest_raised_healthy (env : Env) (w w1 : World) (request : Json) (e : Exn)
    (events : List Event)
    (hrecv : ReceiveRequest env w = (.ok request, w1))
    (hdispatch : dispatch env request w1 = (.raised e, w1.logged events))
    (hquiet : responsesOf events = [])
    (hhealthy : w1.healthy) :
    (ProcessAppRequest env w).1 = .raised e ∧
      responsesOf (ProcessAppRequest env w).2.log =
        responsesOf w.log ++ [ErrorResponse env e] ∧
      (ProcessAppRequest env w).2.outgoing = w.outgoing ++
        [int32Bytes (toInt32 ((env.serialize (ErrorResponse env e)).map (· % 256)).length),
          (env.serialize (ErrorResponse env e)).map (· % 256)] := by
  obtain ⟨t0, h0, q0⟩ := ReceiveRequest_trace env w
  have hout := ReceiveRequest_outgoing env w
  rw [hrecv] at h0 hout
  simp only [] at h0 hout
  have hw2 : World.healthy (w1.logged events) := hhealthy
  rw [ProcessAppRequest_of_request env w w1 request hrecv]
  simp only [PTask.thenTask, hdispatch, sendErrorAndRethrow_healthy env e _ hw2]
  refine ⟨trivial, ?_, ?_⟩
  · simp [World.logged, h0, responsesOf_append, responsesOf, responsesOf_quiet _ q0, hquiet]
  · simp [World.logged, hout]

/-- C7: every request with the identifier `RemoveAppRequest` is answered, on
a healthy transport, by exactly one response, sent as one frame: the success
response when `RemoveApp` succeeds, the error response of the exception when
`RemoveApp` (or reading the request's fields) fails. -/
theorem remove_app_one_response (env : Env) (w w1 : World) (request : Json)
    (hrecv : ReceiveRequest env w = (.ok request, w1))
    (hid : (request.index "identifier").bind Json.as_string = .ok "RemoveAppRequest")
    (hhealthy : w1.healthy) :
    ∃ response,
      responsesOf (ProcessAppRequest env w).2.log = responsesOf w.log ++ [response] ∧
      (ProcessAppRequest env w).2.outgoing = w.outgoing ++
        [int32Bytes (toInt32 ((env.serialize response).map (· % 256)).length),
          (env.serialize response).map (· % 256)] ∧
      ∀ udid bundleIdentifier,
        (request.index "udid").bind Json.as_string = .ok udid →
        (request.index "bundleIdentifier").bind Json.as_string = .ok bundleIdentifier →
        (env.RemoveApp bundleIdentifier udid = .ok () →
          response = .obj [("version", .int 1), ("identifier", .str "RemoveAppResponse")] ∧
          (ProcessAppRequest env w).1 = .ok ()) ∧
        (∀ e, env.RemoveApp bundleIdentifier udid = .error e →
          response = ErrorResponse env e ∧ (ProcessAppRequest env w).1 = .raised e) := by
  have hd := dispatch_RemoveAppRequest env request hid
  cases hudid : (request.index "udid").bind Json.as_string with
  | error e =>
    obtain ⟨h1, h2, h3⟩ := ProcessAppRequest_raised_healthy env w w1 request e
      [Event.handler "ProcessRemoveAppRequest"] hrecv
      (by rw [hd, ProcessRemoveAppRequest_eq, hudid]) rfl hhealthy
    exact ⟨_, h2, h3, by intro u b hu; cases hu⟩
  | ok udid =>
    cases hbundle : (request.index "bundleIdentifier").bind Json.as_string with
    | error e =>
      obtain ⟨h1, h2, h3⟩ := ProcessAppRequest_raised_healthy env w w1 request e
        [Event.handler "ProcessRemoveAppRequest"] hrecv
        (by rw [hd, ProcessRemoveAppRequest_eq, hudid]; simp only [hbundle]) rfl hhealthy
      exact ⟨_, h2, h3, by intro u b _ hb; cases hb⟩
    | ok bundleIdentifier =>
      cases hremove : env.RemoveApp bundleIdentifier udid with
      | error e =>
        obtain ⟨h1, h2, h3⟩ := ProcessAppRequest_raised_healthy env w w1 request e
          [Event.handler "ProcessRemoveAppRequest", Event.removeApp bundleIdentifier udid] hrecv
          (by rw [hd, ProcessRemoveAppRequest_eq, hudid]; simp only [hbundle, hremove]) rfl
          hhealthy
        refine ⟨_, h2, h3, ?_⟩
        intro u b hu hb
        cases hu
        cases hb
        refine ⟨fun hok => ?_, fun e2 he2 => ?_⟩
        · rw [hremove] at hok
          cases hok
        · rw [hremove] at he2
          cases he2
          exact ⟨rfl, h1⟩
      | ok done =>
        have hhdr : responseHeader 1 "RemoveAppResponse" =
            [("version", .int 1), ("identifier", .str "RemoveAppResponse")] := by
          simp [responseHeader, Json.setField]
        obtain ⟨t0, h0, q0⟩ := ReceiveRequest_trace env w
        have hout := ReceiveRequest_outgoing env w
        rw [hrecv] at h0 hout
        simp only [] at h0 hout
        have hw2 : World.healthy (w1.logged [Event.handler "ProcessRemoveAppRequest",
            Event.removeApp bundleIdentifier udid]) := hhealthy
        have hrun : ProcessAppRequest env w =
            SendResponse env (.obj [("version", .int 1), ("identifier", .str "RemoveAppResponse")])
              (w1.logged [Event.handler "ProcessRemoveAppRequest",
                Event.removeApp bundleIdentifier udid]) := by
          rw [ProcessAppRequest_of_request env w w1 request hrecv]
          simp only [PTask.thenTask, hd, ProcessRemoveAppRequest_eq, hudid, hbundle, hremove,
            hhdr, SendResponse_healthy env _ _ hw2, sendErrorAndRethrow, PTask.pure]
        rw [hrun, SendResponse_healthy env _ _ hw2]
        refine ⟨.obj [("version", .int 1), ("identifier", .str "RemoveAppResponse")],
          ?_, ?_, ?_⟩
        · simp [World.logged, h0, responsesOf_append, responsesOf, responsesOf_quiet _ q0]
        · simp [World.logged, hout]
        · intro u b hu hb
          cases hu
          cases hb
          refine ⟨fun _ => ⟨rfl, rfl⟩, fun e2 he2 => ?_⟩
          rw [hremove] at he2
          cases he2

/-- C7 at a framed request for an app the device manager does not know:
`RemoveApp` fails with a domain error and exactly one response is started. -/
theorem remove_app_one_response_example :
    ∃ response,
      responsesOf (ProcessAppRequest Sample.env (Sample.world (Sample.frame
        "\x7b\"identifier\":\"RemoveAppRequest\",\"udid\":\"ABCD\",\"bundleIdentifier\":\"com.example.missing\"\x7d")
        [])).2.log = [response] := by
  obtain ⟨response, h, _⟩ := remove_app_one_response Sample.env
    (Sample.world (Sample.frame
      "\x7b\"identifier\":\"RemoveAppRequest\",\"udid\":\"ABCD\",\"bundleIdentifier\":\"com.example.missing\"\x7d")
      [])
    { incoming := [], faults := [], outgoing := [], files := [],
      log := [Event.receiveData 4, Event.receiveData 88] }
    (.obj [("identifier", .str "RemoveAppRequest"), ("udid", .str "ABCD"),
      ("bundleIdentifier", .str "com.example.missing")])
    (by rfl) (by rfl) (by simp [World.healthy])
  exact ⟨response, h⟩

/-! ## Transport failures -/

theorem ReceiveRequest_size_fails (env : Env) (w : World) (e : Exn)
    (h : w.faults.head? = some (some e)) :
    ReceiveRequest env w =
      (.raised e, { w with
        log := w.log ++ [Event.receiveData 4, Event.transportFailed e]
        faults := w.faults.tail }) := by
  simp [ReceiveRequest, ReceiveData, PTask.andThen, h]

theorem ReceiveRequest_body_fails (env : Env) (w : World) (e : Exn) (rest : List (Option Exn))
    (h : w.faults = none :: some e :: rest) (hlen : 4 ≤ w.incoming.length) :
    ReceiveRequest env w =
      (.raised e, { w with
        log := w.log ++ [Event.receiveData 4,
          Event.receiveData (int32OfBytes (w.incoming.take 4)), Event.transportFailed e]
        faults := rest
        incoming := w.incoming.drop 4 }) := by
  simp [ReceiveRequest, ReceiveData, PTask.andThen, h, hlen]

/-- Refutation of C8 as stated: the first `ReceiveData` raises, and a
`SendResponse` (of the error response) is started after that failure. -/
theorem response_started_after_transport_failure :
    (ProcessAppRequest Sample.env (Sample.world (Sample.frame
        "\x7b\"identifier\":\"RemoveAppRequest\",\"udid\":\"ABCD\",\"bundleIdentifier\":\"com.example.app\"\x7d")
        [some (.other "connection reset")])).1 = .raised (.other "connection reset") ∧
      responseAfterFailure (ProcessAppRequest Sample.env (Sample.world (Sample.frame
        "\x7b\"identifier\":\"RemoveAppRequest\",\"udid\":\"ABCD\",\"bundleIdentifier\":\"com.example.app\"\x7d")
        [some (.other "connection reset")])).2.log = true ∧
      responsesOf (ProcessAppRequest Sample.env (Sample.world (Sample.frame
        "\x7b\"identifier\":\"RemoveAppRequest\",\"udid\":\"ABCD\",\"bundleIdentifier\":\"com.example.app\"\x7d")
        [some (.other "connection reset")])).2.log ≠ [] := by
  refine ⟨by rfl, by rfl, ?_⟩
  have h : responsesOf (ProcessAppRequest Sample.env (Sample.world (Sample.frame
      "\x7b\"identifier\":\"RemoveAppRequest\",\"udid\":\"ABCD\",\"bundleIdentifier\":\"com.example.app\"\x7d")
      [some (.other "connection reset")])).2.log =
      [ErrorResponse Sample.env (.other "connection reset")] := by rfl
  rw [h]
  exact List.cons_ne_nil _ _

theorem SendResponse_first_send_fails (env : Env) (json : Json) (w : World) (e : Exn)
    (h : w.faults.head? = some (some e)) :
    SendResponse env json w =
      (.raised e, { w with
        log := w.log ++ [Event.sendResponse json,
          Event.sendData (int32Bytes (toInt32 ((env.serialize json).map (· % 256)).length)),
          Event.transportFailed e, Event.odslog "Failed to send response."]
        faults := w.faults.tail }) := by
  simp [SendResponse, SendData, PTask.andThen, PTask.thenTask, PTask.trace, PTask.raise, h]

theorem SendResponse_second_send_fails (env : Env) (json : Json) (w : World) (e : Exn)
    (rest : List (Option Exn)) (h : w.faults = none :: some e :: rest) :
    SendResponse env json w =
      (.raised e, { w with
        log := w.log ++ [Event.sendResponse json,
          Event.sendData (int32Bytes (toInt32 ((env.serialize json).map (· % 256)).length)),
          Event.sendData ((env.serialize json).map (· % 256)),
          Event.transportFailed e, Event.odslog "Failed to send response."]
        faults := rest
        outgoing := w.outgoing ++
          [int32Bytes (toInt32 ((env.serialize json).map (· % 256)).length)] }) := by
  simp [SendResponse, SendData, PTask.andThen, PTask.thenTask, PTask.trace, PTask.raise, h]

/-- C8 as amended: when a raw transport operation raises `e` (the receive of
the request's size, the receive of its body, or a send of the response with
which the dispatched handler ends), and generally whenever the dispatched
stage completes with an exception `e`, `ProcessAppRequest` completes with `e`,
and after the failure it starts exactly one `SendResponse`, of the error
response built from `e`; only quiet events follow. -/
theorem transport_failure_error_response (env : Env) (w : World) (e : Exn) :
    (w.faults.head? = some (some e) →
      (ProcessAppRequest env w).1 = .raised e ∧
      ∃ tail, (ProcessAppRequest env w).2.log =
          w.log ++ [Event.receiveData 4, Event.transportFailed e,
            Event.sendResponse (ErrorResponse env e)] ++ tail ∧
        (∀ ev ∈ tail, ev.quiet = true)) ∧
    (∀ rest, w.faults = none :: some e :: rest → 4 ≤ w.incoming.length →
      (ProcessAppRequest env w).1 = .raised e ∧
      ∃ tail, (ProcessAppRequest env w).2.log =
          w.log ++ [Event.receiveData 4, Event.receiveData (int32OfBytes (w.incoming.take 4)),
            Event.transportFailed e, Event.sendResponse (ErrorResponse env e)] ++ tail ∧
        (∀ ev ∈ tail, ev.quiet = true)) ∧
    (∀ request w1 w2, ReceiveRequest env w = (.ok request, w1) →
      dispatch env request w1 = (.raised e, w2) →
      (ProcessAppRequest env w).1 = .raised e ∧
      ∃ tail, (ProcessAppRequest env w).2.log =
          w2.log ++ Event.sendResponse (ErrorResponse env e) :: tail ∧
        (∀ ev ∈ tail, ev.quiet = true)) ∧
    (∀ request w1 response wS, ReceiveRequest env w = (.ok request, w1) →
      dispatch env request w1 = SendResponse env response wS →
      (wS.faults.head? = some (some e) ∨ ∃ rest, wS.faults = none :: some e :: rest) →
      (ProcessAppRequest env w).1 = .raised e ∧
      ∃ sends tail, (ProcessAppRequest env w).2.log =
          wS.log ++ [Event.sendResponse response] ++ sends ++
            [Event.transportFailed e, Event.odslog "Failed to send response.",
              Event.sendResponse (ErrorResponse env e)] ++ tail ∧
        (∀ ev ∈ sends, ev.quiet = true) ∧ (∀ ev ∈ tail, ev.quiet = true)) := by
  refine ⟨?_, ?_, ?_, ?_⟩
  · intro h
    obtain ⟨hout, tail, hlog, hq⟩ := sendErrorAndRethrow_error env e
      { w with log := w.log ++ [Event.receiveData 4, Event.transportFailed e]
               faults := w.faults.tail }
    simp only [ProcessAppRequest, PTask.thenTask, PTask.andThen,
      ReceiveRequest_size_fails env w e h]
    exact ⟨hout, tail, by simp [hlog], hq⟩
  · intro rest h hlen
    obtain ⟨hout, tail, hlog, hq⟩ := sendErrorAndRethrow_error env e
      { w with log := w.log ++ [Event.receiveData 4,
                 Event.receiveData (int32OfBytes (w.incoming.take 4)), Event.transportFailed e]
               faults := rest
               incoming := w.incoming.drop 4 }
    simp only [ProcessAppRequest, PTask.thenTask, PTask.andThen,
      ReceiveRequest_body_fails env w e rest h hlen]
    exact ⟨hout, tail, by simp [hlog], hq⟩
  · intro request w1 w2 hrecv hdispatch
    exact ProcessAppRequest_of_raised env w w1 w2 request e hrecv hdispatch
  · intro request w1 response wS hrecv hends hfault
    rw [ProcessAppRequest_of_request env w w1 request hrecv]
    simp only [PTask.thenTask, hends]
    rcases hfault with h | ⟨rest, h⟩
    · obtain ⟨w3, hs, hl3⟩ : ∃ w3, SendResponse env response wS = (.raised e, w3) ∧
          w3.log = wS.log ++ [Event.sendResponse response] ++
            [Event.sendData (int32Bytes (toInt32 ((env.serialize response).map
              (· % 256)).length))] ++
            [Event.transportFailed e, Event.odslog "Failed to send response."] :=
        ⟨_, SendResponse_first_send_fails env _ _ e h, by simp⟩
      rw [hs]
      obtain ⟨hout, tail, hlog, hq⟩ := sendErrorAndRethrow_error env e w3
      refine ⟨hout, [Event.sendData (int32Bytes (toInt32 ((env.serialize response).map
        (· % 256)).length))], tail, ?_, by simp [Event.quiet], hq⟩
      rw [hlog, hl3]
      simp
    · obtain ⟨w3, hs, hl3⟩ : ∃ w3, SendResponse env response wS = (.raised e, w3) ∧
          w3.log = wS.log ++ [Event.sendResponse response] ++
            [Event.sendData (int32Bytes (toInt32 ((env.serialize response).map
              (· % 256)).length)),
             Event.sendData ((env.serialize response).map (· % 256))] ++
            [Event.transportFailed e, Event.odslog "Failed to send response."] :=
        ⟨_, SendResponse_second_send_fails env _ _ e rest h, by simp⟩
      rw [hs]
      obtain ⟨hout, tail, hlog, hq⟩ := sendErrorAndRethrow_error env e w3
      refine ⟨hout, [Event.sendData (int32Bytes (toInt32 ((env.serialize response).map
        (· % 256)).length)),
        Event.sendData ((env.serialize response).map (· % 256))], tail, ?_,
        by simp [Event.quiet], hq⟩
      rw [hlog, hl3]
      simp

/-- C8 as amended, at a framed `RemoveAppRequest`: once with the first receive
raising, once with the size bytes of the success response failing to be
sent. -/
theorem transport_failure_error_response_example :
    (ProcessAppRequest Sample.env (Sample.world (Sample.frame
        "\x7b\"identifier\":\"RemoveAppRequest\",\"udid\":\"ABCD\",\"bundleIdentifier\":\"com.example.app\"\x7d")
        [some (.error "socket closed" [])])).1 = .raised (.error "socket closed" []) ∧
      (ProcessAppRequest Sample.env (Sample.world (Sample.frame
        "\x7b\"identifier\":\"RemoveAppRequest\",\"udid\":\"ABCD\",\"bundleIdentifier\":\"com.example.app\"\x7d")
        [none, none, some (.error "socket closed" [])])).1 =
          .raised (.error "socket closed" []) :=
  ⟨((transport_failure_error_response Sample.env (Sample.world (Sample.frame
        "\x7b\"identifier\":\"RemoveAppRequest\",\"udid\":\"ABCD\",\"bundleIdentifier\":\"com.example.app\"\x7d")
        [some (.error "socket closed" [])]) (.error "socket closed" [])).1 (by rfl)).1,
    ((transport_failure_error_response Sample.env (Sample.world (Sample.frame
        "\x7b\"identifier\":\"RemoveAppRequest\",\"udid\":\"ABCD\",\"bundleIdentifier\":\"com.example.app\"\x7d")
        [none, none, some (.error "socket closed" [])]) (.error "socket closed" [])).2.2.2
      (.obj [("identifier", .str "RemoveAppRequest"), ("udid", .str "ABCD"),
        ("bundleIdentifier", .str "com.example.app")])
      { incoming := [], faults := [some (.error "socket closed" [])], outgoing := [],
        files := [], log := [Event.receiveData 4, Event.receiveData 84] }
      (.obj (responseHeader 1 "RemoveAppResponse"))
      { incoming := [], faults := [some (.error "socket closed" [])], outgoing := [],
        files := [],
        log := [Event.receiveData 4, Event.receiveData 84,
          Event.handler "ProcessRemoveAppRequest", Event.removeApp "com.example.app" "ABCD"] }
      (by rfl) (by rfl) (Or.inl (by rfl))).1⟩

/-! ## `InstallProvisioningProfiles` -/

/-- The loop over the profiles never skips an element: when it completes,
every element of the array has been pushed. -/
theorem decodeProfiles_length (env : Env) (array : List Json) :
    ∀ (acc profiles : List ProvisioningProfile), decodeProfiles env array acc = .ok profiles →
      profiles.length = acc.length + array.length := by
  induction array with
  | nil =>
    intro acc profiles h
    simp only [decodeProfiles, Except.ok.injEq] at h
    simp [← h]
  | cons value rest ih =>
    intro acc profiles h
    simp only [decodeProfiles, makeSharedProvisioningProfile] at h
    cases hs : value.as_string with
    | error e => simp [hs] at h
    | ok encodedData =>
      cases hd : env.from_base64 encodedData with
      | error e => simp [hs, hd] at h
      | ok data =>
        cases hp : env.newProvisioningProfile data with
        | error e => simp [hs, hd, hp] at h
        | ok profile =>
          simp only [hs, hd, hp] at h
          have := ih _ _ h
          simp at this
          simp [this]
          omega

/-- A profile whose constructor throws aborts the loop with that exception,
whatever precedes and follows it in the array. -/
theorem decodeProfiles_aborts (env : Env) (value : Json) (encodedData : String)
    (data : List Nat) (e : Exn) (rest : List Json) (acc : List ProvisioningProfile)
    (hs : value.as_string = .ok encodedData) (hd : env.from_base64 encodedData = .ok data)
    (hp : env.newProvisioningProfile data = .error e) :
    decodeProfiles env (value :: rest) acc = .error e := by
  simp [decodeProfiles, makeSharedProvisioningProfile, hs, hd, hp]

set_option maxRecDepth 100000 in
/-- Evaluation for C9: of three profiles the second does not parse (its
constructor throws).  The request is not carried on with the other two:
`InstallProvisioningProfiles` is never called, the request completes with the
constructor's exception, and the one response started is the error response. -/
theorem install_profiles_unparsable_aborts :
    (ProcessAppRequest Sample.env (Sample.world (Sample.frame
        "\x7b\"identifier\":\"InstallProvisioningProfilesRequest\",\"udid\":\"ABCD\",\"provisioningProfiles\":[\"MAA=\",\"aGVsbG8=\",\"MAE=\"]\x7d")
        [])).1 = .raised (.error "Invalid provisioning profile" []) ∧
      installProfilesCallsOf (ProcessAppRequest Sample.env (Sample.world (Sample.frame
        "\x7b\"identifier\":\"InstallProvisioningProfilesRequest\",\"udid\":\"ABCD\",\"provisioningProfiles\":[\"MAA=\",\"aGVsbG8=\",\"MAE=\"]\x7d")
        [])).2.log = [] ∧
      responsesOf (ProcessAppRequest Sample.env (Sample.world (Sample.frame
        "\x7b\"identifier\":\"InstallProvisioningProfilesRequest\",\"udid\":\"ABCD\",\"provisioningProfiles\":[\"MAA=\",\"aGVsbG8=\",\"MAE=\"]\x7d")
        [])).2.log = [ErrorResponse Sample.env (.error "Invalid provisioning profile" [])] ∧
      Sample.env.from_base64 "MAA=" = .ok [48, 0] ∧
      Sample.env.newProvisioningProfile [48, 0] = .ok ⟨[48, 0]⟩ ∧
      Sample.env.from_base64 "aGVsbG8=" = .ok [104, 101, 108, 108, 111] ∧
      Sample.env.newProvisioningProfile [104, 101, 108, 108, 111] =
        .error (.error "Invalid provisioning profile" []) ∧
      Sample.env.from_base64 "MAE=" = .ok [48, 1] ∧
      Sample.env.newProvisioningProfile [48, 1] = .ok ⟨[48, 1]⟩ :=
  ⟨by rfl, by rfl, by rfl, by rfl, by rfl, by rfl, by rfl, by rfl, by rfl⟩

/-! ## `PrepareApp` -/

theorem mem_stdSetInsert (x s : String) (set : List String) :
    s ∈ stdSetInsert x set ↔ s = x ∨ s ∈ set := by
  induction set with
  | nil => simp [stdSetInsert]
  | cons y ys ih =>
    by_cases h1 : stringLess x y = true
    · simp [stdSetInsert, h1]
    · by_cases h2 : x = y
      · subst h2
        simp [stdSetInsert, h1]
      · have h1f : stringLess x y = false := by simpa using h1
        simp only [stdSetInsert, h1f, h2, if_false, List.mem_cons, ih, Bool.false_eq_true]
        tauto

/-- The set filled from an array of JSON strings holds exactly those strings
(and what it held before). -/
theorem insertStrings_strings (strings : List String) :
    ∀ set : List String, ∃ filled,
      insertStrings (strings.map Json.str) set = .ok filled ∧
      ∀ s, s ∈ filled ↔ s ∈ strings ∨ s ∈ set := by
  induction strings with
  | nil => intro set; exact ⟨set, rfl, by simp⟩
  | cons x xs ih =>
    intro set
    obtain ⟨filled, h, hmem⟩ := ih (stdSetInsert x set)
    refine ⟨filled, by simpa [insertStrings, Json.as_string] using h, ?_⟩
    intro s
    rw [hmem, mem_stdSetInsert]
    simp only [List.mem_cons]
    tauto

theorem progressCallback_installCalls (env : Env) (isSending : Bool) (progress : ℚ)
    (w : World) :
    installCallsOf (progressCallback env isSending progress w).2.log = installCallsOf w.log := by
  unfold progressCallback
  by_cases hs : isSending = true
  · simp [hs]
  · obtain ⟨tail, hlog, hq, _⟩ := SendResponse_trace env (progressResponse progress) w
    simp only [hs, if_false]
    rcases hr : SendResponse env (progressResponse progress) w with ⟨o, w1⟩
    rw [hr] at hlog
    simp only [] at hlog
    cases o <;>
      simp [hlog, installCallsOf_append, installCallsOf, installCallsOf_quiet _ hq]

theorem progressFold_installCalls (env : Env) (progresses : List ℚ) :
    ∀ st : Bool × World,
      installCallsOf (progresses.foldl
        (fun st progress => progressCallback env st.1 progress st.2) st).2.log =
        installCallsOf st.2.log := by
  induction progresses with
  | nil => intro st; rfl
  | cons p ps ih =>
    intro st
    simp only [List.foldl_cons]
    rw [ih, progressCallback_installCalls]

/-- The method `InstallApp` calls the device manager's `InstallApp` once, with
the arguments it was given, and completes as the device manager does. -/
theorem InstallApp_installCalls (env : Env) (filepath udid : String)
    (activeProfiles : Option (List String)) (w : World) :
    installCallsOf (InstallApp env filepath udid activeProfiles w).2.log =
        installCallsOf w.log ++ [(filepath, udid, activeProfiles)] ∧
      (InstallApp env filepath udid activeProfiles w).1 ≠ .pending := by
  unfold InstallApp
  cases hrun : (env.InstallApp filepath udid activeProfiles).2 with
  | ok u =>
    simp only [PTask.ofExcept, PTask.pure, hrun]
    rw [progressFold_installCalls]
    simp [installCallsOf_append, installCallsOf]
  | error e =>
    simp only [PTask.ofExcept, PTask.raise, hrun]
    rw [progressFold_installCalls]
    simp [installCallsOf_append, installCallsOf]

theorem ReceiveApp_trace (env : Env) (request : Json) (w : World) :
    ∃ tail, (ReceiveApp env request w).2.log = w.log ++ tail ∧
      (∀ ev ∈ tail, ev.quiet = true) := by
  unfold ReceiveApp
  cases (request.index "contentSize").bind Json.as_integer with
  | error e => exact ⟨[], by simp [PTask.raise], by simp⟩
  | ok appSize =>
    obtain ⟨tail, hlog, hq⟩ := ReceiveData_trace appSize w
    simp only [PTask.andThen]
    rcases hr : ReceiveData appSize w with ⟨o, w1⟩
    rw [hr] at hlog
    cases o <;> exact ⟨tail, hlog, hq⟩

/-- The install of `ProcessPrepareAppRequest` is called with the path of the
received package, the `udid` read from the request the handler was entered
with, and the active profiles read from the request received after the
package. -/
theorem ProcessPrepareAppRequest_installCalls (env : Env) (request second : Json)
    (w wA wB : World) (udid path : String) (activeProfiles : Option (List String))
    (hudid : (request.index "udid").bind Json.as_string = .ok udid)
    (happ : ReceiveApp env request (w.logged [Event.handler "ProcessPrepareAppRequest"]) =
      (.ok path, wA))
    (hsecond : ReceiveRequest env wA = (.ok second, wB))
    (hactive : activeProfilesOf second = .ok activeProfiles) :
    installCallsOf (ProcessPrepareAppRequest env request w).2.log =
      installCallsOf w.log ++ [(path, udid, activeProfiles)] := by
  obtain ⟨tA, hA, qA⟩ := ReceiveApp_trace env request
    (w.logged [Event.handler "ProcessPrepareAppRequest"])
  obtain ⟨tB, hB, qB⟩ := ReceiveRequest_trace env wA
  rw [happ] at hA
  rw [hsecond] at hB
  simp only [] at hA hB
  have hwB : installCallsOf wB.log = installCallsOf w.log := by
    rw [hB, hA]
    simp [World.logged, installCallsOf_append, installCallsOf, installCallsOf_quiet _ qA,
      installCallsOf_quiet _ qB]
  obtain ⟨hcalls, hnp⟩ := InstallApp_installCalls env path udid activeProfiles wB
  have hw : (PTask.trace (Event.handler "ProcessPrepareAppRequest")) w =
      (.ok (), w.logged [Event.handler "ProcessPrepareAppRequest"]) := rfl
  simp only [ProcessPrepareAppRequest, PTask.andThen, PTask.thenTask, hw, hudid, happ,
    PTask.ofExcept, PTask.pure, hsecond, hactive]
  rcases hr : InstallApp env path udid activeProfiles wB with ⟨o, wC⟩
  rw [hr] at hcalls hnp
  simp only [] at hcalls hnp
  cases o with
  | pending => exact absurd rfl hnp
  | raised e =>
    by_cases hlen : path.length > 0 <;> simp [hlen, PTask.raise, hcalls, hwB]
  | ok u =>
    by_cases hlen : path.length > 0
    · obtain ⟨tail, hlog, hq, _⟩ := SendResponse_trace env (progressResponse 1)
        { wC with files := wC.files.filter (fun f => f.1 ≠ path) }
      simp only [hlen, if_true]
      rw [hlog]
      simp [installCallsOf_append, installCallsOf, installCallsOf_quiet _ hq, hcalls, hwB]
    · obtain ⟨tail, hlog, hq, _⟩ := SendResponse_trace env (progressResponse 1) wC
      simp only [hlen, if_false]
      rw [hlog]
      simp [installCallsOf_append, installCallsOf, installCallsOf_quiet _ hq, hcalls, hwB]

theorem activeProfilesOf_absent (second : Json)
    (h : second.has_array_field "activeProfiles" = false) :
    activeProfilesOf second = .ok none := by
  simp [activeProfilesOf, h]

theorem activeProfilesOf_strings (fields : List (String × Json)) (strings : List String)
    (h : Json.find? "activeProfiles" fields = some (.arr (strings.map Json.str))) :
    ∃ set, activeProfilesOf (.obj fields) = .ok (some set) ∧ ∀ s, s ∈ set ↔ s ∈ strings := by
  obtain ⟨filled, hfilled, hmem⟩ := insertStrings_strings strings []
  refine ⟨filled, ?_, fun s => by simpa using hmem s⟩
  simp [activeProfilesOf, Json.has_array_field, Json.index, Json.as_array, h, hfilled,
    Except.bind]

/-- Refutation of C10 as stated: the first request carries the device
identifier AAAA, the request received after the package carries BBBB, and the
install is called with AAAA. -/
theorem prepare_app_udid_not_of_second_request :
    (installCallsOf (ProcessAppRequest Sample.env (Sample.world
        (Sample.frame
            "\x7b\"identifier\":\"PrepareAppRequest\",\"udid\":\"AAAA\",\"contentSize\":3\x7d" ++
          [1, 2, 3] ++
          Sample.frame
            "\x7b\"identifier\":\"BeginInstallationRequest\",\"udid\":\"BBBB\",\"activeProfiles\":[\"com.b\",\"com.a\"]\x7d")
        [])).2.log).map (fun call => call.2.1) = ["AAAA"] ∧
      (Sample.parse (Sample.units
        "\x7b\"identifier\":\"BeginInstallationRequest\",\"udid\":\"BBBB\",\"activeProfiles\":[\"com.b\",\"com.a\"]\x7d")).bind
          (fun second => (second.index "udid").bind Json.as_string) = .ok "BBBB" ∧
      (installCallsOf (ProcessAppRequest Sample.env (Sample.world
        (Sample.frame
            "\x7b\"identifier\":\"PrepareAppRequest\",\"udid\":\"AAAA\",\"contentSize\":3\x7d" ++
          [1, 2, 3] ++
          Sample.frame
            "\x7b\"identifier\":\"BeginInstallationRequest\",\"udid\":\"BBBB\",\"activeProfiles\":[\"com.b\",\"com.a\"]\x7d")
        [])).2.log).map (fun call => call.2.1) ≠ ["BBBB"] :=
  ⟨by decide!, by rfl, by decide!⟩

/-- C10 as amended: the device identifier given to the install workflow is
the `udid` of the request `ProcessPrepareAppRequest` was entered with (the
first request); the file is the received package; the active-profile set is
the one carried by the request received after the package: absent when that
request has no `activeProfiles` array, otherwise the set of the array's
strings. -/
theorem prepare_app_install_arguments (env : Env) (request second : Json)
    (w wA wB : World) (udid path : String) (activeProfiles : Option (List String))
    (hudid : (request.index "udid").bind Json.as_string = .ok udid)
    (happ : ReceiveApp env request (w.logged [Event.handler "ProcessPrepareAppRequest"]) =
      (.ok path, wA))
    (hsecond : ReceiveRequest env wA = (.ok second, wB))
    (hactive : activeProfilesOf second = .ok activeProfiles) :
    installCallsOf (ProcessPrepareAppRequest env request w).2.log =
        installCallsOf w.log ++ [(path, udid, activeProfiles)] ∧
      (second.has_array_field "activeProfiles" = false → activeProfiles = none) ∧
      (∀ (fields : List (String × Json)) (strings : List String), second = .obj fields →
        Json.find? "activeProfiles" fields = some (.arr (strings.map Json.str)) →
        ∃ set, activeProfiles = some set ∧ ∀ s, s ∈ set ↔ s ∈ strings) := by
  refine ⟨ProcessPrepareAppRequest_installCalls env request second w wA wB udid path
    activeProfiles hudid happ hsecond hactive, ?_, ?_⟩
  · intro h
    rw [activeProfilesOf_absent second h] at hactive
    cases hactive
    rfl
  · intro fields strings hobj hfind
    subst hobj
    obtain ⟨set, hset, hmem⟩ := activeProfilesOf_strings fields strings hfind
    rw [hset] at hactive
    cases hactive
    exact ⟨set, rfl, hmem⟩

/-- C10 as amended, at a first request for the device AAAA followed by the
package and a second request naming BBBB and two active profiles. -/
theorem prepare_app_install_arguments_example :
    installCallsOf (ProcessPrepareAppRequest Sample.env
      (.obj [("identifier", .str "PrepareAppRequest"), ("udid", .str "AAAA"),
        ("contentSize", .int 3)])
      (Sample.world ([1, 2, 3] ++ Sample.frame
        "\x7b\"identifier\":\"BeginInstallationRequest\",\"udid\":\"BBBB\",\"activeProfiles\":[\"com.b\",\"com.a\"]\x7d")
        [])).2.log = [("C:/Temp\\0000.ipa", "AAAA", some ["com.a", "com.b"])] :=
  (prepare_app_install_arguments Sample.env
    (.obj [("identifier", .str "PrepareAppRequest"), ("udid", .str "AAAA"),
      ("contentSize", .int 3)])
    (.obj [("identifier", .str "BeginInstallationRequest"), ("udid", .str "BBBB"),
      ("activeProfiles", .arr [.str "com.b", .str "com.a"])])
    (Sample.world ([1, 2, 3] ++ Sample.frame
      "\x7b\"identifier\":\"BeginInstallationRequest\",\"udid\":\"BBBB\",\"activeProfiles\":[\"com.b\",\"com.a\"]\x7d")
      [])
    { incoming := Sample.frame
        "\x7b\"identifier\":\"BeginInstallationRequest\",\"udid\":\"BBBB\",\"activeProfiles\":[\"com.b\",\"com.a\"]\x7d"
      faults := [], outgoing := [], files := [("C:/Temp\\0000.ipa", [1, 2, 3])]
      log := [Event.handler "ProcessPrepareAppRequest", Event.receiveData 3] }
    { incoming := [], faults := [], outgoing := [], files := [("C:/Temp\\0000.ipa", [1, 2, 3])]
      log := [Event.handler "ProcessPrepareAppRequest", Event.receiveData 3,
        Event.receiveData 4, Event.receiveData 90] }
    "AAAA" "C:/Temp\\0000.ipa" (some ["com.a", "com.b"])
    (by rfl) (by rfl) (by rfl) (by rfl)).1

/-! ## `EnableUnsignedCodeExecution` -/

/-- When the enabler succeeds, `Disconnect` is called on the connection. -/
theorem enableThenDisconnect_ok (env : Env) (connection : DebugConnection)
    (target : ProcessTarget) (w : World)
    (h : env.EnableUnsignedCodeExecution connection target = .ok ()) :
    enableThenDisconnect env connection target w =
      (.ok (), w.logged [Event.enableUnsignedCodeExecution connection target,
        Event.debugDisconnect connection]) := by
  simp [enableThenDisconnect, PTask.andThen, PTask.trace, PTask.ofExcept, PTask.pure, h,
    World.logged]

/-- When the enabler fails, the continuation that calls `Disconnect` takes a
value and is skipped: the task completes with the enabler's exception and
`Disconnect` has not been called. -/
theorem enableThenDisconnect_raises (env : Env) (connection : DebugConnection)
    (target : ProcessTarget) (w : World) (e : Exn)
    (h : env.EnableUnsignedCodeExecution connection target = .error e) :
    enableThenDisconnect env connection target w =
      (.raised e, w.logged [Event.enableUnsignedCodeExecution connection target]) := by
  simp [enableThenDisconnect, PTask.andThen, PTask.trace, PTask.ofExcept, PTask.raise, h,
    World.logged]

/-- Evaluation for C20: a request for the known device with a process id.
With an enabler that succeeds the started connection is disconnected; with an
enabler that fails the debug connection is started, the enabler is called on
it, the request completes with the enabler's exception, and `Disconnect` is
never called. -/
theorem enabler_failure_skips_disconnect :
    debugDisconnectsOf (ProcessAppRequest Sample.env (Sample.world (Sample.frame
        "\x7b\"identifier\":\"EnableUnsignedCodeExecutionRequest\",\"udid\":\"ABCD\",\"processID\":42\x7d")
        [])).2.log = [⟨Sample.device⟩] ∧
      (ProcessAppRequest Sample.envEnablerFails (Sample.world (Sample.frame
        "\x7b\"identifier\":\"EnableUnsignedCodeExecutionRequest\",\"udid\":\"ABCD\",\"processID\":42\x7d")
        [])).1 = .raised (.error "Could not attach to process" []) ∧
      debugStartsOf (ProcessAppRequest Sample.envEnablerFails (Sample.world (Sample.frame
        "\x7b\"identifier\":\"EnableUnsignedCodeExecutionRequest\",\"udid\":\"ABCD\",\"processID\":42\x7d")
        [])).2.log = [Sample.device] ∧
      enableCallsOf (ProcessAppRequest Sample.envEnablerFails (Sample.world (Sample.frame
        "\x7b\"identifier\":\"EnableUnsignedCodeExecutionRequest\",\"udid\":\"ABCD\",\"processID\":42\x7d")
        [])).2.log = [(⟨Sample.device⟩, .pid 42)] ∧
      debugDisconnectsOf (ProcessAppRequest Sample.envEnablerFails (Sample.world (Sample.frame
        "\x7b\"identifier\":\"EnableUnsignedCodeExecutionRequest\",\"udid\":\"ABCD\",\"processID\":42\x7d")
        [])).2.log = [] :=
  ⟨by decide!, by decide!, by decide!, by decide!, by decide!⟩

/-! ## Progress throttling -/

theorem installRun_cons (s : InstallState) (ev : InstallEvent) (events : List InstallEvent) :
    installRun s (ev :: events) = installRun (installStep s ev) events := rfl

theorem installRun_append (s : InstallState) (xs ys : List InstallEvent) :
    installRun s (xs ++ ys) = installRun (installRun s xs) ys := by
  simp [installRun, List.foldl_append]

/-- While the flag is set and the install runs, progress callbacks only add
to the dropped values. -/
theorem installRun_progress_while_sending (later : List ℚ) :
    ∀ s : InstallState, s.finished = false → s.isSending = true →
      installRun s (later.map InstallEvent.progress) =
        { s with dropped := s.dropped ++ later } := by
  induction later with
  | nil => intro s _ _; simp [installRun]
  | cons q qs ih =>
    intro s hf hs
    rw [List.map_cons, installRun_cons]
    have hstep : installStep s (.progress q) = { s with dropped := s.dropped ++ [q] } := by
      simp [installStep, hf, hs]
    rw [hstep, ih { s with dropped := s.dropped ++ [q] } hf hs]
    simp

/-- Refutation of C18 as stated: the send of the first progress value ends
with an error; no send is in flight any more, and the next progress callback
is dropped all the same. -/
theorem progress_after_failed_send_dropped :
    (installRun InstallState.initial
        [.progress Sample.quarter, .sendCompletes false]).inFlight = [] ∧
      (installRun InstallState.initial
        [.progress Sample.quarter, .sendCompletes false, .progress Sample.half]).started =
        [⟨.progress Sample.quarter, 0⟩] ∧
      (installRun InstallState.initial
        [.progress Sample.quarter, .sendCompletes false, .progress Sample.half]).dropped =
        [Sample.half] :=
  ⟨by decide!, by decide!, by decide!⟩

/-- C18 as amended: with no send in flight a progress callback starts a send;
a callback invoked while that send is in flight sends nothing and is not
queued (nothing is started for it when the send completes); once the send has
completed successfully the next callback sends again; once it has ended with
an error every later callback of the install is dropped. -/
theorem progress_throttling (s : InstallState) (p q : ℚ)
    (hrunning : s.finished = false) (hflag : s.isSending = false) (hidle : s.inFlight = []) :
    (installRun s [.progress p]).started = s.started ++ [⟨.progress p, 0⟩] ∧
      (installRun s [.progress p, .progress q]).started = s.started ++ [⟨.progress p, 0⟩] ∧
      (installRun s [.progress p, .progress q]).dropped = s.dropped ++ [q] ∧
      (installRun s [.progress p, .progress q, .sendCompletes true]).started =
        s.started ++ [⟨.progress p, 0⟩] ∧
      (installRun s [.progress p, .sendCompletes true, .progress q]).started =
        s.started ++ [⟨.progress p, 0⟩, ⟨.progress q, 0⟩] ∧
      (∀ later : List ℚ,
        (installRun s ([.progress p, .sendCompletes false] ++
            later.map InstallEvent.progress)).started = s.started ++ [⟨.progress p, 0⟩] ∧
        (installRun s ([.progress p, .sendCompletes false] ++
            later.map InstallEvent.progress)).dropped = s.dropped ++ later) := by
  have h1 : installStep s (.progress p) =
      { s with isSending := true, inFlight := [SendKind.progress p],
               started := s.started ++ [⟨SendKind.progress p, 0⟩] } := by
    simp [installStep, hrunning, hflag, hidle]
  have h2 : installStep (installStep s (.progress p)) (.progress q) =
      { s with isSending := true, inFlight := [SendKind.progress p],
               started := s.started ++ [⟨SendKind.progress p, 0⟩],
               dropped := s.dropped ++ [q] } := by
    rw [h1]
    simp [installStep, hrunning]
  have h3 : installStep (installStep s (.progress p)) (.sendCompletes true) =
      { s with isSending := false, inFlight := [],
               started := s.started ++ [⟨SendKind.progress p, 0⟩] } := by
    rw [h1]
    simp [installStep, SendKind.isProgress]
  have h4 : installStep (installStep s (.progress p)) (.sendCompletes false) =
      { s with isSending := true, inFlight := [],
               started := s.started ++ [⟨SendKind.progress p, 0⟩] } := by
    rw [h1]
    simp [installStep, SendKind.isProgress, SendKind.isTerminal]
  refine ⟨?_, ?_, ?_, ?_, ?_, ?_⟩
  · show (installStep s (.progress p)).started = _
    rw [h1]
  · show (installStep (installStep s (.progress p)) (.progress q)).started = _
    rw [h2]
  · show (installStep (installStep s (.progress p)) (.progress q)).dropped = _
    rw [h2]
  · show (installStep (installStep (installStep s (.progress p)) (.progress q))
      (.sendCompletes true)).started = _
    rw [h2]
    simp [installStep, SendKind.isProgress]
  · show (installStep (installStep (installStep s (.progress p)) (.sendCompletes true))
      (.progress q)).started = _
    rw [h3]
    simp [installStep, hrunning]
  · intro later
    rw [installRun_append]
    have h5 : installRun s [.progress p, .sendCompletes false] =
        installStep (installStep s (.progress p)) (.sendCompletes false) := rfl
    rw [h5, h4, installRun_progress_while_sending later
      { s with isSending := true, inFlight := [],
               started := s.started ++ [⟨SendKind.progress p, 0⟩] } hrunning rfl]
    exact ⟨rfl, rfl⟩

/-- C18 as amended, at the start of an install with the progress values 0.25
and 0.5. -/
theorem progress_throttling_example :
    (installRun InstallState.initial
        [.progress Sample.quarter, .sendCompletes true, .progress Sample.half]).started =
      [⟨.progress Sample.quarter, 0⟩, ⟨.progress Sample.half, 0⟩] :=
  (progress_throttling InstallState.initial Sample.quarter Sample.half rfl rfl rfl).2.2.2.2.1

/-! ## Sends of one install -/

set_option maxRecDepth 100000 in
/-- The sends of the install machine are those of `ProcessAppRequest`: the
sample install reports 0.25 and 0.5 and succeeds, the sends of both progress
values go through, and the transport raises on the send of the response with
progress 1.0.  Both show four sends, the last one the error response that the
catch block of `ProcessAppRequest` starts. -/
theorem install_machine_agrees_with_ProcessAppRequest :
    (responsesOf (ProcessAppRequest Sample.env (Sample.world
        (Sample.frame
            "\x7b\"identifier\":\"PrepareAppRequest\",\"udid\":\"AAAA\",\"contentSize\":3\x7d" ++
          [1, 2, 3] ++
          Sample.frame "\x7b\"identifier\":\"BeginInstallationRequest\"\x7d")
        [none, none, none, none, none, none, none, none, none,
          some (.other "connection reset")])).2.log).map Sample.serialize =
      ((installRun InstallState.initial
        [.progress Sample.quarter, .sendCompletes true, .progress Sample.half,
          .sendCompletes true, .installCompletes (.ok ()), .sendCompletes false,
          .sendCompletes true]).started.map fun sent =>
            Sample.serialize (sent.kind.response Sample.env (.other "connection reset"))) ∧
    (installRun InstallState.initial
        [.progress Sample.quarter, .sendCompletes true, .progress Sample.half,
          .sendCompletes true, .installCompletes (.ok ()), .sendCompletes false,
          .sendCompletes true]).started.map (fun sent => sent.kind) =
      [.progress Sample.quarter, .progress Sample.half, .terminal, .sendFailureResponse] := by
  refine ⟨?_, ?_⟩ <;> decide!

/-- A directory is what `lookup` finds as a directory. -/
theorem is_directory_eq_true (fs : FileSystem) (p : FsPath) :
    fs.is_directory p = true ↔ fs.lookup p = some .directory := by
  unfold FileSystem.is_directory
  split
  · next h => simp [h]
  · next h =>
    constructor
    · intro hf; exact absurd hf Bool.false_ne_true
    · intro hl; exact absurd hl (h)

/-- Creating a directory that exists changes nothing. -/
theorem create_directory_existing (fs : FileSystem) (p : FsPath)
    (h : fs.is_directory p = true) : fs.create_directory p = .ok fs := by
  rw [is_directory_eq_true] at h
  simp [FileSystem.create_directory, h]

/-- For a device type with an OS name, the identifier is the fixed text, the
OS name, and the rendering of the version of the device as it is. -/
theorem DeveloperDiskCompatibilityID_mapped (env : DiskEnv) (device : Device) (osName : String)
    (hname : env.ALTOperatingSystemNameForDeviceType device.type = some osName) :
    DeveloperDiskCompatibilityID env device =
      some ("ALTDeveloperDiskCompatible_" ++ osName ++ "_" ++ env.stringValue device.osVersion) := by
  simp [DeveloperDiskCompatibilityID, hname]

/-- C14, evaluated: two devices of the same type on 15.4.1 and 15.4.2 (same
major and minor numbers) get different compatibility identifiers, because the
identifier is built from the version with its patch, while both use the same
cache directory `iOS/15.4`. -/
theorem compatibility_id_keeps_patch :
    Sample.device.type = Sample.updatedDevice.type ∧
    Sample.device.osVersion.majorVersion = Sample.updatedDevice.osVersion.majorVersion ∧
    Sample.device.osVersion.minorVersion = Sample.updatedDevice.osVersion.minorVersion ∧
    DeveloperDiskCompatibilityID Sample.diskEnv Sample.device =
      some "ALTDeveloperDiskCompatible_iOS_15.4.1" ∧
    DeveloperDiskCompatibilityID Sample.diskEnv Sample.updatedDevice =
      some "ALTDeveloperDiskCompatible_iOS_15.4.2" ∧
    developerDiskDirectoryPath Sample.diskEnv "iOS" Sample.device.osVersion =
      ["C:", "DeveloperDisks", "iOS", "15.4"] ∧
    developerDiskDirectoryPath Sample.diskEnv "iOS" Sample.updatedDevice.osVersion =
      ["C:", "DeveloperDisks", "iOS", "15.4"] := by
  refine ⟨rfl, rfl, rfl, ?_, ?_, ?_, ?_⟩ <;> decide!

/-- C15: for a device with a mapped OS name whose compatibility flag is true
and whose two cached files exist (inside the two cache directories),
`DownloadDeveloperDisk` returns the paths of the cached pair and leaves the
world as it was: nothing is added to the trace (no manifest request, no
download, no rename) and the file system is unchanged. -/
theorem cache_hit (env : DiskEnv) (device : Device) (w : DiskWorld) (osName : String)
    (hname : env.ALTOperatingSystemNameForDeviceType device.type = some osName)
    (hos : w.fs.is_directory (developerDiskOSPath env osName) = true)
    (hdir : w.fs.is_directory (developerDiskDirectoryPath env osName device.osVersion) = true)
    (hflag : IsDeveloperDiskCompatible env w device = true)
    (hdisk : w.fs.pathExists (developerDiskPath env osName device.osVersion) = true)
    (hsignature :
      w.fs.pathExists (developerDiskSignaturePath env osName device.osVersion) = true) :
    DownloadDeveloperDisk env device w =
      (.ok (FsPath.string (developerDiskPath env osName device.osVersion),
            FsPath.string (developerDiskSignaturePath env osName device.osVersion)), w) ∧
    (DownloadDeveloperDisk env device w).2.log = w.log ∧
    (DownloadDeveloperDisk env device w).2.fs = w.fs := by
  have h : DownloadDeveloperDisk env device w =
      (.ok (FsPath.string (developerDiskPath env osName device.osVersion),
            FsPath.string (developerDiskSignaturePath env osName device.osVersion)), w) := by
    unfold developerDiskPath developerDiskSignaturePath at *
    simp only [DownloadDeveloperDisk, hname, DiskTask.andThen, DiskTask.fsStep,
      create_directory_existing _ _ hos, create_directory_existing _ _ hdir, hflag, hdisk,
      hsignature, Bool.and_self, if_true]
  rw [h]
  exact ⟨rfl, rfl, rfl⟩

set_option maxRecDepth 100000 in
/-- C15 on the sample cache: the flag of the device on 15.4.1 is set and the
pair for `iOS/15.4` is there. -/
theorem cache_hit_example :
    DownloadDeveloperDisk Sample.diskEnv Sample.device
        (Sample.diskWorld [("ALTDeveloperDiskCompatible_iOS_15.4.1", true)] []) =
      (.ok ("C:\\DeveloperDisks\\iOS\\15.4\\DeveloperDiskImage.dmg",
            "C:\\DeveloperDisks\\iOS\\15.4\\DeveloperDiskImage.dmg.signature"),
        Sample.diskWorld [("ALTDeveloperDiskCompatible_iOS_15.4.1", true)] []) :=
  (cache_hit Sample.diskEnv Sample.device
    (Sample.diskWorld [("ALTDeveloperDiskCompatible_iOS_15.4.1", true)] []) "iOS"
    rfl (by decide!) (by decide!) (by decide!) (by decide!) (by decide!)).1

set_option maxRecDepth 100000 in
/-- C16, evaluated: the manifest gives direct URLs, both files download, the
first rename of the promotion is carried out and the second is refused.  The
exception propagates, and the cache directory holds the new disk image while
its signature is gone: the old one was removed before the renames and the
handler removed the downloaded one. -/
theorem promotion_leaves_disk_without_signature :
    (DownloadDeveloperDisk Sample.diskEnv Sample.device
        (Sample.diskWorld [] [false, true])).1 = .error (.filesystem "rename") ∧
    Sample.cacheFs.lookup ["C:", "DeveloperDisks", "iOS", "15.4", "DeveloperDiskImage.dmg"] =
      some (.file [7, 7, 7] 0o666) ∧
    Sample.cacheFs.lookup
      ["C:", "DeveloperDisks", "iOS", "15.4", "DeveloperDiskImage.dmg.signature"] =
      some (.file [8, 8] 0o666) ∧
    (DownloadDeveloperDisk Sample.diskEnv Sample.device
        (Sample.diskWorld [] [false, true])).2.fs.lookup
      ["C:", "DeveloperDisks", "iOS", "15.4", "DeveloperDiskImage.dmg"] =
      some (.file [1, 2, 3] 0o666) ∧
    (DownloadDeveloperDisk Sample.diskEnv Sample.device
        (Sample.diskWorld [] [false, true])).2.fs.lookup
      ["C:", "DeveloperDisks", "iOS", "15.4", "DeveloperDiskImage.dmg.signature"] = none ∧
    (DownloadDeveloperDisk Sample.diskEnv Sample.device
        (Sample.diskWorld [] [false, true])).2.log =
      [ .fetchManifest,
        .download "https://cdn/15.4/disk.dmg" ["C:", "Temp", "uuid0", "DeveloperDiskImage.dmg"],
        .download "https://cdn/15.4/disk.dmg.signature"
          ["C:", "Temp", "uuid0", "DeveloperDiskImage.dmg.signature"],
        .rename ["C:", "Temp", "uuid0", "DeveloperDiskImage.dmg"]
          ["C:", "DeveloperDisks", "iOS", "15.4", "DeveloperDiskImage.dmg"] true,
        .rename ["C:", "Temp", "uuid0", "DeveloperDiskImage.dmg.signature"]
          ["C:", "DeveloperDisks", "iOS", "15.4", "DeveloperDiskImage.dmg.signature"] false ] := by
  refine ⟨?_, ?_, ?_, ?_, ?_, ?_⟩ <;> decide!


/-! ## Exceptions of the downloads -/

/-- What `fs::create_directory` throws is a `filesystem_error`. -/
theorem create_directory_error (fs : FileSystem) (p : FsPath) (e : IoExn)
    (h : fs.create_directory p = .error e) : e = .filesystem "create_directory" := by
  unfold FileSystem.create_directory at h
  split at h
  · cases h
  · cases h; rfl
  · split at h
    · cases h
    · cases h; rfl

/-- What `fs::create_directories` throws is a `filesystem_error`. -/
theorem createChain_error (components : List String) :
    ∀ (fs : FileSystem) (base : FsPath) (e : IoExn),
      fs.createChain base components = .error e → e = .filesystem "create_directories" := by
  induction components with
  | nil => intro fs base e h; cases h
  | cons component rest ih =>
    intro fs base e h
    unfold FileSystem.createChain at h
    split at h
    · cases h; rfl
    · exact ih _ _ _ h
    · exact ih _ _ _ h

/-- What `fs::remove` throws is a `filesystem_error`. -/
theorem remove_error (fs : FileSystem) (p : FsPath) (e : IoExn)
    (h : fs.remove p = .error e) : e = .filesystem "remove" := by
  unfold FileSystem.remove at h
  split at h
  · cases h
  · cases h
  · split at h
    · cases h
    · cases h; rfl

/-- What `fs::rename` throws is a `filesystem_error`. -/
theorem rename_error (fs : FileSystem) (source target : FsPath) (e : IoExn)
    (h : fs.rename source target = .error e) : e = .filesystem "rename" := by
  unfold FileSystem.rename at h
  split at h
  · cases h; rfl
  · split at h <;> cases h


/-- What the creation of the parent directory throws is a `filesystem_error`. -/
theorem ensureDirectory_error (fs : FileSystem) (p : FsPath) (e : IoExn)
    (h : ensureDirectory fs p = .error e) : e = .filesystem "create_directories" := by
  unfold ensureDirectory at h
  split at h
  · cases h
  · exact createChain_error _ _ _ _ h

/-- The body of the extraction loop never throws `UnknownDownloadURL`. -/
theorem extractEntry_error (outputDirectory : String) (entry : UnzEntry) (fs : FileSystem) :
    (extractEntry outputDirectory entry fs).1 ≠ .error (.developerDisk .UnknownDownloadURL) := by
  unfold extractEntry
  split
  · next e hmade =>
    have := ensureDirectory_error _ _ _ hmade
    subst this
    simp
  · next fs1 hmade =>
    split
    · split
      · next e hdir =>
        have := createChain_error _ _ _ _ hdir
        subst this
        simp
      · simp
    · split
      · simp
      · split <;> simp

/-- The extraction loop never throws `UnknownDownloadURL`. -/
theorem unzipEntries_error (outputDirectory : String) (entries : List UnzEntry) :
    ∀ (remaining : Nat) (fs : FileSystem),
      (unzipEntries outputDirectory remaining entries fs).1 ≠
        .error (.developerDisk .UnknownDownloadURL) := by
  induction entries with
  | nil =>
    intro remaining fs
    cases remaining <;> simp [unzipEntries]
  | cons entry rest ih =>
    intro remaining fs
    cases remaining with
    | zero => simp [unzipEntries]
    | succ remaining =>
      unfold unzipEntries
      cases cFilename entry.name with
      | none => simp
      | some filename =>
        simp only []
        split
        · split
          · simp
          · exact ih _ _
        · split
          · simp
          · split
            · next e fs1 hstep =>
              intro h
              have := extractEntry_error outputDirectory { entry with name := filename } fs
              rw [hstep] at this
              exact this h
            · split
              · simp
              · exact ih _ _

/-- The function `UnzipArchive` never throws `UnknownDownloadURL`. -/
theorem UnzipArchive_error (zip : Minizip) (archivePath outputDirectory : String)
    (fs : FileSystem) :
    (UnzipArchive zip archivePath outputDirectory fs).1 ≠
      .error (.developerDisk .UnknownDownloadURL) := by
  unfold UnzipArchive
  simp only []
  split
  · simp
  · split
    · simp
    · exact unzipEntries_error _ _ _ _


/-- A value continuation of tasks that never throw `UnknownDownloadURL` never
throws it. -/
theorem andThen_neverUnknownDownloadURL {α β : Type} (t : DiskTask α) (f : α → DiskTask β)
    (ht : t.neverUnknownDownloadURL) (hf : ∀ a, (f a).neverUnknownDownloadURL) :
    (DiskTask.andThen t f).neverUnknownDownloadURL := by
  intro w
  unfold DiskTask.andThen
  split
  · next a w1 _ => exact hf a w1
  · next e w1 hstep =>
    have := ht w
    rw [hstep] at this
    intro h
    apply this
    simp only [Except.error.injEq] at h ⊢
    exact h

/-- A file-system call never throws `UnknownDownloadURL` when its operation
throws only `filesystem_error`. -/
theorem fsStep_neverUnknownDownloadURL (op : FileSystem → Except IoExn FileSystem)
    (hop : ∀ fs e, op fs = .error e → ∃ what, e = .filesystem what) :
    (DiskTask.fsStep op).neverUnknownDownloadURL := by
  intro w
  unfold DiskTask.fsStep
  split
  · simp
  · next e hstep =>
    obtain ⟨what, rfl⟩ := hop _ _ hstep
    simp

/-- The function `DownloadFile` never throws `UnknownDownloadURL`. -/
theorem DownloadFile_neverUnknownDownloadURL (env : DiskEnv) (downloadURL : String)
    (destinationPath : FsPath) :
    (DownloadFile env downloadURL destinationPath).neverUnknownDownloadURL := by
  intro w
  unfold DownloadFile
  split
  · simp
  · simp only []
    split <;> simp

/-- A rename never throws `UnknownDownloadURL`. -/
theorem renameStep_neverUnknownDownloadURL (source target : FsPath) :
    (renameStep source target).neverUnknownDownloadURL := by
  intro w
  unfold renameStep
  simp only []
  split
  · simp
  · split
    · next e hstep =>
      have := rename_error _ _ _ _ hstep
      subst this
      simp
    · simp

/-- The removal of an existing path never throws `UnknownDownloadURL`. -/
theorem removeIfExists_neverUnknownDownloadURL (p : FsPath) :
    (removeIfExists p).neverUnknownDownloadURL := by
  apply fsStep_neverUnknownDownloadURL
  intro fs e h
  split at h
  · exact ⟨_, remove_error _ _ _ h⟩
  · cases h

/-- The extraction continuation of `DownloadDiskArchive` never throws
`UnknownDownloadURL`. -/
theorem extractDisk_neverUnknownDownloadURL (env : DiskEnv) (archivePath temporaryPath : FsPath) :
    (extractDisk env archivePath temporaryPath).neverUnknownDownloadURL := by
  intro w
  unfold extractDisk
  split
  · next e fs1 hunzip =>
    intro h
    have := UnzipArchive_error env.zip (FsPath.string archivePath) (FsPath.string temporaryPath) w.fs
    rw [hunzip] at this
    exact this (by simpa using h)
  · split
    · simp
    · simp only []
      split
      · simp
      · split
        · next e w2 hrenames =>
          have hplain : e ≠ .developerDisk .UnknownDownloadURL := by
            intro he
            have := andThen_neverUnknownDownloadURL _ _
              (renameStep_neverUnknownDownloadURL _ _)
              (fun _ => renameStep_neverUnknownDownloadURL _ _) _ (by rw [hrenames, he])
            exact this
          split
          · next e1 h1 =>
            have := remove_error _ _ _ h1
            subst this
            simp
          · split
            · next e2 h2 =>
              have := remove_error _ _ _ h2
              subst this
              simp
            · simpa using hplain
        · simp


/-- The function `DownloadDiskArchive` never throws `UnknownDownloadURL`. -/
theorem DownloadDiskArchive_neverUnknownDownloadURL (env : DiskEnv) (archiveURL : String) :
    (DownloadDiskArchive env archiveURL).neverUnknownDownloadURL := by
  intro w
  unfold DownloadDiskArchive DiskTask.thenTask
  simp only []
  exact andThen_neverUnknownDownloadURL _ _
    (andThen_neverUnknownDownloadURL _ _
      (fsStep_neverUnknownDownloadURL _ fun fs e h => ⟨_, create_directory_error _ _ _ h⟩)
      (fun _ => DownloadFile_neverUnknownDownloadURL _ _ _))
    (fun _ => extractDisk_neverUnknownDownloadURL _ _ _) _

/-- The function `DownloadDisk` never throws `UnknownDownloadURL`. -/
theorem DownloadDisk_neverUnknownDownloadURL (env : DiskEnv) (diskURL signatureURL : String) :
    (DownloadDisk env diskURL signatureURL).neverUnknownDownloadURL := by
  intro w
  unfold DownloadDisk DiskTask.thenTask
  simp only []
  have h := andThen_neverUnknownDownloadURL _
    (fun _ : Nat => (DiskTask.pure
      (FsPath.string (fsAppend (fsAppend (toFsPath env.temporary_directory)
          (env.make_uuid w.uuids)) "DeveloperDiskImage.dmg"),
        FsPath.string (fsAppend (fsAppend (toFsPath env.temporary_directory)
          (env.make_uuid w.uuids)) "DeveloperDiskImage.dmg.signature")) :
      DiskTask (String × String)))
    (andThen_neverUnknownDownloadURL _ _
      (andThen_neverUnknownDownloadURL _ _
        (fsStep_neverUnknownDownloadURL (fun fs => fs.create_directory
            (fsAppend (toFsPath env.temporary_directory) (env.make_uuid w.uuids)))
          fun fs e h => ⟨_, create_directory_error _ _ _ h⟩)
        (fun _ => DownloadFile_neverUnknownDownloadURL env diskURL
          (fsAppend (fsAppend (toFsPath env.temporary_directory) (env.make_uuid w.uuids))
            "DeveloperDiskImage.dmg")))
      (fun _ => DownloadFile_neverUnknownDownloadURL env signatureURL
        (toFsPath (FsPath.string (fsAppend (fsAppend (toFsPath env.temporary_directory)
          (env.make_uuid w.uuids)) "DeveloperDiskImage.dmg.signature")))))
    (fun _ w1 => by simp [DiskTask.pure]) { w with uuids := w.uuids + 1 }
  split
  · simp
  · next e hstep =>
    rw [hstep] at h
    simpa using h

/-- The promotion never throws `UnknownDownloadURL`. -/
theorem promote_neverUnknownDownloadURL (developerDiskPath developerDiskSignaturePath : FsPath)
    (paths : String × String) :
    (promote developerDiskPath developerDiskSignaturePath paths).neverUnknownDownloadURL := by
  intro w
  unfold promote
  simp only []
  split
  · next e w1 hattempt =>
    have hplain : e ≠ .developerDisk .UnknownDownloadURL := by
      intro he
      have := andThen_neverUnknownDownloadURL _ _
        (removeIfExists_neverUnknownDownloadURL developerDiskPath)
        (fun _ => andThen_neverUnknownDownloadURL _ _
          (removeIfExists_neverUnknownDownloadURL developerDiskSignaturePath)
          (fun _ => andThen_neverUnknownDownloadURL _ _
            (renameStep_neverUnknownDownloadURL (toFsPath paths.1) developerDiskPath)
            (fun _ => renameStep_neverUnknownDownloadURL (toFsPath paths.2)
              developerDiskSignaturePath))) w (by rw [hattempt, he])
      exact this
    split
    · next e1 h1 =>
      have := remove_error _ _ _ h1
      subst this
      simp
    · split
      · next e2 h2 =>
        have := remove_error _ _ _ h2
        subst this
        simp
      · simpa using hplain
  · simp


/-! ## The manifest -/

/-- An object field is there to be indexed. -/
theorem index_of_has_object_field (j : Json) (key : String)
    (h : j.has_object_field key = true) : j.index key = .ok (j.field key) := by
  cases j <;> first | rfl | exact absurd h Bool.false_ne_true

/-- A string field: the member with this key is a string. -/
theorem has_string_field_eq_true (j : Json) (key : String) :
    j.has_string_field key = true ↔ ∃ s, j.field key = .str s := by
  cases j with
  | obj fields =>
    simp only [Json.has_string_field, Json.field]
    cases hfind : Json.find? key fields with
    | none => simp
    | some v => cases v <;> simp
  | _ => simp [Json.has_string_field, Json.field]

/-- Reading a string field gives its text. -/
theorem index_as_string (j : Json) (key s : String) (h : j.field key = .str s) :
    jsonResult (j.index key >>= Json.as_string) = .ok s := by
  cases j with
  | obj fields =>
    simp only [Json.field] at h
    simp only [Json.index, h]
    rfl
  | _ => simp [Json.field] at h

/-- A value is not a `json_exception`. -/
theorem jsonResult_ok {α : Type} (a : α) : jsonResult (.ok a : Except Exn α) = .ok a := rfl

/-- The request for the manifest gives the same result in every world and
adds itself to the trace. -/
theorem FetchDeveloperDiskURLs_eq (env : DiskEnv) (w w1 : DiskWorld) :
    FetchDeveloperDiskURLs env w1 =
      ((FetchDeveloperDiskURLs env w).1, { w1 with log := w1.log ++ [DiskEvent.fetchManifest] }) := by
  unfold FetchDeveloperDiskURLs
  simp only []
  split
  · rfl
  · split <;> rfl

/-- A manifest that lacks the download makes the continuation throw
`UnknownDownloadURL`. -/
theorem selectDownload_lacking (env : DiskEnv) (osName versionString : String)
    (json allDisks : Json) (hdisks : json.index "disks" = .ok allDisks)
    (h : lacksDownloadURL allDisks osName versionString) :
    selectDownload env osName versionString json =
      .error (.developerDisk .UnknownDownloadURL) := by
  unfold selectDownload
  simp only [hdisks, jsonResult]
  cases hname : allDisks.has_object_field osName with
  | false => simp
  | true =>
    simp only [index_of_has_object_field _ _ hname, jsonResult]
    cases hversion : (allDisks.field osName).has_object_field versionString with
    | false => simp
    | true =>
      simp only [index_of_has_object_field _ _ hversion, jsonResult]
      rcases h with h | h | ⟨harchive, h⟩
      · rw [hname] at h; cases h
      · rw [hversion] at h; cases h
      · rcases h with h | h <;> simp [harchive, h]

/-- A manifest with an archive URL makes the continuation return the archive
download. -/
theorem selectDownload_archive (env : DiskEnv) (osName versionString : String)
    (json allDisks : Json) (archiveURL : String) (hdisks : json.index "disks" = .ok allDisks)
    (h : ¬ lacksDownloadURL allDisks osName versionString)
    (harchive : ((allDisks.field osName).field versionString).field "archive" = .str archiveURL) :
    selectDownload env osName versionString json = .ok (DownloadDiskArchive env archiveURL) := by
  unfold lacksDownloadURL at h
  have hname : allDisks.has_object_field osName = true := by
    cases hn : allDisks.has_object_field osName
    · exact absurd (Or.inl hn) h
    · rfl
  have hversion : (allDisks.field osName).has_object_field versionString = true := by
    cases hv : (allDisks.field osName).has_object_field versionString
    · exact absurd (Or.inr (Or.inl hv)) h
    · rfl
  have hhas : ((allDisks.field osName).field versionString).has_string_field "archive" = true :=
    (has_string_field_eq_true _ _).2 ⟨_, harchive⟩
  unfold selectDownload
  simp only [hdisks, jsonResult_ok, hname, index_of_has_object_field _ _ hname, hversion,
    index_of_has_object_field _ _ hversion, hhas, index_as_string _ _ _ harchive]
  simp

/-- A manifest with direct URLs and no archive URL makes the continuation
return the direct download. -/
theorem selectDownload_direct (env : DiskEnv) (osName versionString : String)
    (json allDisks : Json) (diskURL signatureURL : String)
    (hdisks : json.index "disks" = .ok allDisks)
    (h : ¬ lacksDownloadURL allDisks osName versionString)
    (harchive : ((allDisks.field osName).field versionString).has_string_field "archive" = false)
    (hdisk : ((allDisks.field osName).field versionString).field "disk" = .str diskURL)
    (hsignature :
      ((allDisks.field osName).field versionString).field "signature" = .str signatureURL) :
    selectDownload env osName versionString json = .ok (DownloadDisk env diskURL signatureURL) := by
  unfold lacksDownloadURL at h
  have hname : allDisks.has_object_field osName = true := by
    cases hn : allDisks.has_object_field osName
    · exact absurd (Or.inl hn) h
    · rfl
  have hversion : (allDisks.field osName).has_object_field versionString = true := by
    cases hv : (allDisks.field osName).has_object_field versionString
    · exact absurd (Or.inr (Or.inl hv)) h
    · rfl
  have hhasDisk : ((allDisks.field osName).field versionString).has_string_field "disk" = true :=
    (has_string_field_eq_true _ _).2 ⟨_, hdisk⟩
  have hhasSignature :
      ((allDisks.field osName).field versionString).has_string_field "signature" = true :=
    (has_string_field_eq_true _ _).2 ⟨_, hsignature⟩
  unfold selectDownload
  simp only [hdisks, jsonResult_ok, hname, index_of_has_object_field _ _ hname, hversion,
    index_of_has_object_field _ _ hversion, harchive, hhasDisk, hhasSignature,
    index_as_string _ _ _ hdisk, index_as_string _ _ _ hsignature]
  simp


/-- The compatibility flag does not depend on the file system. -/
theorem IsDeveloperDiskCompatible_fs (env : DiskEnv) (w : DiskWorld) (fs : FileSystem)
    (device : Device) :
    IsDeveloperDiskCompatible env { w with fs := fs } device =
      IsDeveloperDiskCompatible env w device := rfl

/-- On a cache miss with a fetched manifest, `DownloadDeveloperDisk` is the
continuation chosen by `selectDownload` followed by the promotion, run after
the two cache directories exist and the manifest request is in the trace. -/
theorem DownloadDeveloperDisk_miss (env : DiskEnv) (device : Device) (w : DiskWorld)
    (osName : String) (fs1 fs2 : FileSystem) (json : Json)
    (hname : env.ALTOperatingSystemNameForDeviceType device.type = some osName)
    (hos : w.fs.create_directory (developerDiskOSPath env osName) = .ok fs1)
    (hdir : fs1.create_directory (developerDiskDirectoryPath env osName device.osVersion) =
      .ok fs2)
    (hmiss : (IsDeveloperDiskCompatible env w device &&
      fs2.pathExists (developerDiskPath env osName device.osVersion) &&
      fs2.pathExists (developerDiskSignaturePath env osName device.osVersion)) = false)
    (hfetch : (FetchDeveloperDiskURLs env w).1 = .ok json) :
    DownloadDeveloperDisk env device w =
      match selectDownload env osName
          (env.stringValue { device.osVersion with patchVersion := 0 }) json with
      | .error e => (.error e, { w with fs := fs2, log := w.log ++ [DiskEvent.fetchManifest] })
      | .ok download =>
        DiskTask.andThen download
          (promote (developerDiskPath env osName device.osVersion)
            (developerDiskSignaturePath env osName device.osVersion))
          { w with fs := fs2, log := w.log ++ [DiskEvent.fetchManifest] } := by
  unfold developerDiskPath developerDiskSignaturePath at *
  unfold DownloadDeveloperDisk
  simp only [hname, DiskTask.andThen, DiskTask.fsStep, hos, hdir, IsDeveloperDiskCompatible_fs,
    hmiss]
  rw [FetchDeveloperDiskURLs_eq env w { w with fs := fs2 }, hfetch]
  simp only [Bool.false_eq_true, if_false]
  cases selectDownload env osName
    (env.stringValue { device.osVersion with patchVersion := 0 }) json <;> rfl


/-- C17: on a cache miss (the cache directories can be created, and the flag
is not set or a cached file is missing) with a fetched manifest whose `disks`
value can be read, `DownloadDeveloperDisk` fails with `UnknownDownloadURL`
exactly when the manifest lacks the download for the OS name and the
patch-zeroed version string, and then nothing is downloaded (the trace gains
the manifest request only); otherwise it continues with the archive download
when the version object has a string `archive`, else with the direct download
of `disk` and `signature`, each followed by the promotion. -/
theorem cache_miss_download_selection (env : DiskEnv) (device : Device) (w : DiskWorld)
    (osName : String) (fs1 fs2 : FileSystem) (json allDisks : Json)
    (hname : env.ALTOperatingSystemNameForDeviceType device.type = some osName)
    (hos : w.fs.create_directory (developerDiskOSPath env osName) = .ok fs1)
    (hdir : fs1.create_directory (developerDiskDirectoryPath env osName device.osVersion) =
      .ok fs2)
    (hmiss : (IsDeveloperDiskCompatible env w device &&
      fs2.pathExists (developerDiskPath env osName device.osVersion) &&
      fs2.pathExists (developerDiskSignaturePath env osName device.osVersion)) = false)
    (hfetch : (FetchDeveloperDiskURLs env w).1 = .ok json)
    (hdisks : json.index "disks" = .ok allDisks) :
    ((DownloadDeveloperDisk env device w).1 = .error (.developerDisk .UnknownDownloadURL) ↔
      lacksDownloadURL allDisks osName
        (env.stringValue { device.osVersion with patchVersion := 0 })) ∧
    (lacksDownloadURL allDisks osName
        (env.stringValue { device.osVersion with patchVersion := 0 }) →
      DownloadDeveloperDisk env device w =
        (.error (.developerDisk .UnknownDownloadURL),
          { w with fs := fs2, log := w.log ++ [DiskEvent.fetchManifest] })) ∧
    (∀ archiveURL : String,
      ¬ lacksDownloadURL allDisks osName
        (env.stringValue { device.osVersion with patchVersion := 0 }) →
      ((allDisks.field osName).field
        (env.stringValue { device.osVersion with patchVersion := 0 })).field "archive" =
        .str archiveURL →
      DownloadDeveloperDisk env device w =
        DiskTask.andThen (DownloadDiskArchive env archiveURL)
          (promote (developerDiskPath env osName device.osVersion)
            (developerDiskSignaturePath env osName device.osVersion))
          { w with fs := fs2, log := w.log ++ [DiskEvent.fetchManifest] }) ∧
    (∀ diskURL signatureURL : String,
      ¬ lacksDownloadURL allDisks osName
        (env.stringValue { device.osVersion with patchVersion := 0 }) →
      ((allDisks.field osName).field
        (env.stringValue { device.osVersion with patchVersion := 0 })).has_string_field
          "archive" = false →
      ((allDisks.field osName).field
        (env.stringValue { device.osVersion with patchVersion := 0 })).field "disk" =
        .str diskURL →
      ((allDisks.field osName).field
        (env.stringValue { device.osVersion with patchVersion := 0 })).field "signature" =
        .str signatureURL →
      DownloadDeveloperDisk env device w =
        DiskTask.andThen (DownloadDisk env diskURL signatureURL)
          (promote (developerDiskPath env osName device.osVersion)
            (developerDiskSignaturePath env osName device.osVersion))
          { w with fs := fs2, log := w.log ++ [DiskEvent.fetchManifest] }) := by
  have hrun := DownloadDeveloperDisk_miss env device w osName fs1 fs2 json hname hos hdir hmiss
    hfetch
  have hlacking : lacksDownloadURL allDisks osName
        (env.stringValue { device.osVersion with patchVersion := 0 }) →
      DownloadDeveloperDisk env device w =
        (.error (.developerDisk .UnknownDownloadURL),
          { w with fs := fs2, log := w.log ++ [DiskEvent.fetchManifest] }) := by
    intro h
    rw [hrun, selectDownload_lacking env osName _ json allDisks hdisks h]
  have harchive : ∀ archiveURL : String,
      ¬ lacksDownloadURL allDisks osName
        (env.stringValue { device.osVersion with patchVersion := 0 }) →
      ((allDisks.field osName).field
        (env.stringValue { device.osVersion with patchVersion := 0 })).field "archive" =
        .str archiveURL →
      DownloadDeveloperDisk env device w =
        DiskTask.andThen (DownloadDiskArchive env archiveURL)
          (promote (developerDiskPath env osName device.osVersion)
            (developerDiskSignaturePath env osName device.osVersion))
          { w with fs := fs2, log := w.log ++ [DiskEvent.fetchManifest] } := by
    intro archiveURL h ha
    rw [hrun, selectDownload_archive env osName _ json allDisks archiveURL hdisks h ha]
  have hdirect : ∀ diskURL signatureURL : String,
      ¬ lacksDownloadURL allDisks osName
        (env.stringValue { device.osVersion with patchVersion := 0 }) →
      ((allDisks.field osName).field
        (env.stringValue { device.osVersion with patchVersion := 0 })).has_string_field
          "archive" = false →
      ((allDisks.field osName).field
        (env.stringValue { device.osVersion with patchVersion := 0 })).field "disk" =
        .str diskURL →
      ((allDisks.field osName).field
        (env.stringValue { device.osVersion with patchVersion := 0 })).field "signature" =
        .str signatureURL →
      DownloadDeveloperDisk env device w =
        DiskTask.andThen (DownloadDisk env diskURL signatureURL)
          (promote (developerDiskPath env osName device.osVersion)
            (developerDiskSignaturePath env osName device.osVersion))
          { w with fs := fs2, log := w.log ++ [DiskEvent.fetchManifest] } := by
    intro diskURL signatureURL h ha hd hs
    rw [hrun, selectDownload_direct env osName _ json allDisks diskURL signatureURL hdisks h ha
      hd hs]
  refine ⟨⟨?_, fun h => by rw [hlacking h]⟩, hlacking, harchive, hdirect⟩
  intro hfails
  by_contra hnot
  cases ha : ((allDisks.field osName).field
      (env.stringValue { device.osVersion with patchVersion := 0 })).has_string_field "archive" with
  | true =>
    obtain ⟨archiveURL, hurl⟩ := (has_string_field_eq_true _ _).1 ha
    rw [harchive archiveURL hnot hurl] at hfails
    exact andThen_neverUnknownDownloadURL _ _
      (DownloadDiskArchive_neverUnknownDownloadURL env archiveURL)
      (fun paths => promote_neverUnknownDownloadURL _ _ paths) _ hfails
  | false =>
    have hd : ((allDisks.field osName).field
        (env.stringValue { device.osVersion with patchVersion := 0 })).has_string_field
          "disk" = true := by
      cases hd : ((allDisks.field osName).field
        (env.stringValue { device.osVersion with patchVersion := 0 })).has_string_field "disk"
      · exact absurd (Or.inr (Or.inr ⟨ha, Or.inl hd⟩)) hnot
      · rfl
    have hs : ((allDisks.field osName).field
        (env.stringValue { device.osVersion with patchVersion := 0 })).has_string_field
          "signature" = true := by
      cases hs : ((allDisks.field osName).field
        (env.stringValue { device.osVersion with patchVersion := 0 })).has_string_field
          "signature"
      · exact absurd (Or.inr (Or.inr ⟨ha, Or.inr hs⟩)) hnot
      · rfl
    obtain ⟨diskURL, hdiskURL⟩ := (has_string_field_eq_true _ _).1 hd
    obtain ⟨signatureURL, hsignatureURL⟩ := (has_string_field_eq_true _ _).1 hs
    rw [hdirect diskURL signatureURL hnot ha hdiskURL hsignatureURL] at hfails
    exact andThen_neverUnknownDownloadURL _ _
      (DownloadDisk_neverUnknownDownloadURL env diskURL signatureURL)
      (fun paths => promote_neverUnknownDownloadURL _ _ paths) _ hfails

set_option maxRecDepth 100000 in
/-- C17 on the sample manifest: the flag of the device is not set, the
manifest lists `disk` and `signature` for iOS 15.4 and no archive, and the
direct download is what runs. -/
theorem cache_miss_download_selection_example :
    DownloadDeveloperDisk Sample.diskEnv Sample.device (Sample.diskWorld [] []) =
      DiskTask.andThen
        (DownloadDisk Sample.diskEnv "https://cdn/15.4/disk.dmg"
          "https://cdn/15.4/disk.dmg.signature")
        (promote (developerDiskPath Sample.diskEnv "iOS" Sample.device.osVersion)
          (developerDiskSignaturePath Sample.diskEnv "iOS" Sample.device.osVersion))
        { Sample.diskWorld [] [] with log := [DiskEvent.fetchManifest] } :=
  (cache_miss_download_selection Sample.diskEnv Sample.device (Sample.diskWorld [] []) "iOS"
    Sample.cacheFs Sample.cacheFs Sample.manifestJson
    (.obj [("iOS", .obj [
      ("15.4", .obj [("disk", .str "https://cdn/15.4/disk.dmg"),
                     ("signature", .str "https://cdn/15.4/disk.dmg.signature")]),
      ("14.0", .obj [("archive", .str "https://cdn/14.0/archive.zip")])])])
    rfl (by decide!) (by decide!) (by decide!) rfl rfl).2.2.2
    "https://cdn/15.4/disk.dmg" "https://cdn/15.4/disk.dmg.signature"
    (by unfold lacksDownloadURL; decide!) (by decide!) rfl rfl


/-! ## The archiver -/

set_option maxRecDepth 100000 in
/-- C11, evaluated: the bundle `Foo.app` holds an executable, the empty file
`PkgInfo`, a directory with a file, and an empty directory.  `ZipAppBundle`
and then `UnzipArchive` both succeed; the archive has four entries and none
for `PkgInfo`, so the extraction restores the other files with their bytes
and permissions and the directories, but not the zero-length file. -/
theorem zero_length_file_not_restored :
    Sample.bundleFs.lookup ["C:", "work", "Payload", "Foo.app", "PkgInfo"] =
      some (.file [] 0o644) ∧
    (ZipAppBundle Sample.minizip "C:\\work\\Payload\\Foo.app" Sample.bundleFs).1 =
      .ok "C:\\work\\Payload\\Foo.ipa" ∧
    ((ZipAppBundle Sample.minizip "C:\\work\\Payload\\Foo.app" Sample.bundleFs).2.lookup
        ["C:", "work", "Payload", "Foo.ipa"]).bind
      (fun node =>
        match node with
        | .file data _ => (Sample.minizip.unzOpen data).map fun archive =>
            archive.entries.map fun entry => entry.name
        | .directory => none) =
      some ["Payload/Foo.app/Foo", "Payload/Foo.app/en.lproj/",
        "Payload/Foo.app/en.lproj/a.strings", "Payload/Foo.app/Frameworks/"] ∧
    (UnzipArchive Sample.minizip "C:\\work\\Payload\\Foo.ipa" "C:\\out"
      (ZipAppBundle Sample.minizip "C:\\work\\Payload\\Foo.app" Sample.bundleFs).2).1 = .ok () ∧
    (UnzipArchive Sample.minizip "C:\\work\\Payload\\Foo.ipa" "C:\\out"
      (ZipAppBundle Sample.minizip "C:\\work\\Payload\\Foo.app" Sample.bundleFs).2).2.lookup
        ["C:", "out", "Payload", "Foo.app", "Foo"] = some (.file [1, 2, 3] 0o755) ∧
    (UnzipArchive Sample.minizip "C:\\work\\Payload\\Foo.ipa" "C:\\out"
      (ZipAppBundle Sample.minizip "C:\\work\\Payload\\Foo.app" Sample.bundleFs).2).2.lookup
        ["C:", "out", "Payload", "Foo.app", "en.lproj", "a.strings"] = some (.file [7] 0o644) ∧
    (UnzipArchive Sample.minizip "C:\\work\\Payload\\Foo.ipa" "C:\\out"
      (ZipAppBundle Sample.minizip "C:\\work\\Payload\\Foo.app" Sample.bundleFs).2).2.lookup
        ["C:", "out", "Payload", "Foo.app", "Frameworks"] = some .directory ∧
    (UnzipArchive Sample.minizip "C:\\work\\Payload\\Foo.ipa" "C:\\out"
      (ZipAppBundle Sample.minizip "C:\\work\\Payload\\Foo.app" Sample.bundleFs).2).2.lookup
        ["C:", "out", "Payload", "Foo.app", "PkgInfo"] = none := by
  refine ⟨?_, ?_, ?_, ?_, ?_, ?_, ?_, ?_⟩ <;> decide!


/-! ## Lookups after the operations of the file system -/

/-- What is within an initial part of a path is within the path. -/
theorem within_of_within_take (q p : FsPath) (k : Nat)
    (h : FsPath.within q (p.take k) = true) : FsPath.within q p = true := by
  simp only [FsPath.within, beq_iff_eq] at h ⊢
  have hlen : q.length ≤ k := by
    have := congrArg List.length h
    simp only [List.length_take] at this
    omega
  rw [List.take_take, Nat.min_eq_left hlen] at h
  exact h


set_option maxRecDepth 100000 in
/-- An entry `../escaped.txt` is written outside the output directory: the
text `C:\\out\\..` names `C:`, which exists, so nothing is created for the
parent, `fopen` creates `C:\\escaped.txt`, and the output directory stays
empty. -/
theorem dot_dot_entry_leaves_output_directory :
    (UnzipArchive Sample.minizip "C:\\in\\up.zip" "C:\\out" Sample.escapingFs).1 = .ok () ∧
    (UnzipArchive Sample.minizip "C:\\in\\up.zip" "C:\\out" Sample.escapingFs).2.lookup
        ["C:", "escaped.txt"] = some (.file [1, 2] 0o644) ∧
    FileSystem.recursiveEntries 10
        (UnzipArchive Sample.minizip "C:\\in\\up.zip" "C:\\out" Sample.escapingFs).2
        ["C:", "out"] = [] ∧
    (∀ entry ∈ Sample.escapingEntry,
      admissibleEntry (withTrailingSeparator "C:\\out") Sample.escapingFs entry = false) := by
  refine ⟨?_, ?_, ?_, ?_⟩ <;> decide!

set_option maxRecDepth 100000 in
/-- A read-only file under the name of an entry is not overwritten: `fopen`
returns null, `UnzipArchive` throws `ArchiveError(UnknownWrite)`, and the
file is as it was. -/
theorem read_only_file_not_overwritten :
    (UnzipArchive Sample.minizip "C:\\in\\a.zip" "C:\\out" Sample.readOnlyFs).1 =
      .error (.archive .UnknownWrite) ∧
    (UnzipArchive Sample.minizip "C:\\in\\a.zip" "C:\\out" Sample.readOnlyFs).2.lookup
        ["C:", "out", "a.txt"] = some (.file [9] 0o444) ∧
    (∀ entry ∈ Sample.plainEntry,
      admissibleEntry (withTrailingSeparator "C:\\out") Sample.readOnlyFs entry = false) := by
  refine ⟨?_, ?_, ?_⟩ <;> decide!

set_option maxRecDepth 100000 in
/-- A name of 512 bytes fills `cFilename` without a NUL, and reading it as a
text is undefined: nothing is extracted. -/
theorem long_name_overruns_buffer :
    UnzipArchive Sample.minizip "C:\\in\\long.zip" "C:\\out" Sample.longNameFs =
      (.error (.undefined "cFilename"), Sample.longNameFs) ∧
    (∀ entry ∈ Sample.longNameEntry, readableName entry.name = false) := by
  refine ⟨?_, ?_⟩ <;> decide!


/-- The scan of `replace_all` for a pattern of one character replaces each
occurrence of the character. -/
theorem replaceAllChars_single (c : Char) (replacement : List Char) (fuel : Nat) :
    ∀ text : List Char, text.length ≤ fuel →
      replaceAllChars [c] replacement fuel text =
        text.flatMap fun x => if x = c then replacement else [x] := by
  induction fuel with
  | zero =>
    intro text h
    have : text = [] := List.length_eq_zero.1 (by omega)
    subst this
    rfl
  | succ fuel ih =>
    intro text h
    cases text with
    | nil => rfl
    | cons x rest =>
      have hrest : rest.length ≤ fuel := by simp at h; omega
      by_cases hx : x = c
      · subst hx
        simp [replaceAllChars, List.isPrefixOf, ih rest hrest]
      · have hne : ¬ c = x := fun h => hx h.symm
        simp [replaceAllChars, List.isPrefixOf, ih rest hrest, hx, hne]

/-- The translated name of an entry, character by character: a slash becomes
the separator and a colon becomes `__colon__`. -/
theorem translateName_toList (filename : String) :
    (translateName filename).toList =
      (filename.toList.map fun c => if c = '/' then ALTDirectoryDeliminator else c).flatMap
        fun c => if c = ':' then "__colon__".toList else [c] := by
  unfold translateName replace_all replaceChar
  exact replaceAllChars_single ':' _ _ _ (le_refl _)


/-! ## Permission bits -/

/-- C21: for every permission value `p` with `p ≤ 0o777`, the `external_fa`
that `WriteFileToZipFile` computes is `(0o100000 + p) << 16` truncated to 32
bits, and the permissions `UnzipArchive` restores from it,
`(external_fa >> 16) & 0x1FF`, are `p`. -/
theorem permission_round_trip (p : Nat) (hp : p ≤ 0o777) :
    externalAttributes p = ((0o100000 + p) <<< 16) % 2 ^ 32 ∧
    restoredPermissions (externalAttributes p) = p := by
  have hall : ∀ q < 512,
      externalAttributes q = ((0o100000 + q) <<< 16) % 2 ^ 32 ∧
      restoredPermissions (externalAttributes q) = q := by
    decide!
  exact hall p (by omega)

/-- C21 at the permissions `rwxr-xr-x`: the attribute is `0x81ED0000`. -/
theorem permission_round_trip_example :
    0o755 ≤ 0o777 ∧ externalAttributes 0o755 = 0x81ED0000 ∧
    restoredPermissions 0x81ED0000 = 0o755 :=
  ⟨by decide, (permission_round_trip 0o755 (by decide)).1.trans (by decide),
    by decide⟩


/-! ## The error response for an opaque failure -/

/-- C23: for an exception that is neither a `ServerError` nor an `Error`, the
error response carries the code `Unknown` and a nested `userInfo`.  When the
message is exactly `vector<T> too long`, `userInfo` holds the failure reason
"Windows Defender Blocked Installation" and the recovery suggestion about
real-time protection, and the raw message occurs in no key and in no value of
`userInfo`; for every other message, `NSLocalizedDescription` (and
`NSLocalizedFailureReason`) is the raw message. -/
theorem ErrorResponse_opaque_failure (env : Env) (what : String) :
    ∃ fields errorObject userInfo,
      ErrorResponse env (.other what) = .obj fields ∧
      Json.find? "errorCode" fields = some (.int env.Unknown) ∧
      Json.find? "serverError" fields = some (.obj errorObject) ∧
      Json.find? "userInfo" errorObject = some (.obj userInfo) ∧
      (what = "vector<T> too long" →
        Json.find? "NSLocalizedFailureReason" userInfo =
          some (.str "Windows Defender Blocked Installation") ∧
        Json.find? "NSLocalizedRecoverySuggestion" userInfo =
          some (.str "Disable Windows real-time protection on your computer then try again.") ∧
        ∀ key value, (key, value) ∈ userInfo →
          occursIn what key = false ∧ ∃ text, value = .str text ∧ occursIn what text = false) ∧
      (what ≠ "vector<T> too long" →
        Json.find? "NSLocalizedDescription" userInfo = some (.str what) ∧
        Json.find? "NSLocalizedFailureReason" userInfo = some (.str what)) := by
  by_cases h : what = "vector<T> too long"
  · subst h
    refine ⟨_,
      [("errorCode", .int env.Unknown),
        ("userInfo", .obj
          [("NSLocalizedFailureReason", .str "Windows Defender Blocked Installation"),
            ("NSLocalizedRecoverySuggestion",
              .str "Disable Windows real-time protection on your computer then try again.")])],
      [("NSLocalizedFailureReason", .str "Windows Defender Blocked Installation"),
        ("NSLocalizedRecoverySuggestion",
          .str "Disable Windows real-time protection on your computer then try again.")],
      ErrorResponse_other env _, by simp [Json.find?], by simp [Json.find?],
      by simp [Json.find?], ?_, fun hne => absurd rfl hne⟩
    intro _
    refine ⟨by simp [Json.find?], by simp [Json.find?], ?_⟩
    intro key value hmem
    simp only [List.mem_cons, Prod.mk.injEq, List.not_mem_nil, or_false] at hmem
    rcases hmem with ⟨rfl, rfl⟩ | ⟨rfl, rfl⟩
    · exact ⟨by decide, _, rfl, by decide⟩
    · exact ⟨by decide, _, rfl, by decide⟩
  · refine ⟨_,
      [("errorCode", .int env.Unknown),
        ("userInfo", .obj
          [("NSLocalizedDescription", .str what), ("NSLocalizedFailureReason", .str what)])],
      [("NSLocalizedDescription", .str what), ("NSLocalizedFailureReason", .str what)],
      ErrorResponse_other env _, by simp [Json.find?], by simp [Json.find?, h],
      by simp [Json.find?], fun heq => absurd heq h, fun _ => ?_⟩
    simp [Json.find?]


/-! ## The disk image and the signature of an archive -/

/-- One step of the loop of `DownloadDiskArchive`. -/
theorem locateDisk_cons (entry : FsPath × FsNode) (rest : List (FsPath × FsNode))
    (diskPath signaturePath : FsPath) :
    locateDisk (entry :: rest) (diskPath, signaturePath) =
      if entryExtension entry = ".dmg" then locateDisk rest (entry.1, signaturePath)
      else if entryExtension entry = ".signature" then locateDisk rest (diskPath, entry.1)
      else locateDisk rest (diskPath, signaturePath) := rfl

/-- The loop over two lists in a row. -/
theorem locateDisk_append (front back : List (FsPath × FsNode)) :
    ∀ found : FsPath × FsPath,
      locateDisk (front ++ back) found = locateDisk back (locateDisk front found) := by
  induction front with
  | nil => intro found; rfl
  | cons entry rest ih =>
    intro found
    obtain ⟨diskPath, signaturePath⟩ := found
    rw [List.cons_append, locateDisk_cons, locateDisk_cons]
    split
    · exact ih _
    · split <;> exact ih _

/-- Entries without the extension `.dmg` leave `diskPath` as it is. -/
theorem locateDisk_disk_absent (entries : List (FsPath × FsNode)) :
    ∀ found : FsPath × FsPath, (∀ entry ∈ entries, entryExtension entry ≠ ".dmg") →
      (locateDisk entries found).1 = found.1 := by
  induction entries with
  | nil => intro found _; rfl
  | cons entry rest ih =>
    intro found h
    obtain ⟨diskPath, signaturePath⟩ := found
    have hentry := h entry (List.mem_cons_self _ _)
    have hrest : ∀ other ∈ rest, entryExtension other ≠ ".dmg" :=
      fun other hmem => h other (List.mem_cons_of_mem _ hmem)
    rw [locateDisk_cons, if_neg hentry]
    split
    · exact ih _ hrest
    · exact ih _ hrest

/-- Entries without the extension `.signature` leave `signaturePath` as it
is. -/
theorem locateDisk_signature_absent (entries : List (FsPath × FsNode)) :
    ∀ found : FsPath × FsPath, (∀ entry ∈ entries, entryExtension entry ≠ ".signature") →
      (locateDisk entries found).2 = found.2 := by
  induction entries with
  | nil => intro found _; rfl
  | cons entry rest ih =>
    intro found h
    obtain ⟨diskPath, signaturePath⟩ := found
    have hentry := h entry (List.mem_cons_self _ _)
    have hrest : ∀ other ∈ rest, entryExtension other ≠ ".signature" :=
      fun other hmem => h other (List.mem_cons_of_mem _ hmem)
    rw [locateDisk_cons, if_neg hentry]
    split
    · exact ih _ hrest
    · exact ih _ hrest

/-- After the loop `diskPath` is the last entry with the extension `.dmg`. -/
theorem locateDisk_disk_last (before after : List (FsPath × FsNode)) (disk : FsPath × FsNode)
    (found : FsPath × FsPath) (hdisk : entryExtension disk = ".dmg")
    (hafter : ∀ entry ∈ after, entryExtension entry ≠ ".dmg") :
    (locateDisk (before ++ disk :: after) found).1 = disk.1 := by
  rw [locateDisk_append]
  obtain ⟨diskPath, signaturePath⟩ := locateDisk before found
  rw [locateDisk_cons, if_pos hdisk, locateDisk_disk_absent after _ hafter]

/-- After the loop `signaturePath` is the last entry with the extension
`.signature`. -/
theorem locateDisk_signature_last (before after : List (FsPath × FsNode))
    (signature : FsPath × FsNode) (found : FsPath × FsPath)
    (hsignature : entryExtension signature = ".signature")
    (hafter : ∀ entry ∈ after, entryExtension entry ≠ ".signature") :
    (locateDisk (before ++ signature :: after) found).2 = signature.1 := by
  rw [locateDisk_append]
  obtain ⟨diskPath, signaturePath⟩ := locateDisk before found
  have hnot : entryExtension signature ≠ ".dmg" := by
    rw [hsignature]; decide
  rw [locateDisk_cons, if_neg hnot, if_pos hsignature,
    locateDisk_signature_absent after _ hafter]

/-- A list has no entry with a given extension, or it has a last one. -/
theorem last_with_extension (ext : String) (entries : List (FsPath × FsNode)) :
    (∀ entry ∈ entries, entryExtension entry ≠ ext) ∨
    ∃ before found after, entries = before ++ found :: after ∧ entryExtension found = ext ∧
      ∀ entry ∈ after, entryExtension entry ≠ ext := by
  induction entries with
  | nil => exact Or.inl fun entry h => absurd h (List.not_mem_nil _)
  | cons entry rest ih =>
    rcases ih with hnone | ⟨before, found, after, hsplit, hfound, hafter⟩
    · by_cases hentry : entryExtension entry = ext
      · exact Or.inr ⟨[], entry, rest, rfl, hentry, hnone⟩
      · left
        intro other hmem
        rcases List.mem_cons.1 hmem with rfl | hmem
        · exact hentry
        · exact hnone other hmem
    · exact Or.inr ⟨entry :: before, found, after, by rw [hsplit]; rfl, hfound, hafter⟩


/-- The entries of a recursive walk have paths that are not empty. -/
theorem recursiveEntries_ne_nil (fuel : Nat) :
    ∀ (fs : FileSystem) (dir : FsPath),
      ∀ entry ∈ FileSystem.recursiveEntries fuel fs dir, entry.1 ≠ [] := by
  induction fuel with
  | zero =>
    intro fs dir entry h
    exact absurd h (List.not_mem_nil _)
  | succ fuel ih =>
    intro fs dir entry h
    unfold FileSystem.recursiveEntries at h
    rw [List.mem_flatMap] at h
    obtain ⟨child, hchild, hentry⟩ := h
    have hne : child.1 ≠ [] := by
      unfold FileSystem.directoryEntries at hchild
      rw [List.mem_filter] at hchild
      have hlen := hchild.2
      simp only [Bool.and_eq_true, decide_eq_true_eq] at hlen
      intro hnil
      rw [hnil] at hlen
      simp at hlen
    cases hkind : child.2 with
    | directory =>
      rw [hkind] at hentry
      rcases List.mem_cons.1 hentry with rfl | hbelow
      · exact hne
      · exact ih fs child.1 entry hbelow
    | file data permissions =>
      rw [hkind] at hentry
      rw [List.mem_singleton.1 hentry]
      exact hne

/-- A rename is carried out and logged as such, or throws a
`filesystem_error` and is logged as not carried out. -/
theorem renameStep_spec (source target : FsPath) (w : DiskWorld) :
    ((renameStep source target w).1 = .ok () ∧
      (renameStep source target w).2.log = w.log ++ [DiskEvent.rename source target true]) ∨
    ((∃ what, (renameStep source target w).1 = .error (.filesystem what)) ∧
      (renameStep source target w).2.log = w.log ++ [DiskEvent.rename source target false]) := by
  unfold renameStep
  simp only []
  split
  · exact Or.inr ⟨⟨_, rfl⟩, rfl⟩
  · split
    · next e hstep =>
      have := rename_error _ _ _ _ hstep
      subst this
      exact Or.inr ⟨⟨_, rfl⟩, rfl⟩
    · exact Or.inl ⟨rfl, rfl⟩

/-- The two renames of a `try` block: both are carried out, or the first
throws, or the first is carried out and the second throws. -/
theorem renameBoth_spec (source1 target1 source2 target2 : FsPath) (w : DiskWorld) :
    ((DiskTask.andThen (renameStep source1 target1)
        (fun _ => renameStep source2 target2) w).1 = .ok () ∧
      (DiskTask.andThen (renameStep source1 target1)
        (fun _ => renameStep source2 target2) w).2.log =
        w.log ++ [DiskEvent.rename source1 target1 true,
          DiskEvent.rename source2 target2 true]) ∨
    ((∃ what, (DiskTask.andThen (renameStep source1 target1)
        (fun _ => renameStep source2 target2) w).1 = .error (.filesystem what)) ∧
      ((DiskTask.andThen (renameStep source1 target1)
          (fun _ => renameStep source2 target2) w).2.log =
          w.log ++ [DiskEvent.rename source1 target1 false] ∨
        (DiskTask.andThen (renameStep source1 target1)
          (fun _ => renameStep source2 target2) w).2.log =
          w.log ++ [DiskEvent.rename source1 target1 true,
            DiskEvent.rename source2 target2 false])) := by
  unfold DiskTask.andThen
  rcases renameStep_spec source1 target1 w with ⟨hok, hlog⟩ | ⟨⟨what, herr⟩, hlog⟩
  · cases hfirst : renameStep source1 target1 w with
    | mk r w1 =>
      rw [hfirst] at hok hlog
      simp only at hok hlog
      subst hok
      simp only []
      rcases renameStep_spec source2 target2 w1 with ⟨hok2, hlog2⟩ | ⟨hwhat, hlog2⟩
      · left
        refine ⟨hok2, ?_⟩
        rw [hlog2, hlog, List.append_assoc]
        rfl
      · right
        refine ⟨hwhat, Or.inr ?_⟩
        rw [hlog2, hlog, List.append_assoc]
        rfl
  · cases hfirst : renameStep source1 target1 w with
    | mk r w1 =>
      rw [hfirst] at herr hlog
      simp only at herr hlog
      subst herr
      exact Or.inr ⟨⟨what, rfl⟩, Or.inl hlog⟩


/-- The extraction continuation throws `DownloadedDiskNotFound` when the loop
leaves `diskPath` or `signaturePath` empty. -/
theorem extractDisk_absent (env : DiskEnv) (archivePath temporaryPath : FsPath) (w : DiskWorld)
    (fs1 : FileSystem)
    (hunzip : UnzipArchive env.zip (FsPath.string archivePath) (FsPath.string temporaryPath)
      w.fs = (.ok (), fs1))
    (hdir : fs1.is_directory temporaryPath = true)
    (hfound :
      (locateDisk (FileSystem.recursiveEntries (fs1.length + 1) fs1 temporaryPath) ([], [])).1 =
        [] ∨
      (locateDisk (FileSystem.recursiveEntries (fs1.length + 1) fs1 temporaryPath) ([], [])).2 =
        []) :
    extractDisk env archivePath temporaryPath w =
      (.error (.developerDisk .DownloadedDiskNotFound), { w with fs := fs1 }) := by
  unfold extractDisk
  rw [hunzip]
  simp only [hdir, Bool.not_true, Bool.false_eq_true, if_false]
  rw [if_pos hfound]

/-- The extraction continuation with both paths found: it does not throw
`DownloadedDiskNotFound`, and what it adds to the trace is the rename of
`diskPath`, followed, when that was carried out, by the rename of
`signaturePath`. -/
theorem extractDisk_present (env : DiskEnv) (archivePath temporaryPath : FsPath) (w : DiskWorld)
    (fs1 : FileSystem)
    (hunzip : UnzipArchive env.zip (FsPath.string archivePath) (FsPath.string temporaryPath)
      w.fs = (.ok (), fs1))
    (hdir : fs1.is_directory temporaryPath = true)
    (hdisk :
      (locateDisk (FileSystem.recursiveEntries (fs1.length + 1) fs1 temporaryPath) ([], [])).1 ≠
        [])
    (hsignature :
      (locateDisk (FileSystem.recursiveEntries (fs1.length + 1) fs1 temporaryPath) ([], [])).2 ≠
        []) :
    (extractDisk env archivePath temporaryPath w).1 ≠
      .error (.developerDisk .DownloadedDiskNotFound) ∧
    ((extractDisk env archivePath temporaryPath w).2.log =
        w.log ++ [DiskEvent.rename
          (locateDisk (FileSystem.recursiveEntries (fs1.length + 1) fs1 temporaryPath)
            ([], [])).1 (temporaryPathOf env w.uuids) false] ∨
      ∃ carriedOut, (extractDisk env archivePath temporaryPath w).2.log =
        w.log ++ [DiskEvent.rename
          (locateDisk (FileSystem.recursiveEntries (fs1.length + 1) fs1 temporaryPath)
            ([], [])).1 (temporaryPathOf env w.uuids) true,
          DiskEvent.rename
          (locateDisk (FileSystem.recursiveEntries (fs1.length + 1) fs1 temporaryPath)
            ([], [])).2 (temporaryPathOf env (w.uuids + 1)) carriedOut]) := by
  have hspec := renameBoth_spec
    (locateDisk (FileSystem.recursiveEntries (fs1.length + 1) fs1 temporaryPath) ([], [])).1
    (temporaryPathOf env w.uuids)
    (locateDisk (FileSystem.recursiveEntries (fs1.length + 1) fs1 temporaryPath) ([], [])).2
    (temporaryPathOf env (w.uuids + 1)) { w with fs := fs1, uuids := w.uuids + 2 }
  unfold extractDisk
  rw [hunzip]
  simp only [hdir, Bool.not_true, Bool.false_eq_true, if_false]
  rw [if_neg (not_or.2 ⟨hdisk, hsignature⟩)]
  unfold temporaryPathOf at hspec ⊢
  cases hrun : DiskTask.andThen
      (renameStep
        (locateDisk (FileSystem.recursiveEntries (fs1.length + 1) fs1 temporaryPath) ([], [])).1
        (fsAppend (toFsPath env.temporary_directory) (env.make_uuid w.uuids)))
      (fun _ => renameStep
        (locateDisk (FileSystem.recursiveEntries (fs1.length + 1) fs1 temporaryPath) ([], [])).2
        (fsAppend (toFsPath env.temporary_directory) (env.make_uuid (w.uuids + 1))))
      { w with fs := fs1, uuids := w.uuids + 2 } with
  | mk r w2 =>
    rw [hrun] at hspec
    simp only at hspec
    rcases hspec with ⟨hok, hlog⟩ | ⟨⟨what, herr⟩, hlog⟩
    · subst hok
      simp only []
      exact ⟨by simp, Or.inr ⟨true, hlog⟩⟩
    · subst herr
      simp only []
      have hlogs : w2.log =
            w.log ++ [DiskEvent.rename
              (locateDisk (FileSystem.recursiveEntries (fs1.length + 1) fs1 temporaryPath)
                ([], [])).1
              (fsAppend (toFsPath env.temporary_directory) (env.make_uuid w.uuids)) false] ∨
          ∃ carriedOut, w2.log =
            w.log ++ [DiskEvent.rename
              (locateDisk (FileSystem.recursiveEntries (fs1.length + 1) fs1 temporaryPath)
                ([], [])).1
              (fsAppend (toFsPath env.temporary_directory) (env.make_uuid w.uuids)) true,
              DiskEvent.rename
              (locateDisk (FileSystem.recursiveEntries (fs1.length + 1) fs1 temporaryPath)
                ([], [])).2
              (fsAppend (toFsPath env.temporary_directory) (env.make_uuid (w.uuids + 1)))
              carriedOut] := by
        rcases hlog with h | h
        · exact Or.inl h
        · exact Or.inr ⟨false, h⟩
      split
      · next e1 h1 =>
        have := remove_error _ _ _ h1
        subst this
        exact ⟨by simp, hlogs⟩
      · split
        · next e2 h2 =>
          have := remove_error _ _ _ h2
          subst this
          exact ⟨by simp, hlogs⟩
        · exact ⟨by simp, hlogs⟩


/-- A value continuation after an antecedent that completed with a value. -/
theorem andThen_ok {α β : Type} (t : DiskTask α) (f : α → DiskTask β) (w w1 : DiskWorld) (a : α)
    (h : t w = (.ok a, w1)) : DiskTask.andThen t f w = f a w1 := by
  unfold DiskTask.andThen
  rw [h]

/-- Once the archive is downloaded, `DownloadDiskArchive` ends as its
extraction continuation does, and its last continuation adds nothing to the
trace. -/
theorem DownloadDiskArchive_after_download (env : DiskEnv) (archiveURL : String)
    (w w1 : DiskWorld) (size : Nat)
    (hdownload : DiskTask.andThen
        (DiskTask.fsStep fun fs => fs.create_directory (temporaryPathOf env w.uuids))
        (fun _ => DownloadFile env archiveURL
          (fsAppend (temporaryPathOf env w.uuids) "archive.zip"))
        { w with uuids := w.uuids + 1 } = (.ok size, w1)) :
    (DownloadDiskArchive env archiveURL w).1 =
      (extractDisk env (fsAppend (temporaryPathOf env w.uuids) "archive.zip")
        (temporaryPathOf env w.uuids) w1).1 ∧
    (DownloadDiskArchive env archiveURL w).2.log =
      (extractDisk env (fsAppend (temporaryPathOf env w.uuids) "archive.zip")
        (temporaryPathOf env w.uuids) w1).2.log := by
  unfold temporaryPathOf at hdownload ⊢
  unfold DownloadDiskArchive DiskTask.thenTask
  simp only []
  rw [andThen_ok _ _ _ _ _ hdownload]
  cases extractDisk env
    (fsAppend (fsAppend (toFsPath env.temporary_directory) (env.make_uuid w.uuids)) "archive.zip")
    (fsAppend (toFsPath env.temporary_directory) (env.make_uuid w.uuids)) w1
  exact ⟨rfl, rfl⟩


set_option maxRecDepth 100000 in
/-- C22, a counterexample: the archive holds `first.dmg`, `first.signature`,
`second.DMG` and `second.signature`, and the walk of the extraction directory
reports them in this order after `archive.zip`.  `DownloadDiskArchive`
succeeds, and the two files it moved are `second.DMG` (byte 3) and
`second.signature` (byte 4), not the first occurrences. -/
theorem archive_selects_last_disk :
    (DownloadDiskArchive (Sample.archiveEnv Sample.diskArchiveEntries)
        "https://cdn/14.0/archive.zip" (Sample.diskWorld [] [])).1 =
      .ok ("C:\\Temp\\uuid1", "C:\\Temp\\uuid2") ∧
    (DownloadDiskArchive (Sample.archiveEnv Sample.diskArchiveEntries)
        "https://cdn/14.0/archive.zip" (Sample.diskWorld [] [])).2.log =
      [ .download "https://cdn/14.0/archive.zip" ["C:", "Temp", "uuid0", "archive.zip"],
        .rename ["C:", "Temp", "uuid0", "second.DMG"] ["C:", "Temp", "uuid1"] true,
        .rename ["C:", "Temp", "uuid0", "second.signature"] ["C:", "Temp", "uuid2"] true ] ∧
    (DownloadDiskArchive (Sample.archiveEnv Sample.diskArchiveEntries)
        "https://cdn/14.0/archive.zip" (Sample.diskWorld [] [])).2.fs.lookup
        ["C:", "Temp", "uuid1"] = some (.file [3] 0o644) ∧
    (DownloadDiskArchive (Sample.archiveEnv Sample.diskArchiveEntries)
        "https://cdn/14.0/archive.zip" (Sample.diskWorld [] [])).2.fs.lookup
        ["C:", "Temp", "uuid2"] = some (.file [4] 0o644) ∧
    (DownloadDiskArchive (Sample.archiveEnv Sample.diskArchiveEntries)
        "https://cdn/14.0/archive.zip" (Sample.diskWorld [] [])).2.fs.lookup
        ["C:", "Temp", "uuid0", "first.dmg"] = some (.file [1] 0o644) ∧
    (DownloadDiskArchive (Sample.archiveEnv Sample.diskArchiveEntries)
        "https://cdn/14.0/archive.zip" (Sample.diskWorld [] [])).2.fs.lookup
        ["C:", "Temp", "uuid0", "first.signature"] = some (.file [2] 0o644) := by
  refine ⟨?_, ?_, ?_, ?_, ?_, ?_⟩ <;> decide!

/-- C22 as amended: once the archive is downloaded and extracted into the
temporary directory, `DownloadDiskArchive` throws `DownloadedDiskNotFound`
exactly when the walk of that directory has no entry with the extension
`.dmg` or no entry with the extension `.signature` (compared in lower case).
Otherwise the loop ends with the last entry of each kind in walk order, and
these are what is moved: the trace gains the rename of the last `.dmg` entry
and, when that was carried out, the rename of the last `.signature` entry. -/
theorem archive_disk_selection (env : DiskEnv) (archiveURL : String) (w w1 : DiskWorld)
    (size : Nat) (fs1 : FileSystem)
    (hdownload : DiskTask.andThen
        (DiskTask.fsStep fun fs => fs.create_directory (temporaryPathOf env w.uuids))
        (fun _ => DownloadFile env archiveURL
          (fsAppend (temporaryPathOf env w.uuids) "archive.zip"))
        { w with uuids := w.uuids + 1 } = (.ok size, w1))
    (hunzip : UnzipArchive env.zip
        (FsPath.string (fsAppend (temporaryPathOf env w.uuids) "archive.zip"))
        (FsPath.string (temporaryPathOf env w.uuids)) w1.fs = (.ok (), fs1))
    (hdir : fs1.is_directory (temporaryPathOf env w.uuids) = true) :
    ((DownloadDiskArchive env archiveURL w).1 =
        .error (.developerDisk .DownloadedDiskNotFound) ↔
      (∀ entry ∈ FileSystem.recursiveEntries (fs1.length + 1) fs1 (temporaryPathOf env w.uuids),
        entryExtension entry ≠ ".dmg") ∨
      (∀ entry ∈ FileSystem.recursiveEntries (fs1.length + 1) fs1 (temporaryPathOf env w.uuids),
        entryExtension entry ≠ ".signature")) ∧
    (∀ (before1 : List (FsPath × FsNode)) (disk : FsPath × FsNode)
        (after1 before2 : List (FsPath × FsNode)) (signature : FsPath × FsNode)
        (after2 : List (FsPath × FsNode)),
      FileSystem.recursiveEntries (fs1.length + 1) fs1 (temporaryPathOf env w.uuids) =
        before1 ++ disk :: after1 →
      entryExtension disk = ".dmg" →
      (∀ entry ∈ after1, entryExtension entry ≠ ".dmg") →
      FileSystem.recursiveEntries (fs1.length + 1) fs1 (temporaryPathOf env w.uuids) =
        before2 ++ signature :: after2 →
      entryExtension signature = ".signature" →
      (∀ entry ∈ after2, entryExtension entry ≠ ".signature") →
      locateDisk (FileSystem.recursiveEntries (fs1.length + 1) fs1
          (temporaryPathOf env w.uuids)) ([], []) = (disk.1, signature.1) ∧
      ((DownloadDiskArchive env archiveURL w).2.log =
          w1.log ++ [DiskEvent.rename disk.1 (temporaryPathOf env w1.uuids) false] ∨
        ∃ carriedOut, (DownloadDiskArchive env archiveURL w).2.log =
          w1.log ++ [DiskEvent.rename disk.1 (temporaryPathOf env w1.uuids) true,
            DiskEvent.rename signature.1 (temporaryPathOf env (w1.uuids + 1)) carriedOut])) := by
  obtain ⟨hresult, hlog⟩ := DownloadDiskArchive_after_download env archiveURL w w1 size hdownload
  have hselected : ∀ (before1 : List (FsPath × FsNode)) (disk : FsPath × FsNode)
      (after1 before2 : List (FsPath × FsNode)) (signature : FsPath × FsNode)
      (after2 : List (FsPath × FsNode)),
      FileSystem.recursiveEntries (fs1.length + 1) fs1 (temporaryPathOf env w.uuids) =
        before1 ++ disk :: after1 →
      entryExtension disk = ".dmg" →
      (∀ entry ∈ after1, entryExtension entry ≠ ".dmg") →
      FileSystem.recursiveEntries (fs1.length + 1) fs1 (temporaryPathOf env w.uuids) =
        before2 ++ signature :: after2 →
      entryExtension signature = ".signature" →
      (∀ entry ∈ after2, entryExtension entry ≠ ".signature") →
      locateDisk (FileSystem.recursiveEntries (fs1.length + 1) fs1
          (temporaryPathOf env w.uuids)) ([], []) = (disk.1, signature.1) := by
    intro before1 disk after1 before2 signature after2 h1 hd ha1 h2 hs ha2
    apply Prod.ext
    · rw [h1]; exact locateDisk_disk_last before1 after1 disk _ hd ha1
    · rw [h2]; exact locateDisk_signature_last before2 after2 signature _ hs ha2
  have hnonempty := recursiveEntries_ne_nil (fs1.length + 1) fs1 (temporaryPathOf env w.uuids)
  constructor
  · constructor
    · intro hfails
      by_contra hboth
      rw [not_or] at hboth
      rcases last_with_extension ".dmg"
        (FileSystem.recursiveEntries (fs1.length + 1) fs1 (temporaryPathOf env w.uuids)) with
        hnone | ⟨before1, disk, after1, h1, hd, ha1⟩
      · exact hboth.1 hnone
      · rcases last_with_extension ".signature"
          (FileSystem.recursiveEntries (fs1.length + 1) fs1 (temporaryPathOf env w.uuids)) with
          hnone | ⟨before2, signature, after2, h2, hs, ha2⟩
        · exact hboth.2 hnone
        · have hfound := hselected before1 disk after1 before2 signature after2 h1 hd ha1 h2 hs ha2
          have hdiskMem : disk ∈ FileSystem.recursiveEntries (fs1.length + 1) fs1
              (temporaryPathOf env w.uuids) := by rw [h1]; simp
          have hsignatureMem : signature ∈ FileSystem.recursiveEntries (fs1.length + 1) fs1
              (temporaryPathOf env w.uuids) := by rw [h2]; simp
          have hpresent := extractDisk_present env _ _ w1 fs1 hunzip hdir
            (by rw [hfound]; exact hnonempty disk hdiskMem)
            (by rw [hfound]; exact hnonempty signature hsignatureMem)
          rw [hresult] at hfails
          exact hpresent.1 hfails
    · intro habsent
      rw [hresult]
      have hfound :
          (locateDisk (FileSystem.recursiveEntries (fs1.length + 1) fs1
            (temporaryPathOf env w.uuids)) ([], [])).1 = [] ∨
          (locateDisk (FileSystem.recursiveEntries (fs1.length + 1) fs1
            (temporaryPathOf env w.uuids)) ([], [])).2 = [] := by
        rcases habsent with h | h
        · exact Or.inl (locateDisk_disk_absent _ _ h)
        · exact Or.inr (locateDisk_signature_absent _ _ h)
      rw [extractDisk_absent env _ _ w1 fs1 hunzip hdir hfound]
  · intro before1 disk after1 before2 signature after2 h1 hd ha1 h2 hs ha2
    have hfound := hselected before1 disk after1 before2 signature after2 h1 hd ha1 h2 hs ha2
    refine ⟨hfound, ?_⟩
    have hdiskMem : disk ∈ FileSystem.recursiveEntries (fs1.length + 1) fs1
        (temporaryPathOf env w.uuids) := by rw [h1]; simp
    have hsignatureMem : signature ∈ FileSystem.recursiveEntries (fs1.length + 1) fs1
        (temporaryPathOf env w.uuids) := by rw [h2]; simp
    have hpresent := extractDisk_present env _ _ w1 fs1 hunzip hdir
      (by rw [hfound]; exact hnonempty disk hdiskMem)
      (by rw [hfound]; exact hnonempty signature hsignatureMem)
    rw [hlog]
    have := hpresent.2
    rw [hfound] at this
    exact this


set_option maxRecDepth 100000 in
/-- C22 as amended, on the sample archive: the loop ends with `second.DMG` and
`second.signature`, the last entries of their kinds, and these are renamed. -/
theorem archive_disk_selection_example :
    locateDisk (FileSystem.recursiveEntries (Sample.extractedFs.length + 1) Sample.extractedFs
        (temporaryPathOf (Sample.archiveEnv Sample.diskArchiveEntries)
          (Sample.diskWorld [] []).uuids)) ([], []) =
      (["C:", "Temp", "uuid0", "second.DMG"], ["C:", "Temp", "uuid0", "second.signature"]) ∧
    ((DownloadDiskArchive (Sample.archiveEnv Sample.diskArchiveEntries)
          "https://cdn/14.0/archive.zip" (Sample.diskWorld [] [])).2.log =
        Sample.downloadedWorld.log ++
          [DiskEvent.rename ["C:", "Temp", "uuid0", "second.DMG"]
            (temporaryPathOf (Sample.archiveEnv Sample.diskArchiveEntries)
              Sample.downloadedWorld.uuids) false] ∨
      ∃ carriedOut,
        (DownloadDiskArchive (Sample.archiveEnv Sample.diskArchiveEntries)
          "https://cdn/14.0/archive.zip" (Sample.diskWorld [] [])).2.log =
        Sample.downloadedWorld.log ++
          [DiskEvent.rename ["C:", "Temp", "uuid0", "second.DMG"]
            (temporaryPathOf (Sample.archiveEnv Sample.diskArchiveEntries)
              Sample.downloadedWorld.uuids) true,
           DiskEvent.rename ["C:", "Temp", "uuid0", "second.signature"]
            (temporaryPathOf (Sample.archiveEnv Sample.diskArchiveEntries)
              (Sample.downloadedWorld.uuids + 1)) carriedOut]) :=
  (archive_disk_selection (Sample.archiveEnv Sample.diskArchiveEntries)
    "https://cdn/14.0/archive.zip" (Sample.diskWorld [] []) Sample.downloadedWorld 73
    Sample.extractedFs (by decide!) (by decide!) (by decide!)).2
    [ (["C:", "Temp", "uuid0", "archive.zip"],
        .file (Sample.minizip.zipClose Sample.diskArchiveEntries) 0o666),
      (["C:", "Temp", "uuid0", "first.dmg"], .file [1] 0o644),
      (["C:", "Temp", "uuid0", "first.signature"], .file [2] 0o644) ]
    (["C:", "Temp", "uuid0", "second.DMG"], .file [3] 0o644)
    [ (["C:", "Temp", "uuid0", "second.signature"], .file [4] 0o644) ]
    [ (["C:", "Temp", "uuid0", "archive.zip"],
        .file (Sample.minizip.zipClose Sample.diskArchiveEntries) 0o666),
      (["C:", "Temp", "uuid0", "first.dmg"], .file [1] 0o644),
      (["C:", "Temp", "uuid0", "first.signature"], .file [2] 0o644),
      (["C:", "Temp", "uuid0", "second.DMG"], .file [3] 0o644) ]
    (["C:", "Temp", "uuid0", "second.signature"], .file [4] 0o644)
    []
    (by decide!) (by decide!) (by decide!) (by decide!) (by decide!) (by decide!)


/-! ## The live set of the connection manager -/

/-- What is in a `std::set` after `insert`. -/
theorem mem_setInsert (x y : Nat) (set : List Nat) :
    y ∈ setInsert x set ↔ y = x ∨ y ∈ set := by
  induction set with
  | nil => simp [setInsert]
  | cons z rest ih =>
    unfold setInsert
    split
    · simp
    · split
      · next hxz =>
        subst hxz
        simp
      · rw [List.mem_cons, ih, List.mem_cons]
        constructor
        · rintro (h | h | h)
          · exact Or.inr (Or.inl h)
          · exact Or.inl h
          · exact Or.inr (Or.inr h)
        · rintro (h | h | h)
          · exact Or.inr (Or.inl h)
          · exact Or.inl h
          · exact Or.inr (Or.inr h)

/-- What is in a `std::set` after `erase`. -/
theorem mem_setErase (x y : Nat) (set : List Nat) :
    y ∈ setErase x set ↔ y ∈ set ∧ y ≠ x := by
  simp [setErase]

/-- C24: `HandleRequest` inserts the connection into the live set (it is a
member as long as `ProcessAppRequest` has not completed, and `Disconnect` has
not been called).  When `ProcessAppRequest` has completed, with a value or
with an exception, `HandleRequest` has logged one line, waited one second and
called `Disconnect` on the connection exactly once; the connection is not a
member of the live set, and the membership of every other connection is as it
was. -/
theorem HandleRequest_live_set (env : Env) (m : ConnectionManager) (clientConnection : Nat)
    (w : World) :
    ((ProcessAppRequest env w).1 = .pending →
      clientConnection ∈ (ConnectionManager.HandleRequest env m clientConnection w).2._connections ∧
      (ConnectionManager.HandleRequest env m clientConnection w).2.log = m.log) ∧
    ((ProcessAppRequest env w).1 ≠ .pending →
      (∃ line,
        (((ProcessAppRequest env w).1 = .ok () ∧
            line = ManagerEvent.stdoutlog "Finished handling request!") ∨
          ((∃ e, (ProcessAppRequest env w).1 = .raised e) ∧
            line = ManagerEvent.stderrlog "Failed to handle request: ")) ∧
        (ConnectionManager.HandleRequest env m clientConnection w).2.log =
          m.log ++ [line, ManagerEvent.sleep_for 1, ManagerEvent.disconnect clientConnection]) ∧
      clientConnection ∉
        (ConnectionManager.HandleRequest env m clientConnection w).2._connections ∧
      ∀ other, other ≠ clientConnection →
        (other ∈ (ConnectionManager.HandleRequest env m clientConnection w).2._connections ↔
          other ∈ m._connections)) := by
  unfold ConnectionManager.HandleRequest
  cases hrun : ProcessAppRequest env w with
  | mk result w1 =>
    cases result with
    | pending =>
      refine ⟨fun _ => ⟨?_, rfl⟩, fun h => absurd rfl h⟩
      simp [mem_setInsert]
    | ok value =>
      refine ⟨(fun h => by cases h), fun _ => ⟨⟨_, Or.inl ⟨rfl, rfl⟩, ?_⟩, ?_, ?_⟩⟩
      · simp [ConnectionManager.Disconnect]
      · simp [ConnectionManager.Disconnect, mem_setErase]
      · intro other hother
        simp [ConnectionManager.Disconnect, mem_setErase, mem_setInsert, hother]
    | raised e =>
      refine ⟨(fun h => by cases h), fun _ => ⟨⟨_, Or.inr ⟨⟨e, rfl⟩, rfl⟩, ?_⟩, ?_, ?_⟩⟩
      · simp [ConnectionManager.Disconnect]
      · simp [ConnectionManager.Disconnect, mem_setErase]
      · intro other hother
        simp [ConnectionManager.Disconnect, mem_setErase, mem_setInsert, hother]

set_option maxRecDepth 100000 in
/-- C24 at a request that fails (an unknown identifier), handled by a manager
with one other live connection. -/
theorem HandleRequest_live_set_example :
    (∃ line,
      (((ProcessAppRequest Sample.env
            (Sample.world (Sample.frame "\x7b\"identifier\":\"PingRequest\"\x7d") [])).1 =
            .ok () ∧
          line = ManagerEvent.stdoutlog "Finished handling request!") ∨
        ((∃ e, (ProcessAppRequest Sample.env
            (Sample.world (Sample.frame "\x7b\"identifier\":\"PingRequest\"\x7d") [])).1 =
            .raised e) ∧
          line = ManagerEvent.stderrlog "Failed to handle request: ")) ∧
      (ConnectionManager.HandleRequest Sample.env ⟨[7], []⟩ 3
          (Sample.world (Sample.frame "\x7b\"identifier\":\"PingRequest\"\x7d") [])).2.log =
        [] ++ [line, ManagerEvent.sleep_for 1, ManagerEvent.disconnect 3]) ∧
    3 ∉ (ConnectionManager.HandleRequest Sample.env ⟨[7], []⟩ 3
        (Sample.world (Sample.frame "\x7b\"identifier\":\"PingRequest\"\x7d") [])).2._connections ∧
    ∀ other, other ≠ 3 →
      (other ∈ (ConnectionManager.HandleRequest Sample.env ⟨[7], []⟩ 3
          (Sample.world (Sample.frame "\x7b\"identifier\":\"PingRequest\"\x7d")
            [])).2._connections ↔
        other ∈ [7]) :=
  (HandleRequest_live_set Sample.env ⟨[7], []⟩ 3
    (Sample.world (Sample.frame "\x7b\"identifier\":\"PingRequest\"\x7d") [])).2 (by decide!)

end MiniappBuilder
